import Mathlib

/-!
# PETSc: bit arrays, the hybrid-mesh test `ex5.c`, `DAGetInfo`, and pointwise functions

Part I embeds the bit-array macros of `include/petscbt.h`.  A `char` in memory is one
byte, kept as a natural number read modulo 256; its value after the integer promotions
depends on whether plain `char` is signed, which is a parameter of every operation.
`int` is 32 bits wide (`PETSC_SIZEOF_INT 4` in `petscconf.h`) in two's complement.
-/

namespace PetscBT

/-- Macro `#define BITSPERBYTE 8`. -/
def BITSPERBYTE : Int := 8

/-- Bit pattern of a C `int` (32 bits, two's complement). -/
def intBits (x : Int) : Nat := (x % 4294967296).toNat

/-- The `int` whose bit pattern is `u`. -/
def intOfBits (u : Nat) : Int :=
  if u % 4294967296 < 2147483648 then ((u % 4294967296 : Nat) : Int)
  else ((u % 4294967296 : Nat) : Int) - 4294967296

/-- C `x & y` on `int`. -/
def intAnd (x y : Int) : Int := intOfBits (intBits x &&& intBits y)

/-- C `x | y` on `int`. -/
def intOr (x y : Int) : Int := intOfBits (intBits x ||| intBits y)

/-- C `~x` on `int`. -/
def intNot (x : Int) : Int := intOfBits (4294967295 - intBits x)

/-- Value of the stored byte `b` once C has promoted the `char` to `int`. -/
def charToInt (signedChar : Bool) (b : Nat) : Int :=
  if signedChar && decide (128 ≤ b % 256) then ((b % 256 : Nat) : Int) - 256
  else ((b % 256 : Nat) : Int)

/-- Conversion of an `int` to `char`: the low byte is what is stored. -/
def intToChar (x : Int) : Nat := (x % 256).toNat

/-- The bit array together with the three globals of petscbt.h
(`extern char _BT_mask,_BT_c; extern int _BT_idx;`). -/
structure BT where
  array : List Nat
  _BT_mask : Nat
  _BT_c : Nat
  _BT_idx : Int
  deriving DecidableEq

/-- Macro `#define PetscBTLength(m) ((m)/BITSPERBYTE+1)*sizeof(char)`. -/
def PetscBTLength (m : Int) : Int := (Int.tdiv m BITSPERBYTE + 1) * 1

/-- Macro `PetscBTMemzero(m,array)`, that is `PetscMemzero(array,(m)/BITSPERBYTE+1)`: the first `(m)/BITSPERBYTE+1` bytes become 0.
`none` when the array is shorter than that. -/
def PetscBTMemzero (m : Int) (st : BT) : Option BT :=
  let n := (Int.tdiv m BITSPERBYTE + 1).toNat
  if n ≤ st.array.length then
    some { st with array := List.replicate n 0 ++ st.array.drop n }
  else none

/-- Macro `PetscBTCreate(m,array)`: `PetscMalloc` of `((m)/BITSPERBYTE+1)*sizeof(char)` bytes,
whose contents are unspecified (`junk`, cut or padded to that size), then `PetscBTMemzero`. -/
def PetscBTCreate (m : Int) (junk : List Nat) (st : BT) : Option BT :=
  let n := (PetscBTLength m).toNat
  PetscBTMemzero m { st with array := (junk ++ List.replicate n 0).take n }

/-- The three assignments every macro starts with:
`_BT_idx = (index)/BITSPERBYTE, _BT_c = array[_BT_idx],
 _BT_mask = (char)1 << ((index)%BITSPERBYTE)`.
`none` stands for undefined behaviour: a read outside the array or a negative shift. -/
def prologue (st : BT) (index : Int) : Option BT :=
  let idx := Int.tdiv index BITSPERBYTE
  if idx < 0 then none
  else
    match st.array[idx.toNat]? with
    | none => none
    | some c =>
      let sh := Int.tmod index BITSPERBYTE
      if sh < 0 then none
      else some { st with _BT_idx := idx, _BT_c := c, _BT_mask := intToChar (1 * 2 ^ sh.toNat) }

/-- Macro `PetscBTLookupSet(array,index)`: after the prologue,
`array[_BT_idx] = _BT_c | _BT_mask, _BT_c & _BT_mask`; the value is that of the last
expression, an `int`. -/
def PetscBTLookupSet (signedChar : Bool) (st : BT) (index : Int) : Option (Int × BT) :=
  match prologue st index with
  | none => none
  | some s =>
    let c := charToInt signedChar s._BT_c
    let mask := charToInt signedChar s._BT_mask
    some (intAnd c mask, { s with array := s.array.set s._BT_idx.toNat (intToChar (intOr c mask)) })

/-- Macro `PetscBTSet(array,index)`: after the prologue, `array[_BT_idx] = _BT_c | _BT_mask`;
the value is the `char` just stored. -/
def PetscBTSet (signedChar : Bool) (st : BT) (index : Int) : Option (Int × BT) :=
  match prologue st index with
  | none => none
  | some s =>
    let c := charToInt signedChar s._BT_c
    let mask := charToInt signedChar s._BT_mask
    let v := intToChar (intOr c mask)
    some (charToInt signedChar v, { s with array := s.array.set s._BT_idx.toNat v })

/-- Macro `PetscBTClear(array,index)`: after the prologue, `array[_BT_idx] = _BT_c & (~_BT_mask)`. -/
def PetscBTClear (signedChar : Bool) (st : BT) (index : Int) : Option (Int × BT) :=
  match prologue st index with
  | none => none
  | some s =>
    let c := charToInt signedChar s._BT_c
    let mask := charToInt signedChar s._BT_mask
    let v := intToChar (intAnd c (intNot mask))
    some (charToInt signedChar v, { s with array := s.array.set s._BT_idx.toNat v })

/-- Macro `PetscBTLookup(array,index)`: after the prologue, `(_BT_c & _BT_mask) != 0`. -/
def PetscBTLookup (signedChar : Bool) (st : BT) (index : Int) : Option (Int × BT) :=
  match prologue st index with
  | none => none
  | some s =>
    let c := charToInt signedChar s._BT_c
    let mask := charToInt signedChar s._BT_mask
    some (if intAnd c mask ≠ 0 then 1 else 0, s)

end PetscBT

namespace PetscBT

/-- The value `PetscBTLookup` computes from the byte `c` for bit `q` of it. -/
def lookupBit (sc : Bool) (c q : Nat) : Int :=
  if intAnd (charToInt sc c) (charToInt sc (intToChar (1 * 2 ^ q))) ≠ 0 then 1 else 0

end PetscBT

/-!
# Part II: the incidence graph and hybrid-mesh construction exercised by `plex/tests/ex5.c`

`ex5.c` calls `DMPlexCreateFromDAG`, `DMPlexInterpolate` and `DMPlexCreateHybridMesh`, none
of which is among the source files; they are modelled from the specification (sections 3
and 4) and from the numbered pictures in the header comment of `ex5.c`.  Where the
specification and a picture differ, as at the fault end inside the mesh of quadrilateral
test 1, the model follows the picture.  The fixtures themselves (`numPoints`, `coneSize`,
`cones`, `coneOrientations`, `faultPoints`) are the arrays of `ex5.c`.
-/

namespace Plex

/-- Error taxonomy of the specification (section 7). -/
inductive PlexError where
  | ShapeMismatch
  | NotSetUp
  | AmbiguousSide
  | OrphanDuplicate
  | BuriedTipConflict
  deriving DecidableEq

/-- Modelled from the spec: the incidence graph (section 3, 4.1); the PETSc `DM` of type
`DMPLEX` is not in the sources.  The chart is `[0, cones.length)`; `cones[p]` is the ordered
boundary of `p`, `orients[p]` the orientation of each cone entry, and `supports` is absent
until `symmetrize` has run. -/
structure Graph where
  cones : List (List Nat)
  orients : List (List Int)
  supports : Option (List (List Nat))
  deriving DecidableEq

namespace Graph

/-- Number of points of the chart. -/
def numPoints (g : Graph) : Nat := g.cones.length

/-- Modelled from the spec: `getCone(p)`, a pure read accessor (4.1). -/
def getCone (g : Graph) (p : Nat) : List Nat := g.cones.getD p []

/-- Orientations recorded along `getCone g p`. -/
def getConeOrientation (g : Graph) (p : Nat) : List Int := g.orients.getD p []

/-- Modelled from the spec: `symmetrize()` "computes support for every point from all
declared cones" (4.1): `q` is put in the support of `p` exactly when `p` is in the cone of `q`. -/
def symmetrize (g : Graph) : Graph :=
  { g with supports := some ((List.range g.numPoints).map fun p =>
      (List.range g.numPoints).filter fun q => decide (p ∈ g.getCone q)) }

/-- Modelled from the spec: `getSupport(p)`; "fails with `NotSetUp` if queried earlier"
than `symmetrize` (4.1). -/
def getSupport (g : Graph) (p : Nat) : Except PlexError (List Nat) :=
  match g.supports with
  | none => Except.error PlexError.NotSetUp
  | some s => Except.ok (s.getD p [])

/-- Support table read without the set-up check (empty before `symmetrize`). -/
def supportOf (g : Graph) (p : Nat) : List Nat :=
  match g.supports with
  | none => []
  | some s => s.getD p []

end Graph

/-- Points reached from `p` by following `next` at most `fuel` times, `p` included. -/
def reach (next : Nat → List Nat) : Nat → Nat → List Nat
  | 0, p => [p]
  | fuel + 1, p => p :: (next p).flatMap (reach next fuel)

namespace Graph

/-- Transitive boundary without the set-up check: cones followed up to `numPoints` times,
which exhausts every path without a repeated point. -/
def closureOf (g : Graph) (p : Nat) : List Nat := (reach g.getCone g.numPoints p).dedup

/-- Transitive coboundary without the set-up check. -/
def starOf (g : Graph) (p : Nat) : List Nat := (reach g.supportOf g.numPoints p).dedup

/-- Modelled from the spec: `closure(p)` "returns the set of points reachable by repeatedly
following cones from p (p itself, its cone, their cones, ...), deduplicated" (4.3).  The
cumulative orientation tags of the specification are not modelled. -/
def closure (g : Graph) (p : Nat) : Except PlexError (List Nat) :=
  match g.supports with
  | none => Except.error PlexError.NotSetUp
  | some _ => Except.ok (g.closureOf p)

/-- Modelled from the spec: `star(p)`, the "dual traversal following supports instead of
cones" (4.3). -/
def star (g : Graph) (p : Nat) : Except PlexError (List Nat) :=
  match g.supports with
  | none => Except.error PlexError.NotSetUp
  | some _ => Except.ok (g.starOf p)

/-- Depth of `p` computed from the cones: 0 for an empty cone, otherwise one more than the
largest depth in the cone. -/
def depthAux (cone : Nat → List Nat) : Nat → Nat → Nat
  | 0, _ => 0
  | fuel + 1, p =>
    match cone p with
    | [] => 0
    | q :: qs => 1 + ((q :: qs).map (depthAux cone fuel)).foldl max 0

/-- Depth of a point (0 = vertex). -/
def depth (g : Graph) (p : Nat) : Nat := depthAux g.getCone g.numPoints p

/-- Topological dimension: the largest depth in the chart. -/
def dim (g : Graph) : Nat := ((List.range g.numPoints).map g.depth).foldl max 0

/-- Modelled from the spec: `getDepthStratum(d)`, the points of depth `d` (4.1). -/
def getDepthStratum (g : Graph) (d : Nat) : List Nat :=
  (List.range g.numPoints).filter fun p => g.depth p == d

/-- Modelled from the spec: `getHeightStratum(h)`, height 0 = cells (4.1). -/
def getHeightStratum (g : Graph) (h : Nat) : List Nat :=
  if h ≤ g.dim then g.getDepthStratum (g.dim - h) else []

/-- Vertices (depth 0) in the closure of `p`. -/
def vertices (g : Graph) (p : Nat) : List Nat := (g.closureOf p).filter fun q => g.depth q == 0

/-- Cells (depth `dim`) in the star of `p`. -/
def starCells (g : Graph) (p : Nat) : List Nat := (g.starOf p).filter fun q => g.depth q == g.dim

end Graph

/-- Cut the flat array `xs` into consecutive pieces of the given sizes. -/
def sliceBy {α : Type} : List Nat → List α → List (List α)
  | [], _ => []
  | n :: ns, xs => xs.take n :: sliceBy ns (xs.drop n)

/-- Modelled from the spec: `DMPlexCreateFromDAG(dm, depth, numPoints, coneSize, cones,
coneOrientations, vertexCoords)` is not in the sources.  It declares the chart
`[0, sum numPoints)`, then each point's cone size, cone and cone orientation, and
symmetrizes; per 4.1 it "fails with `ShapeMismatch` if sizes disagree".  Coordinates are
not part of the incidence graph. -/
def createFromDAG (depth : Nat) (numPoints coneSize cones : List Nat)
    (coneOrientations : List Int) : Except PlexError Graph :=
  if numPoints.length = depth + 1 ∧ coneSize.length = numPoints.sum ∧
      cones.length = coneSize.sum ∧ coneOrientations.length = coneSize.sum then
    Except.ok (Graph.symmetrize ⟨sliceBy coneSize cones, sliceBy coneSize coneOrientations, none⟩)
  else Except.error PlexError.ShapeMismatch

/-- Modelled from the spec: a label is a "name-qualified mapping from point to integer
value" (section 3); one label is kept as its list of (point, value) pairs. -/
abbrev Label := List (Nat × Int)

/-- Modelled from the spec: `getStratumPoints(name, v)`, the points with value `v` (4.2). -/
def Label.getStratumPoints (l : Label) (v : Int) : List Nat :=
  (l.filter fun e => e.2 == v).map Prod.fst

/-- Modelled from the spec: `setValue(name, p, v)` (4.2). -/
def Label.setValue (l : Label) (p : Nat) (v : Int) : Label := l ++ [(p, v)]

/-- Points that carry any value under the label. -/
def Label.points (l : Label) : List Nat := l.map Prod.fst

end Plex

namespace Plex

/-! ## Interpolation of the cell-vertex fixtures -/

/-- Faces of a cell given by its vertex cone.  A polygon (`dim = 2`) is bounded by the
segments between cyclically consecutive vertices; a hexahedron (`dim = 3`, eight vertices
`v0..v3` around the bottom with outward normal and `v4..v7` around the top, as in the
fixtures of `CreateHex_3D`) is bounded by bottom, top, front, right, back and left
quadrilaterals, each listed with outward normal. -/
def cellFaces (dim : Nat) (c : List Nat) : List (List Nat) :=
  let v := fun i => c.getD i 0
  if dim = 2 then (List.range c.length).map fun i => [v i, v ((i + 1) % c.length)]
  else if dim = 3 ∧ c.length = 8 then
    [[v 0, v 1, v 2, v 3], [v 4, v 5, v 6, v 7], [v 0, v 3, v 5, v 4],
     [v 3, v 2, v 6, v 5], [v 2, v 1, v 7, v 6], [v 0, v 4, v 7, v 1]]
  else []

/-- Two vertex lists span the same face. -/
def sameFace (a b : List Nat) : Bool := a.length == b.length && a.all fun x => b.contains x

/-- Orientation of the traversal `t` of a face stored as `stored`: 0 when equal, `k > 0`
when `t` is `stored` rotated by `k`, negative when `t` runs the other way round (`-1` for a
reversed segment), following the convention that the sign means "reversed". -/
def orientOf (stored t : List Nat) : Int :=
  let n := stored.length
  if t = stored then 0
  else if n = 2 then -1
  else
    let k := ((List.range n).map fun i => stored.rotate i).indexOf t
    if k < n then (k : Int)
    else -((((List.range n).map fun i => stored.reverse.rotate i).indexOf t : Nat) : Int) - 1

/-- Enter the faces of one cell into the face table; the second component is the cell's
cone as (face index, orientation). -/
def addCell (dim : Nat) (faces : List (List Nat)) (c : List Nat) :
    List (List Nat) × List (Nat × Int) :=
  (cellFaces dim c).foldl (fun acc t =>
    let i := acc.1.findIdx (sameFace t)
    if i < acc.1.length then (acc.1, acc.2 ++ [(i, orientOf (acc.1.getD i []) t)])
    else (acc.1 ++ [t], acc.2 ++ [(acc.1.length, 0)])) (faces, [])

/-- Faces of a list of cells, numbered in order of first appearance, and the cone of each
cell over them. -/
def interpolateLevel (dim : Nat) (cells : List (List Nat)) :
    List (List Nat) × List (List (Nat × Int)) :=
  cells.foldl (fun acc c =>
    let r := addCell dim acc.1 c
    (r.1, acc.2 ++ [r.2])) ([], [])

/-- Modelled from the spec: `DMPlexInterpolate` is not in the sources.  From a cell-vertex
graph (cells first, then vertices) it creates the intermediate points, numbered after the
vertices in order of first appearance: edges in 2-D, faces and then edges in 3-D (the
numbering of the pictures in `ex5.c`: cells, vertices, faces, edges). -/
def interpolate (dim : Nat) (g : Graph) : Graph :=
  let n0 := g.numPoints
  let cells := g.cones.filter fun c => !c.isEmpty
  let nc := cells.length
  if dim = 2 then
    let r := interpolateLevel 2 cells
    Graph.symmetrize
      ⟨r.2.map (fun c => c.map fun e => n0 + e.1) ++ List.replicate (n0 - nc) [] ++ r.1,
       r.2.map (fun c => c.map Prod.snd) ++ List.replicate (n0 - nc) [] ++
         r.1.map (fun e => e.map fun _ => 0), none⟩
  else if dim = 3 then
    let r1 := interpolateLevel 3 cells
    let r2 := interpolateLevel 2 r1.1
    let nf := r1.1.length
    Graph.symmetrize
      ⟨r1.2.map (fun c => c.map fun e => n0 + e.1) ++ List.replicate (n0 - nc) [] ++
         r2.2.map (fun c => c.map fun e => n0 + nf + e.1) ++ r2.1,
       r1.2.map (fun c => c.map Prod.snd) ++ List.replicate (n0 - nc) [] ++
         r2.2.map (fun c => c.map Prod.snd) ++ r2.1.map (fun e => e.map fun _ => 0), none⟩
  else g

/-! ## Fault classification (4.4) -/

/-- Fault cells: the points one dimension below the volume that carry the fault label, or
all of whose vertices carry it (`ex5.c` labels only the vertices of the fault,
`faultPoints`). -/
def faultCells (g : Graph) (fault : Label) : List Nat :=
  if g.dim = 0 then []
  else (g.getDepthStratum (g.dim - 1)).filter fun f =>
    decide (f ∈ fault.points) ||
      (!(g.vertices f).isEmpty && (g.vertices f).all fun v => decide (v ∈ fault.points))

/-- The fault points: the points below cell dimension in `closure(faultPoints)`, by
increasing id. -/
def faultClosure (g : Graph) (fc : List Nat) : List Nat :=
  (List.range g.numPoints).filter fun p =>
    decide (g.depth p < g.dim) && fc.any fun f => decide (p ∈ g.closureOf f)

/-- Faces in the cones of both `c` and `d`. -/
def sharedFaces (g : Graph) (c d : Nat) : List Nat :=
  (g.getCone c).filter fun f => decide (f ∈ g.getCone d)

/-- Modelled from the spec: a fault point is kept shared when "it lies in a separately
supplied fault boundary label" (4.4).  The other ground of 4.4, the buried termination,
does not enter: section 9 leaves its rule open, and the one fault end inside a mesh whose
result `ex5.c` documents, vertex 19 of quadrilateral test 1, is drawn duplicated (22 and 30
in "After first fault"), the split running on along one more edge to the unsplit vertex 23
(cohesive cell 11).  `CreateMesh` passes the label "faultBd", which no fixture sets. -/
def isKeepShared (faultBd : Label) (p : Nat) : Bool := decide (p ∈ faultBd.points)

/-- Modelled from the spec: the interior fault points (4.4), the fault points outside the
fault boundary label. -/
def interiorOf (g : Graph) (fault faultBd : Label) : List Nat :=
  (faultClosure g (faultCells g fault)).filter fun p => !isKeepShared faultBd p

/-- Modelled from the spec: the fault points "kept single". -/
def keepSharedOf (g : Graph) (fault faultBd : Label) : List Nat :=
  (faultClosure g (faultCells g fault)).filter fun p => isKeepShared faultBd p

/-! ## Side assignment (4.5, step 2) -/

/-- The point `q` touches the fault: its closure holds one of the points `inner`. -/
def touches (g : Graph) (inner : List Nat) (q : Nat) : Bool :=
  (g.closureOf q).any fun p => decide (p ∈ inner)

/-- Cells adjacent to the fault: those that touch it. -/
def nearCells (g : Graph) (inner : List Nat) : List Nat :=
  (g.getHeightStratum 0).filter fun c => touches g inner c

/-- Sign that the point `f` induces on the entry `r` of its cone: for a segment the first
vertex is its tail (-1) and the second its head (+1); otherwise the sign of the recorded
orientation. -/
def inducedSign (g : Graph) (f r : Nat) : Int :=
  if g.depth f = 1 then (if (g.getCone f).indexOf r = 0 then -1 else 1)
  else
    match ((g.getCone f).zip (g.getConeOrientation f)).find? fun e => e.1 == r with
    | some e => if e.2 < 0 then -1 else 1
    | none => 1

/-- Sign a fault cell `f` must take next to the fault cell `a` of sign `s` across the shared
boundary point `r`: the two must induce opposite signs on `r`. -/
def signAcross (g : Graph) (a : Nat × Int) (f r : Nat) : Int :=
  -(a.2 * inducedSign g a.1 r * inducedSign g f r)

/-- One more fault cell receives its sign: the first one that shares a boundary point with
an already signed cell, or, when there is none, the last remaining one, which starts a new
piece of the fault with sign +1. -/
def orientStep (g : Graph) (fcs : List Nat) (acc : List (Nat × Int)) : List (Nat × Int) :=
  match fcs.filter fun f => !acc.any fun a => a.1 == f with
  | [] => acc
  | f :: fs =>
    match (f :: fs).findSome? fun f' => acc.findSome? fun a =>
        (sharedFaces g a.1 f').head?.map fun r => (f', signAcross g a f' r) with
    | some e => acc ++ [e]
    | none => acc ++ [((f :: fs).getLast (List.cons_ne_nil f fs), 1)]

/-- Modelled from the spec: "the fault's own orientation" (4.5 step 2), a sign for every
split fault cell such that neighbouring fault cells agree across their common boundary. -/
def faultOrientation (g : Graph) (fcs : List Nat) : List (Nat × Int) :=
  (List.range fcs.length).foldl (fun acc _ => orientStep g fcs acc) []

/-- Sign of the fault cell `f` in the fault's orientation (0 when it has none). -/
def faultSign (g : Graph) (fcs : List Nat) (f : Nat) : Int :=
  match (faultOrientation g fcs).find? fun a => a.1 == f with
  | some a => a.2
  | none => 0

/-- The fault cannot be oriented: two neighbouring split fault cells induce the same sign
on a common boundary point. -/
def misoriented (g : Graph) (fcs : List Nat) : Bool :=
  fcs.any fun f => fcs.any fun f' =>
    !(f == f') && (sharedFaces g f f').any fun r =>
      !(faultSign g fcs f' == signAcross g (f, faultSign g fcs f) f' r)

/-- Cells holding a split fault cell in their cone whose recorded orientation, taken
against the fault's own orientation, is negative (`neg = true`, side B) or not (side A). -/
def seedCells (g : Graph) (fc inner : List Nat) (neg : Bool) : List Nat :=
  (nearCells g inner).filter fun c =>
    ((g.getCone c).zip (g.getConeOrientation c)).any fun e =>
      decide (e.1 ∈ fc) && decide (e.1 ∈ inner) &&
        (decide ((if e.2 < 0 then -1 else 1) *
          faultSign g (fc.filter fun f => decide (f ∈ inner)) e.1 < 0) == neg)

/-- Side recorded for the cell `c` (`true` = side B), if any. -/
def sideOf (sides : List (Nat × Bool)) (c : Nat) : Option Bool :=
  (sides.find? fun e => e.1 == c).map Prod.snd

/-- Side that the cell `c` finds next to itself: that of the cell behind the first face of
its cone that touches the fault, is not a fault cell, and has a cell with a side behind it. -/
def sideAcross (g : Graph) (fc inner : List Nat) (sides : List (Nat × Bool)) (c : Nat) :
    Option Bool :=
  (g.getCone c).findSome? fun f =>
    if !decide (f ∈ fc) && touches g inner f then
      (g.supportOf f).findSome? fun d => if d == c then none else sideOf sides d
    else none

/-- One pass over `cells`: every cell without a side takes the side it finds next to
itself. -/
def sweep (g : Graph) (fc inner : List Nat) (cells : List Nat) (sides : List (Nat × Bool)) :
    List (Nat × Bool) :=
  cells.foldl (fun s c =>
    match sideOf s c with
    | some _ => s
    | none =>
      match sideAcross g fc inner s c with
      | some b => s ++ [(c, b)]
      | none => s) sides

/-- Modelled from the spec: the side of every cell adjacent to the fault (4.5 step 2).  The
cells on a fault cell take their side from its orientation; the cells that touch the fault
only along lower-dimensional points take the side of a neighbour across a face touching the
fault, the stars of the interior fault vertices being swept in order of vertex id.  (In
quadrilateral test 1 cells 7 and 8 below the fault end 19 so come to lie with cell 4, as the
picture has them: 7 and 8 keep vertex 22, only cell 5 has its duplicate 30.) -/
def assignSides (g : Graph) (fc inner : List Nat) : List (Nat × Bool) :=
  (inner.filter fun p => g.depth p == 0).foldl
    (fun s v => (g.starCells v).foldl (fun s _ => sweep g fc inner (g.starCells v) s) s)
    ((seedCells g fc inner false).map (fun c => (c, false)) ++
      (seedCells g fc inner true).map (fun c => (c, true)))

/-- Cells of one side (`neg = true`: side B) among `sides`, by increasing id. -/
def sideCells (g : Graph) (inner : List Nat) (sides : List (Nat × Bool)) (neg : Bool) :
    List Nat :=
  (nearCells g inner).filter fun c => sideOf sides c == some neg

/-- Faces that are no fault cells but touch the fault and divide a side-A cell from a
side-B cell: there the fault has no end of its own, and the split runs on through the face
(the edge between vertices 19 and 20 in quadrilateral test 1, between cells 5 and 8). -/
def extensionFaces (g : Graph) (fc inner : List Nat) (sides : List (Nat × Bool)) : List Nat :=
  (g.getDepthStratum (g.dim - 1)).filter fun f =>
    !decide (f ∈ fc) && touches g inner f &&
      match g.supportOf f with
      | [c, d] =>
        (match sideOf sides c, sideOf sides d with
         | some a, some b => a != b
         | _, _ => false)
      | _ => false

/-- The interior fault points `inner` and, of every face `ext` the split runs on through,
the points that touch the fault (the face itself and, in 3-D, its edges on an interior fault
vertex); the other points of such a face stay single. -/
def splitWith (g : Graph) (faultBd : Label) (inner ext : List Nat) : List Nat :=
  (List.range g.numPoints).filter fun p =>
    decide (p ∈ inner) ||
      ((ext.any fun f => decide (p ∈ g.closureOf f)) &&
        decide (g.depth p < g.dim) && !isKeepShared faultBd p && touches g inner p)

/-- Modelled from the spec: the points "to be split". -/
def toSplitOf (g : Graph) (fault faultBd : Label) : List Nat :=
  splitWith g faultBd (interiorOf g fault faultBd)
    (extensionFaces g (faultCells g fault) (interiorOf g fault faultBd)
      (assignSides g (faultCells g fault) (interiorOf g fault faultBd)))

/-- Points of side B: the points that are not split but touch a split point and all of
whose cells are among the side-B cells `cellsB`. -/
def sideBPoints (g : Graph) (fc split cellsB : List Nat) : List Nat :=
  (List.range g.numPoints).filter fun q =>
    !decide (q ∈ faultClosure g fc) && !decide (q ∈ split) && touches g split q &&
      !(g.starCells q).isEmpty && (g.starCells q).all fun c => decide (c ∈ cellsB)

/-- A point near the fault that cannot be given one side: the fault cannot be oriented, a
cell lies on fault cells of both sides, a cell adjacent to the fault finds no side, or a
point that is not split has cells of both sides around it. -/
def ambiguous (g : Graph) (fc inner split : List Nat) (sides : List (Nat × Bool)) : Bool :=
  misoriented g (fc.filter fun f => decide (f ∈ inner)) ||
  ((seedCells g fc inner true).any fun c => decide (c ∈ seedCells g fc inner false)) ||
  ((nearCells g inner).any fun c => (sideOf sides c).isNone) ||
  ((List.range g.numPoints).any fun q =>
    !decide (q ∈ faultClosure g fc) && !decide (q ∈ split) && touches g split q &&
      ((g.starCells q).any fun c => sideOf sides c == some true) &&
      ((g.starCells q).any fun c => sideOf sides c == some false))

/-- A point to split none of whose cells is on side B. -/
def orphan (g : Graph) (split : List Nat) (sides : List (Nat × Bool)) : Bool :=
  split.any fun p => !(g.starCells p).any fun c => sideOf sides c == some true

/-! ## Duplication, rewiring and cohesive cells (4.5, 4.6) -/

/-- A point of the hybrid mesh before renumbering: an old point, the duplicate of a split
point, or the cohesive point synthesized over a split point and its duplicate. -/
inductive HPoint where
  | old (p : Nat)
  | dup (p : Nat)
  | coh (p : Nat)
  deriving DecidableEq

/-- Depth of a hybrid point: a cohesive point is one dimension above its split point. -/
def HPoint.depth (g : Graph) : HPoint → Nat
  | HPoint.old p => g.depth p
  | HPoint.dup p => g.depth p
  | HPoint.coh p => g.depth p + 1

/-- A cone entry seen from side B: the duplicate, if the entry is split. -/
def toSideB (split : List Nat) (q : Nat) : HPoint :=
  if q ∈ split then HPoint.dup q else HPoint.old q

/-- Cone of a hybrid point.  A duplicate copies the cone of its original with split entries
mapped to their duplicates (4.5 step 1); a side-B point has split entries replaced by their
duplicates (step 3); every other old point keeps its cone; the cohesive point over `p` is
bounded by `p`, its duplicate and the cohesive points over the split entries of `p`'s cone
(4.6, and the pictures of `ex5.c`: cell 2 of the hybrid triangle mesh is bounded by edges
10, 14, 15, 16). -/
def hCone (g : Graph) (split sideB : List Nat) : HPoint → List HPoint
  | HPoint.old p =>
    if p ∈ sideB then (g.getCone p).map (toSideB split) else (g.getCone p).map HPoint.old
  | HPoint.dup p => (g.getCone p).map (toSideB split)
  | HPoint.coh p =>
    [HPoint.old p, HPoint.dup p] ++ ((g.getCone p).filter fun q => decide (q ∈ split)).map HPoint.coh

/-- Orientations along `hCone`: copied for old points and duplicates; in a cohesive point
the original enters as stored (0) and the duplicate reversed (-1), so that the two sides
face opposite ways. -/
def hOrient (g : Graph) (split : List Nat) : HPoint → List Int
  | HPoint.old p => g.getConeOrientation p
  | HPoint.dup p => g.getConeOrientation p
  | HPoint.coh p =>
    [0, -1] ++ ((g.getCone p).filter fun q => decide (q ∈ split)).map fun _ => 0

/-- Storage order of the strata: cells, vertices, then faces and edges by decreasing depth
(the numbering of every picture in `ex5.c`). -/
def depthOrder (dim : Nat) : List Nat :=
  if dim = 0 then [0] else dim :: 0 :: ((List.range (dim - 1)).map fun i => i + 1).reverse

/-- New points are appended to their stratum: in each stratum the old points, then the
duplicates, then the cohesive points, each by increasing id of the underlying old point. -/
def hOrder (g : Graph) (split : List Nat) : List HPoint :=
  (depthOrder g.dim).flatMap fun d =>
    ((List.range g.numPoints).filter fun p => g.depth p == d).map HPoint.old ++
    (split.filter fun p => g.depth p == d).map HPoint.dup ++
    (split.filter fun p => g.depth p + 1 == d).map HPoint.coh

/-- Id of a hybrid point in the new chart. -/
def newId (g : Graph) (split : List Nat) (h : HPoint) : Nat := (hOrder g split).indexOf h

/-- The hybrid graph: cones renumbered, then symmetrized. -/
def hybridGraphOf (g : Graph) (split sideB : List Nat) : Graph :=
  Graph.symmetrize
    ⟨(hOrder g split).map (fun h => (hCone g split sideB h).map (newId g split)),
     (hOrder g split).map (hOrient g split), none⟩

/-- Result of hybrid-mesh construction: the labels and graph of the specification's
`createHybridMesh`, together with the classification that produced them. -/
structure HybridResult where
  hybridLabel : Label
  splitLabel : Label
  hybridGraph : Graph
  toSplit : List Nat
  keepShared : List Nat
  sideB : List Nat
  extension : List Nat
  deriving DecidableEq

/-- Modelled from the spec: `createHybridMesh(graph, faultLabel, faultBoundaryLabel)`
(section 6; `DMPlexCreateHybridMesh` is not in the sources).  Closure of the fault,
classification, side assignment, duplication and rewiring, cohesive cells, labels; every
failure aborts the construction.  The interface graph (the fault as a mesh of its own) is
not modelled. -/
def createHybridMesh (g : Graph) (fault faultBd : Label) : Except PlexError HybridResult :=
  match g.supports with
  | none => Except.error PlexError.NotSetUp
  | some _ =>
    let fc := faultCells g fault
    let inner := interiorOf g fault faultBd
    let sides := assignSides g fc inner
    let split := toSplitOf g fault faultBd
    if ambiguous g fc inner split sides then Except.error PlexError.AmbiguousSide
    else if orphan g split sides then Except.error PlexError.OrphanDuplicate
    else
      Except.ok
        { hybridLabel := split.map fun p => (newId g split (HPoint.coh p), 1)
          splitLabel := split.flatMap fun p =>
            [(newId g split (HPoint.old p), 1), (newId g split (HPoint.dup p), 1)]
          hybridGraph :=
            hybridGraphOf g split (sideBPoints g fc split (sideCells g inner sides true))
          toSplit := split
          keepShared := keepSharedOf g fault faultBd
          sideB := sideCells g inner sides true
          extension := extensionFaces g fc inner sides }

/-! ## Slices of a mesh (section 5) -/

/-- The slice made of the cells `cells` holds the point `p`: `p` lies in the closure of one
of these cells. -/
def Graph.holds (g : Graph) (cells : List Nat) (p : Nat) : Bool :=
  cells.any fun c => decide (p ∈ g.closureOf c)

/-- Modelled from the spec: the "local slice" that a process holds of a globally numbered
mesh (section 5): the cells `cells` with all the points of their closures, under their
global ids, cones and orientations as in the mesh.  A point of the chart that the slice does
not hold has no cone there; supports are those of the slice. -/
def Graph.slice (g : Graph) (cells : List Nat) : Graph :=
  Graph.symmetrize
    ⟨(List.range g.numPoints).map fun p => if g.holds cells p then g.getCone p else [],
     (List.range g.numPoints).map fun p =>
       if g.holds cells p then g.getConeOrientation p else [],
     none⟩

/-- The point `q` lies around the fault: its closure holds a point of the fault label or of
the fault closure. -/
def aroundFault (g : Graph) (fault : Label) (q : Nat) : Bool :=
  (g.closureOf q).any fun p =>
    decide (p ∈ fault.points) || decide (p ∈ faultClosure g (faultCells g fault))

/-- The slice made of `cells` holds every fault cell, every point of the fault label that
lies in the chart, and a cell of full dimension. -/
def holdsFaultCells (g : Graph) (fault : Label) (cells : List Nat) : Bool :=
  ((faultCells g fault).all fun f => g.holds cells f) &&
    (fault.points.all fun p => !decide (p < g.numPoints) || g.holds cells p) &&
    cells.any fun c => decide (c < g.numPoints) && g.depth c == g.dim

/-- Conditions under which a slice classifies the fault points as the whole mesh does: the
mesh is symmetrized, the slice holds every fault cell and every point of the fault label,
and it has the dimension of the mesh. -/
structure SliceBase (g : Graph) (fault : Label) (cells : List Nat) : Prop where
  sym : g.symmetrize = g
  faultHeld : ∀ f, f ∈ faultCells g fault → g.holds cells f = true
  labelHeld : ∀ p, p ∈ fault.points → p < g.numPoints → g.holds cells p = true
  dim : (g.slice cells).dim = g.dim

/-- Conditions under which a slice decides as the whole mesh does: the mesh is symmetrized,
the slice holds every point around the fault, and it has the dimension of the mesh. -/
structure SliceOk (g : Graph) (fault : Label) (cells : List Nat) : Prop where
  sym : g.symmetrize = g
  around : ∀ q, q < g.numPoints → aroundFault g fault q = true → g.holds cells q = true
  dim : (g.slice cells).dim = g.dim

end Plex

/-! ## The fixtures of `ex5.c` -/

namespace Ex5

open Plex

/-- PETSc error codes raised by the test, and the structural errors of the engine. -/
inductive PetscError where
  | PETSC_ERR_ARG_OUTOFRANGE
  | PETSC_ERR_ARG_WRONG
  | plex (e : PlexError)
  deriving DecidableEq

/-- What the test uses of a `DM`: the incidence graph and its named labels. -/
structure DM where
  graph : Graph
  labels : List (String × Label)
  deriving DecidableEq

/-- Call `DMSetLabelValue(dm, name, p, v)`: the label is created on first use. -/
def DMSetLabelValue (dm : DM) (name : String) (p : Nat) (v : Int) : DM :=
  if dm.labels.any (fun e => e.1 == name) then
    { dm with labels := dm.labels.map fun e => if e.1 == name then (e.1, e.2.setValue p v) else e }
  else { dm with labels := dm.labels ++ [(name, [(p, v)])] }

/-- Call `DMHasLabel(dm, name, &has)`. -/
def DMHasLabel (dm : DM) (name : String) : Bool := dm.labels.any fun e => e.1 == name

/-- Call `DMGetLabel(dm, name, &label)`; an absent label (`NULL`) has no points. -/
def DMGetLabel (dm : DM) (name : String) : Label :=
  match dm.labels.find? (fun e => e.1 == name) with
  | some e => e.2
  | none => []

/-- Call of `DMPlexCreateFromDAG` on a fresh `dm`, as the test makes it. -/
def DMPlexCreateFromDAG (depth : Nat) (numPoints coneSize cones : List Nat)
    (coneOrientations : List Int) : Except PetscError DM :=
  match createFromDAG depth numPoints coneSize cones coneOrientations with
  | Except.ok g => Except.ok ⟨g, []⟩
  | Except.error e => Except.error (PetscError.plex e)

/-- Call `DMPlexInterpolate(dm, &idm)`; labels carry over, cells and vertices keep their ids. -/
def DMPlexInterpolate (dim : Nat) (dm : DM) : DM := { dm with graph := interpolate dim dm.graph }

/-- Loop `for (p = 0; p < n; ++p) DMSetLabelValue(dm, name, points[p], 1)`. -/
def setLabelPoints (dm : DM) (name : String) (points : List Nat) : DM :=
  points.foldl (fun d p => DMSetLabelValue d name p 1) dm

/-- Loop `for (p = 0; p < n; ++p)` over
`DMSetLabelValue(dm, "marker", markerPoints[p*2], markerPoints[p*2+1])`. -/
def setMarkers (dm : DM) (n : Nat) (markerPoints : List Nat) : DM :=
  (List.range n).foldl
    (fun d p => DMSetLabelValue d "marker" (markerPoints.getD (p * 2) 0)
      ((markerPoints.getD (p * 2 + 1) 0 : Nat) : Int)) dm

/-- Function `CreateSimplex_2D` on rank 0. -/
def CreateSimplex_2D (testNum : Nat) : Except PetscError DM :=
  match testNum with
  | 0 =>
    let numPoints := [4, 2]
    let coneSize := [3, 3, 0, 0, 0, 0]
    let cones := [2, 3, 4, 5, 4, 3]
    let coneOrientations : List Int := [0, 0, 0, 0, 0, 0]
    let markerPoints := [2, 1, 3, 1, 4, 1, 5, 1]
    let faultPoints := [3, 4]
    match DMPlexCreateFromDAG 1 numPoints coneSize cones coneOrientations with
    | Except.error e => Except.error e
    | Except.ok dm =>
      let dm := setMarkers dm 4 markerPoints
      let dm := setLabelPoints dm "fault" (faultPoints.take 2)
      let dm := DMSetLabelValue dm "material" 0 1
      let dm := DMSetLabelValue dm "material" 1 2
      Except.ok (DMPlexInterpolate 2 dm)
  | 1 =>
    let numPoints := [6, 4]
    let coneSize := [3, 3, 3, 3, 0, 0, 0, 0, 0, 0]
    let cones := [4, 6, 5, 5, 6, 7, 8, 5, 9, 8, 4, 5]
    let coneOrientations : List Int := [0, 0, 0, 0, 0, 0, 0, 0, 0, 0, 0, 0]
    let markerPoints := [4, 1, 6, 1, 8, 1]
    let faultPoints := [5, 6, 8]
    match DMPlexCreateFromDAG 1 numPoints coneSize cones coneOrientations with
    | Except.error e => Except.error e
    | Except.ok dm =>
      let dm := setMarkers dm 3 markerPoints
      let dm := setLabelPoints dm "fault" (faultPoints.take 3)
      let dm := DMSetLabelValue dm "material" 0 1
      let dm := DMSetLabelValue dm "material" 3 1
      let dm := DMSetLabelValue dm "material" 1 2
      let dm := DMSetLabelValue dm "material" 2 2
      Except.ok (DMPlexInterpolate 2 dm)
  | _ => Except.error PetscError.PETSC_ERR_ARG_OUTOFRANGE

/-- Function `CreateSimplex_3D` on rank 0; these fixtures are given fully interpolated. -/
def CreateSimplex_3D (testNum : Nat) : Except PetscError DM :=
  match testNum with
  | 0 =>
    let numPoints := [5, 7, 9, 2]
    let coneSize := [4, 4, 0, 0, 0, 0, 0, 3, 3, 3, 3, 3, 3, 3, 2, 2, 2, 2, 2, 2, 2, 2, 2]
    let cones := [7, 8, 9, 10,  11, 10, 13, 12,  15, 17, 14,  16, 18, 15,  14, 19, 16,
      17, 18, 19,  17, 21, 20,  18, 22, 21,  22, 19, 20,   2, 3,  2, 4,  2, 5,  3, 4,  4, 5,
      5, 3,  3, 6,  4, 6,  5, 6]
    let coneOrientations : List Int := [0, 0, 0,  0,   0, -2,  2,  2,   0, -1, -1,   0, -1, -1,
      0, -1, -1,   0,  0,  0,   0,  0, -1,   0,  0, -1,  -1,  0,  0,   0, 0,  0, 0,  0, 0,  0, 0,
      0, 0,  0, 0,  0, 0,  0, 0,  0, 0]
    let markerPoints := [2, 1, 3, 1, 4, 1, 5, 1, 14, 1, 15, 1, 16, 1, 17, 1, 18, 1, 19, 1]
    let faultPoints := [3, 4, 5]
    match DMPlexCreateFromDAG 3 numPoints coneSize cones coneOrientations with
    | Except.error e => Except.error e
    | Except.ok dm =>
      let dm := setMarkers dm 10 markerPoints
      Except.ok (setLabelPoints dm "fault" (faultPoints.take 3))
  | 1 =>
    let numPoints := [6, 13, 12, 4]
    let coneSize := [4, 4, 4, 4, 0, 0, 0, 0, 0, 0, 3, 3, 3, 3, 3, 3, 3, 3, 3, 3, 3, 3,
      2, 2, 2, 2, 2, 2, 2, 2, 2, 2, 2, 2, 2]
    let cones := [10, 11, 12, 13,  10, 15, 16, 14,  17, 18, 14, 19,  20, 13, 19, 21,
      22, 23, 24,  25, 26, 22,  24, 27, 25,  23, 26, 27,  28, 29, 23,  24, 30, 28,  22, 29, 30,
      31, 32, 28,  29, 33, 31,  32, 33, 23,  26, 34, 33,  34, 27, 32,  6, 5,  5, 7,  7, 6,  6, 4,
      4, 5,  7, 4,  7, 9,  9, 5,  6, 9,  9, 8,  8, 7,  5, 8,  4, 8]
    let coneOrientations : List Int := [ 0,  0,  0,  0,  -2,  1,  0,  2,   0,  0, -3,  0,
      0, -3, -1,  0,   0,  0,  0,   0,  0, -1,  -1,  0, -1,  -1, -1, -1,   0,  0,  0,   0,  0, -1,
      0, -1, -1,    0,  0,  0,   0,  0, -1,  -1, -1,  0,  -1,  0, -1,  -1, -1, -1,  0, 0,  0, 0,
      0, 0,  0, 0,  0, 0,  0, 0,  0, 0,  0, 0,  0, 0,  0, 0,  0, 0,  0, 0,  0, 0]
    let markerPoints := [5, 1, 6, 1, 7, 1, 10, 1, 22, 1, 23, 1, 24, 1]
    let faultPoints := [5, 6, 7, 8]
    match DMPlexCreateFromDAG 3 numPoints coneSize cones coneOrientations with
    | Except.error e => Except.error e
    | Except.ok dm =>
      let dm := setMarkers dm 7 markerPoints
      Except.ok (setLabelPoints dm "fault" (faultPoints.take 4))
  | _ => Except.error PetscError.PETSC_ERR_ARG_OUTOFRANGE

/-- Function `CreateQuad_2D` on rank 0. -/
def CreateQuad_2D (testNum : Nat) : Except PetscError DM :=
  match testNum with
  | 1 =>
    let numPoints := [16, 9]
    let coneSize := [4, 4, 4, 4, 4, 4, 4, 4, 4, 0, 0, 0, 0, 0, 0, 0, 0, 0, 0, 0, 0, 0, 0, 0, 0]
    let cones := [9,  13, 14, 10,
                  10, 14, 15, 11,
                  11, 15, 16, 12,
                  13, 17, 18, 14,
                  14, 18, 19, 15,
                  15, 19, 20, 16,
                  17, 21, 22, 18,
                  18, 22, 23, 19,
                  19, 23, 24, 20]
    let coneOrientations : List Int := [0,0,0,0,0,0,0,0,0,0,0,0,0,0,0,0,0,0,0,0,0,0,0,0,0,0,0,0,
      0,0,0,0,0,0,0,0]
    let faultPoints := [11, 15, 19]
    let fault2Points := [17, 18]
    match DMPlexCreateFromDAG 1 numPoints coneSize cones coneOrientations with
    | Except.error e => Except.error e
    | Except.ok dm =>
      let dm := setLabelPoints dm "fault" (faultPoints.take 3)
      let dm := setLabelPoints dm "fault2" (fault2Points.take 2)
      Except.ok (DMPlexInterpolate 2 dm)
  | 0 | 2 =>
    let numPoints := [6, 2]
    let coneSize := [4, 4, 0, 0, 0, 0, 0, 0]
    let cones := [2, 3, 4, 5,  3, 6, 7, 4]
    let coneOrientations : List Int := [0, 0, 0, 0,  0, 0, 0, 0]
    let markerPoints := [2, 1, 3, 1, 4, 1, 5, 1, 6, 1, 7, 1]
    let faultPoints := [3, 4]
    match DMPlexCreateFromDAG 1 numPoints coneSize cones coneOrientations with
    | Except.error e => Except.error e
    | Except.ok dm =>
      let dm := setMarkers dm 6 markerPoints
      let dm := if testNum = 0 then setLabelPoints dm "fault" (faultPoints.take 2) else dm
      let dm := if testNum = 2 then setLabelPoints dm "pfault" (faultPoints.take 2) else dm
      Except.ok (DMPlexInterpolate 2 dm)
  | _ => Except.error PetscError.PETSC_ERR_ARG_OUTOFRANGE

/-- Function `CreateHex_3D` on rank 0; here the labels are set on the interpolated mesh. -/
def CreateHex_3D (testNum : Nat) : Except PetscError DM :=
  match testNum with
  | 0 =>
    let numPoints := [12, 2]
    let coneSize := [8,8, 0,0,0,0,0,0,0,0,0,0,0,0]
    let cones := [2,5,4,3,6,7,8,9,  3,4,11,10,7,12,13,8]
    let coneOrientations : List Int := [0,0,0,0,0,0,0,0,  0,0, 0,0 ,0, 0, 0,0]
    let markerPoints := [2,1,3,1,4,1,5,1,6,1,7,1,8,1,9,1] ++ List.replicate 36 0
    let faultPoints := [3, 4, 7, 8]
    match DMPlexCreateFromDAG 1 numPoints coneSize cones coneOrientations with
    | Except.error e => Except.error e
    | Except.ok dm =>
      let idm := DMPlexInterpolate 3 dm
      let idm := setMarkers idm 8 markerPoints
      Except.ok (setLabelPoints idm "fault" (faultPoints.take 4))
  | 1 =>
    let numPoints := [30, 7]
    let coneSize := [8,8,8,8,8,8,8, 0,0,0,0,0,0,0,0,0,0,0,0,0,0,0,0,0,0,0,0,0,0,0,0,0,0,0,0,0,0]
    let cones := [ 8, 21, 20,  7, 13, 12, 23, 24,
                  14, 15, 10,  9, 13,  8, 21, 24,
                  15, 16, 11, 10, 24, 21, 22, 25,
                  30, 29, 28, 21, 35, 24, 33, 34,
                  24, 21, 30, 35, 25, 36, 31, 22,
                  27, 20, 21, 28, 32, 33, 24, 23,
                  15, 24, 13, 14, 19, 18, 17, 26]
    let coneOrientations : List Int := List.replicate 56 0
    let faultPoints := [20, 21, 22, 23, 24, 25]
    match DMPlexCreateFromDAG 1 numPoints coneSize cones coneOrientations with
    | Except.error e => Except.error e
    | Except.ok dm =>
      let idm := DMPlexInterpolate 3 dm
      Except.ok (setLabelPoints idm "fault" (faultPoints.take 6))
  | 2 =>
    let numPoints := [18, 4]
    let coneSize := [8,8,8,8, 0,0,0,0,0,0,0,0,0,0,0,0,0,0,0,0,0,0]
    let cones := [ 4,  5,  8,  7, 13, 16, 17, 14,
                   5,  6,  9,  8, 14, 17, 18, 15,
                   7,  8, 11, 10, 16, 19, 20, 17,
                   8,  9, 12, 11, 17, 20, 21, 18]
    let coneOrientations : List Int := [0,0,0,0,0,0,0,0,0,0,0,0,0,0,0,0,0,0,0,0,0,0,0,0,0,0,0,0,
      0,0,0,0]
    let faultPoints := [7, 8, 16, 17]
    match DMPlexCreateFromDAG 1 numPoints coneSize cones coneOrientations with
    | Except.error e => Except.error e
    | Except.ok dm =>
      let idm := DMPlexInterpolate 3 dm
      Except.ok (setLabelPoints idm "fault" (faultPoints.take 4))
  | _ => Except.error PetscError.PETSC_ERR_ARG_OUTOFRANGE

/-- The `hasFault` branch of `CreateMesh`:
`DMPlexCreateHybridMesh(*dm, faultLabel, faultBdLabel, &hybridLabel, &splitLabel,
&dmInterface, &dmHybrid)` with the labels "fault" and "faultBd" of the fixture.  The
fixture is returned along with the result. -/
def createHybrid (fixture : Except PetscError DM) : Except PetscError (DM × HybridResult) :=
  match fixture with
  | Except.error e => Except.error e
  | Except.ok dm =>
    match createHybridMesh dm.graph (DMGetLabel dm "fault") (DMGetLabel dm "faultBd") with
    | Except.ok r => Except.ok (dm, r)
    | Except.error e => Except.error (PetscError.plex e)

/-- The hybrid mesh drawn in the header comment of `ex5.c` for triangle test 0 ("should
become two triangles separated by a zero-volume cell with 4 vertices"): for each point
0..16 the points drawn on its boundary, in increasing order. -/
def drawnHybridTriangles : List (List Nat) :=
  [[9, 10, 11], [12, 13, 14], [10, 14, 15, 16], [], [], [], [], [], [],
   [3, 4], [4, 5], [3, 5], [6, 8], [6, 7], [7, 8], [4, 7], [5, 8]]

/-- The edges 22..36 of the hybrid mesh drawn in the header comment of `ex5.c` for
tetrahedron test 0, each by its two end vertices in increasing order. -/
def drawnHybridTetrahedraEdges : List (List Nat) :=
  [[3, 4], [3, 5], [3, 6], [4, 5], [5, 6], [4, 6], [7, 8], [7, 9], [7, 10],
   [8, 9], [9, 10], [8, 10], [4, 8], [5, 9], [6, 10]]

/-- The point ranges documented in the header comment of `ex5.c` for tetrahedron test 1
("Cells: 0-3,4-5  Vertices: 6-15  Faces: 16-29,30-34  Edges: 35-52,53-56"): for each of
cells, vertices, faces and edges the first point, the first cohesive point and the end. -/
def documentedHybridTetrahedraRanges : List (Nat × Nat × Nat) :=
  [(0, 4, 6), (6, 16, 16), (16, 30, 35), (35, 53, 57)]

/-- The mesh drawn in the header comment of `ex5.c` for triangle test 0 before the split
("Two triangles sharing a face"): for each point 0..10 the points drawn on its boundary, in
increasing order. -/
def drawnTriangles : List (List Nat) :=
  [[6, 7, 8], [7, 9, 10], [], [], [], [], [2, 3], [3, 4], [2, 4], [4, 5], [3, 5]]

/-- The mesh drawn in the header comment of `ex5.c` for quadrilateral test 1 "After first
fault": each cell with the vertices drawn at its corners, in increasing order.  Cells 9, 10
and 11 are the zero-volume cells; the fault vertices 11, 15, 19 of the original mesh are the
pairs 14-28, 18-29 and 22-30, and cell 11 is the sliver between 22, 30 and the single
vertex 23. -/
def drawnQuadsAfterFirstFault : List (Nat × List Nat) :=
  [(0, [12, 13, 16, 17]), (1, [13, 14, 17, 18]), (2, [15, 19, 28, 29]),
   (3, [16, 17, 20, 21]), (4, [17, 18, 21, 22]), (5, [19, 23, 29, 30]),
   (6, [20, 21, 24, 25]), (7, [21, 22, 25, 26]), (8, [22, 23, 26, 27]),
   (9, [14, 18, 28, 29]), (10, [18, 22, 29, 30]), (11, [22, 23, 30])]

/-- The cells of the hybrid meshes drawn in the header comment of `ex5.c` for triangle test
1, tetrahedron test 0, quadrilateral test 0 and hexahedron test 0, each with the vertices
drawn at its corners, in increasing order; the last cells are the zero-volume ones. -/
def drawnHybridCells : List (List (Nat × List Nat)) :=
  [[(0, [6, 12, 13]), (1, [7, 8, 9]), (2, [7, 10, 11]), (3, [6, 12, 14]),
    (4, [7, 8, 12, 13]), (5, [7, 10, 12, 14])],
   [(0, [3, 4, 5, 6]), (1, [7, 8, 9, 10]), (2, [4, 5, 6, 8, 9, 10])],
   [(0, [3, 4, 5, 6]), (1, [7, 8, 9, 10]), (2, [4, 5, 9, 10])],
   [(0, [3, 4, 5, 6, 7, 8, 9, 10]), (1, [11, 12, 13, 14, 15, 16, 17, 18]),
    (2, [4, 5, 8, 9, 15, 16, 17, 18])]]

/-- The sizes of the charts drawn or listed in the header comment of `ex5.c`, before and
after the split: triangle tests 0 and 1 (points 0..10 and 0..16, 0..18 and 0..28),
tetrahedron tests 0 and 1 (0..22 and 0..36; 35 points in the arrays and the ranges up to
edge 56), quadrilateral test 0 (0..14 and 0..20) and hexahedron test 0 (0..44 and 0..62). -/
def documentedChartSizes : List (Nat × Nat) :=
  [(11, 17), (19, 29), (23, 37), (35, 57), (15, 21), (45, 63)]

end Ex5


/-! ## The arrays of the fixtures and the test partitions of `CreateMesh` -/

namespace Ex5

open Plex

/-- C array `T name[n] = {init}`: the initialisers, then zeros up to the declared size `n`. -/
def cArray {α : Type} [Zero α] (n : Nat) (init : List α) : List α :=
  init ++ List.replicate (n - init.length) 0

/-- The arguments of a call `DMPlexCreateFromDAG(dm, depth, numPoints, coneSize, cones,
coneOrientations, vertexCoords)`. -/
structure DAGArrays where
  depth : Nat
  numPoints : List Nat
  coneSize : List Nat
  cones : List Nat
  coneOrientations : List Int
  vertexCoords : List Rat

/-- The incidence the arrays describe: point `p` owns the `coneSize[p]` entries of `cones`
and of `coneOrientations` that follow those of the points before it. -/
def DAGArrays.graph (a : DAGArrays) : Graph :=
  ⟨sliceBy a.coneSize a.cones, sliceBy a.coneSize a.coneOrientations, none⟩

/-- The arrays the cases of `CreateSimplex_2D` pass to `DMPlexCreateFromDAG` on rank 0. -/
def CreateSimplex_2D_arrays (testNum : Nat) : Option DAGArrays :=
  match testNum with
  | 0 =>
    some {
      depth := 1
      numPoints := cArray 2 [4, 2]
      coneSize := cArray 6 [3, 3, 0, 0, 0, 0]
      cones := cArray 6 [2, 3, 4, 5, 4, 3]
      coneOrientations := cArray 6 [0, 0, 0, 0, 0, 0]
      vertexCoords := cArray 8 [-0.5, 0.5, 0.0, 0.0, 0.0, 1.0, 0.5, 0.5]
    }
  | 1 =>
    some {
      depth := 1
      numPoints := cArray 2 [6, 4]
      coneSize := cArray 10 [3, 3, 3, 3, 0, 0, 0, 0, 0, 0]
      cones := cArray 12 [4, 6, 5, 5, 6, 7, 8, 5, 9, 8, 4, 5]
      coneOrientations := cArray 12 [0, 0, 0, 0, 0, 0, 0, 0, 0, 0, 0, 0]
      vertexCoords := cArray 12 [-1.0, 0.0, 0.0, 1.0, 0.0, -1.0, 1.0, 0.0, -2.0, 1.0, -1.0, 2.0]
    }
  | _ => none

/-- The arrays the cases of `CreateSimplex_3D` pass to `DMPlexCreateFromDAG` on rank 0. -/
def CreateSimplex_3D_arrays (testNum : Nat) : Option DAGArrays :=
  match testNum with
  | 0 =>
    some {
      depth := 3
      numPoints := cArray 4 [5, 7, 9, 2]
      coneSize := cArray 23 [4, 4, 0, 0, 0, 0, 0, 3, 3, 3, 3, 3, 3, 3, 2, 2, 2, 2, 2, 2, 2, 2,
        2]
      cones := cArray 47 [7, 8, 9, 10, 11, 10, 13, 12, 15, 17, 14, 16, 18, 15, 14, 19, 16, 17,
        18, 19, 17, 21, 20, 18, 22, 21, 22, 19, 20, 2, 3, 2, 4, 2, 5, 3, 4, 4, 5, 5, 3, 3, 6, 4,
        6, 5, 6]
      coneOrientations := cArray 47 [0, 0, 0, 0, 0, -2, 2, 2, 0, -1, -1, 0, -1, -1, 0, -1, -1,
        0, 0, 0, 0, 0, -1, 0, 0, -1, -1, 0, 0, 0, 0, 0, 0, 0, 0, 0, 0, 0, 0, 0, 0, 0, 0, 0, 0,
        0, 0]
      vertexCoords := cArray 15 [0.0, 0.0, -0.5, 0.0, -0.5, 0.0, 1.0, 0.0, 0.0, 0.0, 0.5, 0.0,
        0.0, 0.0, 0.5]
    }
  | 1 =>
    some {
      depth := 3
      numPoints := cArray 4 [6, 13, 12, 4]
      coneSize := cArray 35 [4, 4, 4, 4, 0, 0, 0, 0, 0, 0, 3, 3, 3, 3, 3, 3, 3, 3, 3, 3, 3, 3,
        2, 2, 2, 2, 2, 2, 2, 2, 2, 2, 2, 2, 2]
      cones := cArray 78 [10, 11, 12, 13, 10, 15, 16, 14, 17, 18, 14, 19, 20, 13, 19, 21, 22,
        23, 24, 25, 26, 22, 24, 27, 25, 23, 26, 27, 28, 29, 23, 24, 30, 28, 22, 29, 30, 31, 32,
        28, 29, 33, 31, 32, 33, 23, 26, 34, 33, 34, 27, 32, 6, 5, 5, 7, 7, 6, 6, 4, 4, 5, 7, 4,
        7, 9, 9, 5, 6, 9, 9, 8, 8, 7, 5, 8, 4, 8]
      coneOrientations := cArray 78 [0, 0, 0, 0, -2, 1, 0, 2, 0, 0, -3, 0, 0, -3, -1, 0, 0, 0,
        0, 0, 0, -1, -1, 0, -1, -1, -1, -1, 0, 0, 0, 0, 0, -1, 0, -1, -1, 0, 0, 0, 0, 0, -1, -1,
        -1, 0, -1, 0, -1, -1, -1, -1, 0, 0, 0, 0, 0, 0, 0, 0, 0, 0, 0, 0, 0, 0, 0, 0, 0, 0, 0,
        0, 0, 0, 0, 0, 0, 0]
      vertexCoords := cArray 18 [-1.0, 0.0, 0.0, 0.0, -1.0, 0.0, 0.0, 0.0, 1.0, 0.0, 1.0, 0.0,
        0.0, 0.0, -1.0, 1.0, 0.0, 0.0]
    }
  | _ => none

/-- The arrays the cases of `CreateQuad_2D` pass to `DMPlexCreateFromDAG` on rank 0. -/
def CreateQuad_2D_arrays (testNum : Nat) : Option DAGArrays :=
  match testNum with
  | 0 | 2 =>
    some {
      depth := 1
      numPoints := cArray 2 [6, 2]
      coneSize := cArray 8 [4, 4, 0, 0, 0, 0, 0, 0]
      cones := cArray 8 [2, 3, 4, 5, 3, 6, 7, 4]
      coneOrientations := cArray 8 [0, 0, 0, 0, 0, 0, 0, 0]
      vertexCoords := cArray 12 [-0.5, 0.0, 0.0, 0.0, 0.0, 1.0, -0.5, 1.0, 0.5, 0.0, 0.5, 1.0]
    }
  | 1 =>
    some {
      depth := 1
      numPoints := cArray 2 [16, 9]
      coneSize := cArray 25 [4, 4, 4, 4, 4, 4, 4, 4, 4, 0, 0, 0, 0, 0, 0, 0, 0, 0, 0, 0, 0, 0,
        0, 0, 0]
      cones := cArray 36 [9, 13, 14, 10, 10, 14, 15, 11, 11, 15, 16, 12, 13, 17, 18, 14, 14, 18,
        19, 15, 15, 19, 20, 16, 17, 21, 22, 18, 18, 22, 23, 19, 19, 23, 24, 20]
      coneOrientations := cArray 36 [0, 0, 0, 0, 0, 0, 0, 0, 0, 0, 0, 0, 0, 0, 0, 0, 0, 0, 0, 0,
        0, 0, 0, 0, 0, 0, 0, 0, 0, 0, 0, 0, 0, 0, 0, 0]
      vertexCoords := cArray 32 [-3.0, 3.0, -1.0, 3.0, 1.0, 3.0, 3.0, 3.0, -3.0, 1.0, -1.0, 1.0,
        1.0, 1.0, 3.0, 1.0, -3.0, -1.0, -1.0, -1.0, 1.0, -1.0, 3.0, -1.0, -3.0, -3.0, -1.0,
        -3.0, 1.0, -3.0, 3.0, -3.0]
    }
  | _ => none

/-- The arrays the cases of `CreateHex_3D` pass to `DMPlexCreateFromDAG` on rank 0. -/
def CreateHex_3D_arrays (testNum : Nat) : Option DAGArrays :=
  match testNum with
  | 0 =>
    some {
      depth := 1
      numPoints := cArray 2 [12, 2]
      coneSize := cArray 14 [8, 8, 0, 0, 0, 0, 0, 0, 0, 0, 0, 0, 0, 0]
      cones := cArray 16 [2, 5, 4, 3, 6, 7, 8, 9, 3, 4, 11, 10, 7, 12, 13, 8]
      coneOrientations := cArray 16 [0, 0, 0, 0, 0, 0, 0, 0, 0, 0, 0, 0, 0, 0, 0, 0]
      vertexCoords := cArray 36 [-0.5, 0.0, 0.0, 0.0, 0.0, 0.0, 0.0, 1.0, 0.0, -0.5, 1.0, 0.0,
        -0.5, 0.0, 1.0, 0.0, 0.0, 1.0, 0.0, 1.0, 1.0, -0.5, 1.0, 1.0, 0.5, 0.0, 0.0, 0.5, 1.0,
        0.0, 0.5, 0.0, 1.0, 0.5, 1.0, 1.0]
    }
  | 1 =>
    some {
      depth := 1
      numPoints := cArray 2 [30, 7]
      coneSize := cArray 37 [8, 8, 8, 8, 8, 8, 8, 0, 0, 0, 0, 0, 0, 0, 0, 0, 0, 0, 0, 0, 0, 0,
        0, 0, 0, 0, 0, 0, 0, 0, 0, 0, 0, 0, 0, 0, 0]
      cones := cArray 56 [8, 21, 20, 7, 13, 12, 23, 24, 14, 15, 10, 9, 13, 8, 21, 24, 15, 16,
        11, 10, 24, 21, 22, 25, 30, 29, 28, 21, 35, 24, 33, 34, 24, 21, 30, 35, 25, 36, 31, 22,
        27, 20, 21, 28, 32, 33, 24, 23, 15, 24, 13, 14, 19, 18, 17, 26]
      coneOrientations := cArray 56 [0, 0, 0, 0, 0, 0, 0, 0, 0, 0, 0, 0, 0, 0, 0, 0, 0, 0, 0, 0,
        0, 0, 0, 0, 0, 0, 0, 0, 0, 0, 0, 0, 0, 0, 0, 0, 0, 0, 0, 0, 0, 0, 0, 0, 0, 0, 0, 0, 0,
        0, 0, 0, 0, 0, 0]
      vertexCoords := cArray 90 [-2.0, -2.0, -2.0, -2.0, -1.0, -2.0, -3.0, 0.0, -2.0, -2.0, 1.0,
        -2.0, -2.0, 2.0, -2.0, -2.0, -2.0, 0.0, -2.0, -1.0, 0.0, -3.0, 0.0, 0.0, -2.0, 1.0, 0.0,
        -2.0, 2.0, 0.0, -2.0, -1.0, 2.0, -3.0, 0.0, 2.0, -2.0, 1.0, 2.0, 0.0, -2.0, -2.0, 0.0,
        0.0, -2.0, 0.0, 2.0, -2.0, 0.0, -2.0, 0.0, 0.0, 0.0, 0.0, 0.0, 2.0, 0.0, 0.0, 0.0, 2.0,
        2.0, -2.0, -2.0, 2.0, -1.0, -2.0, 3.0, 0.0, -2.0, 2.0, 1.0, -2.0, 2.0, 2.0, -2.0, 2.0,
        -2.0, 0.0, 2.0, -1.0, 0.0, 3.0, 0.0, 0.0, 2.0, 1.0, 0.0, 2.0, 2.0, 0.0]
    }
  | 2 =>
    some {
      depth := 1
      numPoints := cArray 2 [18, 4]
      coneSize := cArray 22 [8, 8, 8, 8, 0, 0, 0, 0, 0, 0, 0, 0, 0, 0, 0, 0, 0, 0, 0, 0, 0, 0]
      cones := cArray 32 [4, 5, 8, 7, 13, 16, 17, 14, 5, 6, 9, 8, 14, 17, 18, 15, 7, 8, 11, 10,
        16, 19, 20, 17, 8, 9, 12, 11, 17, 20, 21, 18]
      coneOrientations := cArray 32 [0, 0, 0, 0, 0, 0, 0, 0, 0, 0, 0, 0, 0, 0, 0, 0, 0, 0, 0, 0,
        0, 0, 0, 0, 0, 0, 0, 0, 0, 0, 0, 0]
      vertexCoords := cArray 54 [-2.0, -2.0, 0.0, -2.0, 0.0, 0.0, -2.0, 2.0, 0.0, 0.0, -2.0,
        0.0, 0.0, 0.0, 0.0, 0.0, 2.0, 0.0, 2.0, -2.0, 0.0, 2.0, 0.0, 0.0, 2.0, 2.0, 0.0, -2.0,
        -2.0, 2.0, -2.0, 0.0, 2.0, -2.0, 2.0, 2.0, 0.0, -2.0, 2.0, 0.0, 0.0, 2.0, 0.0, 2.0, 2.0,
        2.0, -2.0, 2.0, 2.0, 0.0, 2.0, 2.0, 2.0, 2.0]
    }
  | _ => none
/-- The `switch (dim)` of `CreateMesh`, which follows `DMSetDimension(*dm, dim)`: the arrays
of the fixture chosen by `dim`, `cellSimplex` and `testNum`. -/
def CreateMesh_arrays (dim : Nat) (cellSimplex : Bool) (testNum : Nat) : Option DAGArrays :=
  match dim with
  | 2 => if cellSimplex then CreateSimplex_2D_arrays testNum else CreateQuad_2D_arrays testNum
  | 3 => if cellSimplex then CreateSimplex_3D_arrays testNum else CreateHex_3D_arrays testNum
  | _ => none

/-- The `switch (dim)` of `CreateMesh`: the fixture mesh on rank 0. -/
def CreateMesh_fixture (dim : Nat) (cellSimplex : Bool) (testNum : Nat) : Except PetscError DM :=
  match dim with
  | 2 => if cellSimplex then CreateSimplex_2D testNum else CreateQuad_2D testNum
  | 3 => if cellSimplex then CreateSimplex_3D testNum else CreateHex_3D testNum
  | _ => Except.error PetscError.PETSC_ERR_ARG_OUTOFRANGE

/-- The `switch (user->testNum)` for triangles on 2 processes: `sizes` and `points`. -/
def triPartition_p2 (testNum : Nat) : Except PetscError (List Nat × List Nat) :=
  match testNum with
  | 0 =>
    let triSizes_p2 := cArray 2 [1, 2]
    let triPoints_p2 := cArray 3 [0, 1, 2]
    Except.ok (triSizes_p2.take 2, triPoints_p2.take 3)
  | _ => Except.error PetscError.PETSC_ERR_ARG_WRONG

/-- The `switch (user->testNum)` for quadrilaterals on 2 processes. -/
def quadPartition_p2 (testNum : Nat) : Except PetscError (List Nat × List Nat) :=
  match testNum with
  | 0 =>
    let quadSizes_p2 := cArray 2 [1, 2]
    let quadPoints_p2 := cArray 3 [0, 1, 2]
    Except.ok (quadSizes_p2.take 2, quadPoints_p2.take 3)
  | 2 =>
    let quadSizes_p2 := cArray 2 [1, 1]
    let quadPoints_p2 := cArray 2 [0, 1]
    Except.ok (quadSizes_p2.take 2, quadPoints_p2.take 2)
  | _ => Except.error PetscError.PETSC_ERR_ARG_WRONG

/-- The `switch (user->testNum)` for tetrahedra on 2 processes. -/
def tetPartition_p2 (testNum : Nat) : Except PetscError (List Nat × List Nat) :=
  match testNum with
  | 0 =>
    let tetSizes_p2 := cArray 2 [1, 2]
    let tetPoints_p2 := cArray 3 [0, 1, 2]
    Except.ok (tetSizes_p2.take 2, tetPoints_p2.take 3)
  | _ => Except.error PetscError.PETSC_ERR_ARG_WRONG

/-- The `switch (user->testNum)` for hexahedra on 2 processes. -/
def hexPartition_p2 (testNum : Nat) : Except PetscError (List Nat × List Nat) :=
  match testNum with
  | 0 =>
    let hexSizes_p2 := cArray 2 [1, 2]
    let hexPoints_p2 := cArray 3 [0, 1, 2]
    Except.ok (hexSizes_p2.take 2, hexPoints_p2.take 3)
  | _ => Except.error PetscError.PETSC_ERR_ARG_WRONG

/-- The block `if (user->testPartition && size > 1)` of `CreateMesh` on rank 0: the arrays
`sizes` and `points` given to `PetscPartitionerShellSetPartition(part, size, sizes, points)`,
`none` when the block is skipped. -/
def CreateMesh_partition (testPartition : Bool) (dim : Nat) (cellSimplex : Bool) (size : Nat)
    (testNum : Nat) : Except PetscError (Option (List Nat × List Nat)) :=
  if testPartition ∧ size > 1 then
    if dim = 2 ∧ cellSimplex ∧ size = 2 then (triPartition_p2 testNum).map some
    else if dim = 2 ∧ ¬ cellSimplex ∧ size = 2 then (quadPartition_p2 testNum).map some
    else if dim = 3 ∧ cellSimplex ∧ size = 2 then (tetPartition_p2 testNum).map some
    else if dim = 3 ∧ ¬ cellSimplex ∧ size = 2 then (hexPartition_p2 testNum).map some
    else Except.error PetscError.PETSC_ERR_ARG_WRONG
  else Except.ok none

/-- The edge `e` of the arrays `a` from its start vertex to its end vertex: as stored when
its orientation `o` in a face cone is 0, reversed when it is -1. -/
def orientedEdge (a : DAGArrays) (e : Nat) (o : Int) : Option (Nat × Nat) :=
  match a.graph.getCone e with
  | [u, v] => if o = 0 then some (u, v) else if o = -1 then some (v, u) else none
  | _ => none

/-- The cone edges of the face `f`, in cone order, each oriented by its recorded cone
orientation. -/
def faceEdges (a : DAGArrays) (f : Nat) : List (Option (Nat × Nat)) :=
  List.zipWith (orientedEdge a) (a.graph.getCone f) (a.graph.getConeOrientation f)

/-- Three oriented edges that form a closed cycle through three distinct vertices. -/
def isTriangleCycle (es : List (Option (Nat × Nat))) : Bool :=
  match es with
  | [some (u, v), some (v1, w), some (w1, u1)] =>
    v == v1 && w == w1 && u1 == u && u != v && v != w && w != u
  | _ => false

end Ex5

/-! ## The adjacency comment of `CreateHex_3D` and `CreateFaultLabel` -/

namespace Ex5

open Plex

/-- The comment "Cell Adjacency Graph" in case 1 of `CreateHex_3D`: each line
`c -- {v0, v1, v2, v3} --> d`, with `true` where the line ends in `F`. -/
def documentedCellAdjacency : List (Nat × List Nat × Nat × Bool) :=
  [(0, [ 8, 13, 21, 24], 1, false),
   (0, [20, 21, 23, 24], 5, true),
   (1, [10, 15, 21, 24], 2, false),
   (1, [13, 14, 15, 24], 6, false),
   (2, [21, 22, 24, 25], 4, true),
   (3, [21, 24, 30, 35], 4, false),
   (3, [21, 24, 28, 33], 5, false)]

/-- The vertices the cones of the cells `c` and `d` of the arrays have in common. -/
def commonVertices (a : DAGArrays) (c d : Nat) : List Nat :=
  (a.graph.getCone c).filter fun v => decide (v ∈ a.graph.getCone d)

/-- Call `DMCreateLabel(dm, name)`: an empty label is added unless one of that name exists. -/
def DMCreateLabel (dm : DM) (name : String) : DM :=
  if DMHasLabel dm name then dm else { dm with labels := dm.labels ++ [(name, [])] }

/-- Function `CreateFaultLabel(dm)`.  The queries it makes of the mesh are parameters:
`dim` is what `DMGetDimension` returns, `pMax h` what `DMPlexGetSimplexOrBoxCells(dm, h, NULL,
&pMax)` returns and `pEnd h` the end that `DMPlexGetHeightStratum(dm, h, &pStart, &pEnd)`
returns; `DMLabelSetValue(label, p, 1)` acts on the label "cohesive" of `dm`. -/
def CreateFaultLabel (dim : Nat) (pMax pEnd : Nat → Nat) (dm : DM) : DM :=
  let dm := DMCreateLabel dm "cohesive"
  (List.range (dim + 1)).foldl
    (fun dm h =>
      (List.range' (pMax h) (pEnd h - pMax h)).foldl
        (fun dm p => DMSetLabelValue dm "cohesive" p 1) dm)
    dm

end Ex5

/-!
# Part III: `DAGetInfo` (`src/dm/da/src/daview.c`)

The structure behind `DA` is declared in `src/da/daimpl.h` and the header check
`PetscValidHeaderSpecific` in `petschead.h`, neither among the sources; the structure is
given the ten fields `DAGetInfo` reads and the check is a parameter.
-/

namespace DAView

/-- The fields of the distributed array that `DAGetInfo` reads; `wrap` is the value of the
enumeration `DAPeriodicType`, an `int`. -/
structure DA where
  dim : Int
  M : Int
  N : Int
  P : Int
  m : Int
  n : Int
  p : Int
  w : Int
  s : Int
  wrap : Int
  deriving DecidableEq

/-- The ten output arguments of `DAGetInfo`.  `none` is `PETSC_NULL`; `some v` is a pointer
to a variable of the caller that holds `v`.  The variables are distinct and none of them
lies inside the `DA`. -/
structure Outputs where
  dim : Option Int
  M : Option Int
  N : Option Int
  P : Option Int
  m : Option Int
  n : Option Int
  p : Option Int
  w : Option Int
  s : Option Int
  wrap : Option Int
  deriving DecidableEq

/-- Assignment `*ptr = v`; `none` stands for the undefined behaviour of writing through a
null pointer. -/
def store (ptr : Option Int) (v : Int) : Option (Option Int) :=
  match ptr with
  | none => none
  | some _ => some (some v)

/-- Statement `if (ptr != PETSC_NULL) *ptr = v;`. -/
def storeIfNonNull (ptr : Option Int) (v : Int) : Option (Option Int) :=
  if ptr ≠ none then store ptr v else some ptr

/-- Function `DAGetInfo(da, dim, M, N, P, m, n, p, w, s, wrap)`.  The parameter
`PetscValidHeaderSpecific` gives the error code with which the header check leaves the
function, 0 when the check passes.  The result is the returned code, the `DA` and the
caller variables afterwards; `none` is undefined behaviour. -/
def DAGetInfo (PetscValidHeaderSpecific : DA → Int) (da : DA) (out : Outputs) :
    Option (Int × DA × Outputs) :=
  if PetscValidHeaderSpecific da ≠ 0 then some (PetscValidHeaderSpecific da, da, out)
  else
    (storeIfNonNull out.dim da.dim).bind fun dim =>
    (storeIfNonNull out.M da.M).bind fun M =>
    (storeIfNonNull out.N da.N).bind fun N =>
    (storeIfNonNull out.P da.P).bind fun P =>
    (storeIfNonNull out.m da.m).bind fun m =>
    (storeIfNonNull out.n da.n).bind fun n =>
    (storeIfNonNull out.p da.p).bind fun p =>
    (storeIfNonNull out.w da.w).bind fun w =>
    (storeIfNonNull out.s da.s).bind fun s =>
    (storeIfNonNull out.wrap da.wrap).bind fun wrap =>
    some (0, da, { dim := dim, M := M, N := N, P := P, m := m, n := n, p := p, w := w, s := s,
                   wrap := wrap })

end DAView

/-!
# Part IV: pointwise functions (`ex5.c`, `snes/examples/tutorials/ex4.c`) and the value
arrays of `mat/examples/tests/ex56.c`

Arrays are lists; reading or writing outside an array is undefined behaviour, `none`.
Index arithmetic on `PetscInt` is exact: every index that is used lies inside an array.
The scalars are any type with the operations a function uses, so that the functions run on
rationals and the theorems hold in every commutative ring, the real numbers among them;
rounding of floating-point numbers is not modelled.  Arguments a function never reads are
left out, and input arrays do not overlap the output array.
-/

namespace CMem

/-- Expression `a[i]` read. -/
def readAt {α : Type} (a : List α) (i : Int) : Option α :=
  if i < 0 then none else a[i.toNat]?

/-- Assignment `a[i] = v`. -/
def writeAt {α : Type} (a : List α) (i : Int) (v : α) : Option (List α) :=
  if 0 ≤ i ∧ i.toNat < a.length then some (a.set i.toNat v) else none

/-- Loop `for (c = 0; c < n; ++c) body`. -/
def forLoop {σ : Type} (n : Int) (body : Int → σ → Option σ) (s : σ) : Option σ :=
  (List.range n.toNat).foldlM (fun (s : σ) (c : Nat) => body (c : Int) s) s

end CMem

namespace Ex5

open CMem

/-- Function `r` of `ex5.c`: `for (d = 0; d < dim; ++d) u[d] = x[d];`. -/
def r {α : Type} (dim : Int) (x u : List α) : Option (List α) :=
  forLoop dim (fun d u => (readAt x d).bind fun v => writeAt u d v) u

/-- Function `rp1` of `ex5.c`: `u[d] = x[d] + (d > 0 ? 1.0 : 0.0)` for `d < dim`. -/
def rp1 {α : Type} [Add α] [Zero α] [One α] (dim : Int) (x u : List α) : Option (List α) :=
  forLoop dim
    (fun d u => (readAt x d).bind fun v => writeAt u d (v + (if d > 0 then 1 else 0))) u

/-- Function `f0_bd_u` of `ex5.c`: with `Nc = uOff[1]-uOff[0]`, for `c < Nc`
`f0[c] = u[Nc*2+c] + x[Nc-c-1]; f0[Nc+c] = -(u[Nc*2+c] + x[Nc-c-1]);`. -/
def f0_bd_u {α : Type} [Add α] [Neg α] (uOff : List Int) (u x f0 : List α) :
    Option (List α) :=
  (readAt uOff 1).bind fun o1 => (readAt uOff 0).bind fun o0 =>
    let Nc := o1 - o0
    forLoop Nc
      (fun c f0 =>
        (readAt u (Nc * 2 + c)).bind fun a => (readAt x (Nc - c - 1)).bind fun b =>
        (writeAt f0 c (a + b)).bind fun f0 =>
        (readAt u (Nc * 2 + c)).bind fun a => (readAt x (Nc - c - 1)).bind fun b =>
        writeAt f0 (Nc + c) (-(a + b)))
      f0

/-- Function `f0_bd_l` of `ex5.c`: with `Nc = uOff[2]-uOff[1]`, for `c < Nc`
`f0[c] = (c > 0 ? 1.0 : 0.0) + u[c] - u[Nc+c];`. -/
def f0_bd_l {α : Type} [Add α] [Sub α] [Zero α] [One α] (uOff : List Int) (u f0 : List α) :
    Option (List α) :=
  (readAt uOff 2).bind fun o2 => (readAt uOff 1).bind fun o1 =>
    let Nc := o2 - o1
    forLoop Nc
      (fun c f0 =>
        (readAt u c).bind fun a => (readAt u (Nc + c)).bind fun b =>
        writeAt f0 c ((if c > 0 then 1 else 0) + a - b))
      f0

/-- Function `g0_bd_ul` of `ex5.c`: with `Nc = uOff[1]-uOff[0]`, for `c < Nc`
`g0[(0 +c)*Nc+c] = 1.0; g0[(Nc+c)*Nc+c] = -1.0;`. -/
def g0_bd_ul {α : Type} [One α] [Neg α] (uOff : List Int) (g0 : List α) : Option (List α) :=
  (readAt uOff 1).bind fun o1 => (readAt uOff 0).bind fun o0 =>
    let Nc := o1 - o0
    forLoop Nc
      (fun c g0 =>
        (writeAt g0 ((0 + c) * Nc + c) 1).bind fun g0 => writeAt g0 ((Nc + c) * Nc + c) (-1))
      g0

/-- Function `g0_bd_lu` of `ex5.c`: with `Nc = uOff[2]-uOff[1]`, for `c < Nc`
`g0[c*Nc*2+c] = 1.0; g0[c*Nc*2+Nc+c] = -1.0;`. -/
def g0_bd_lu {α : Type} [One α] [Neg α] (uOff : List Int) (g0 : List α) : Option (List α) :=
  (readAt uOff 2).bind fun o2 => (readAt uOff 1).bind fun o1 =>
    let Nc := o2 - o1
    forLoop Nc
      (fun c g0 =>
        (writeAt g0 (c * Nc * 2 + c) 1).bind fun g0 => writeAt g0 (c * Nc * 2 + Nc + c) (-1))
      g0

end Ex5

namespace Ex4

open CMem

/-- Function `mms_0_u` of `ex4.c`: `u[0] = x[0]*x[0] + x[1]*x[1];
u[1] = 2.0*x[0]*x[0] - 2.0*x[0]*x[1];`. -/
def mms_0_u {α : Type} [CommRing α] (x u : List α) : Option (List α) :=
  (readAt x 0).bind fun x0 => (readAt x 1).bind fun x1 =>
  (writeAt u 0 (x0 * x0 + x1 * x1)).bind fun u =>
  writeAt u 1 (2 * x0 * x0 - 2 * x0 * x1)

/-- Function `mms_0_O` of `ex4.c`: `u[0] = 4.0*x[0] - 4.0*x[1];`. -/
def mms_0_O {α : Type} [CommRing α] (x u : List α) : Option (List α) :=
  (readAt x 0).bind fun x0 => (readAt x 1).bind fun x1 => writeAt u 0 (4 * x0 - 4 * x1)

/-- Function `mms_0_T` of `ex4.c`: `u[0] = x[0];`. -/
def mms_0_T {α : Type} (x u : List α) : Option (List α) :=
  (readAt x 0).bind fun x0 => writeAt u 0 x0

/-- The right-hand side of the assignment in `f0_mms_0_O`, from the values it reads:
`-Gr * T_x + u[0] * O_x + u[1] * O_y + 4.0*(x[0]*x[0] - 2.0*x[0]*x[1] - x[1]*x[1]) + Gr`. -/
def f0_mms_0_O_value {α : Type} [CommRing α] (Gr Tx u0 Ox u1 Oy x0 x1 : α) : α :=
  -Gr * Tx + u0 * Ox + u1 * Oy + 4 * (x0 * x0 - 2 * x0 * x1 - x1 * x1) + Gr

/-- Function `f0_mms_0_O` of `ex4.c`: with `Gr = constants[1]`,
`f0[0] = -Gr * u_x[uOff_x[2]+0] + u[0] * u_x[uOff_x[1]+0] + u[1] * u_x[uOff_x[1]+1]
       + 4.0*(x[0]*x[0] - 2.0*x[0]*x[1] - x[1]*x[1]) + Gr;`. -/
def f0_mms_0_O {α : Type} [CommRing α] (uOff_x : List Int) (u u_x x constants f0 : List α) :
    Option (List α) :=
  (readAt constants 1).bind fun Gr =>
  (readAt uOff_x 2).bind fun o2 => (readAt u_x (o2 + 0)).bind fun Tx =>
  (readAt u 0).bind fun u0 =>
  (readAt uOff_x 1).bind fun o1 => (readAt u_x (o1 + 0)).bind fun Ox =>
  (readAt u 1).bind fun u1 => (readAt u_x (o1 + 1)).bind fun Oy =>
  (readAt x 0).bind fun x0 => (readAt x 1).bind fun x1 =>
  writeAt f0 0 (f0_mms_0_O_value Gr Tx u0 Ox u1 Oy x0 x1)

/-- The right-hand side of the assignment in `f0_mms_0_T`, from the values it reads:
`Pr * (u[0] * T_x + u[1] * T_y) - Pr * (x[0]*x[0] + x[1]*x[1])`. -/
def f0_mms_0_T_value {α : Type} [CommRing α] (Pr u0 Tx u1 Ty x0 x1 : α) : α :=
  Pr * (u0 * Tx + u1 * Ty) - Pr * (x0 * x0 + x1 * x1)

/-- Function `f0_mms_0_T` of `ex4.c`: with `Pr = constants[0]`,
`f0[0] = Pr * (u[0] * u_x[uOff_x[2]+0] + u[1] * u_x[uOff_x[2]+1])
       - Pr * (x[0]*x[0] + x[1]*x[1]);`. -/
def f0_mms_0_T {α : Type} [CommRing α] (uOff_x : List Int) (u u_x x constants f0 : List α) :
    Option (List α) :=
  (readAt constants 0).bind fun Pr =>
  (readAt u 0).bind fun u0 =>
  (readAt uOff_x 2).bind fun o2 => (readAt u_x (o2 + 0)).bind fun Tx =>
  (readAt u 1).bind fun u1 => (readAt u_x (o2 + 1)).bind fun Ty =>
  (readAt x 0).bind fun x0 => (readAt x 1).bind fun x1 =>
  writeAt f0 0 (f0_mms_0_T_value Pr u0 Tx u1 Ty x0 x1)

end Ex4

namespace Ex56

/-- The loops of `main` that fill `x[6][9]` with `(PetscScalar)val++`, `val` starting at 10:
the array in memory (row after row) and `val` afterwards.  What the array held before is
`junk`.  The integers 10..63 convert to scalars exactly. -/
def fillX (junk : List Int) : List Int × Int :=
  (List.range 6).foldl
    (fun (st : List Int × Int) (i : Nat) => (List.range 9).foldl
      (fun (st : List Int × Int) (j : Nat) => (st.1.set (9 * i + j) st.2, st.2 + 1)) st)
    (junk, 10)

/-- Branch `if (flg) { ...; eval = 6; } else { eval = 9; }` on `-column_oriented`. -/
def evalOf (columnOriented : Bool) : Int := if columnOriented then 6 else 9

/-- The loops of `main` that fill `y[3][3]` with `(PetscScalar)(10 + i*eval + j)`. -/
def fillY (eval : Int) (junk : List Int) : List Int :=
  (List.range 3).foldl
    (fun (y : List Int) (i : Nat) => (List.range 3).foldl
      (fun (y : List Int) (j : Nat) => y.set (3 * i + j) (10 + (i : Int) * eval + (j : Int))) y)
    junk

end Ex56

/-! # Theorems -/

set_option maxRecDepth 1000000

namespace PetscBT

/-- Only the low byte of a stored value is read. -/
theorem charToInt_mod (sc : Bool) (b : Nat) : charToInt sc (b % 256) = charToInt sc b := by
  simp [charToInt, Nat.mod_mod]

/-- All 256 bytes, 8 bit positions and both signednesses: the bit just set is read as set. -/
theorem byte_set_lookup (sc : Bool) (b : Fin 256) (k : Fin 8) :
    intAnd (charToInt sc (intToChar (intOr (charToInt sc b) (charToInt sc (intToChar (1 * 2 ^ k.val))))))
      (charToInt sc (intToChar (1 * 2 ^ k.val))) ≠ 0 := by
  revert sc b k; decide!

/-- All 256 bytes, 8 bit positions and both signednesses: the bit just cleared is read as
clear. -/
theorem byte_clear_lookup (sc : Bool) (b : Fin 256) (k : Fin 8) :
    intAnd (charToInt sc (intToChar (intAnd (charToInt sc b)
        (intNot (charToInt sc (intToChar (1 * 2 ^ k.val)))))))
      (charToInt sc (intToChar (1 * 2 ^ k.val))) = 0 := by
  revert sc b k; decide!

theorem tdiv_natCast (n : Nat) : Int.tdiv (n : Int) BITSPERBYTE = ((n / 8 : Nat) : Int) :=
  (Int.ofNat_tdiv n 8).symm

theorem tmod_natCast (n : Nat) : Int.tmod (n : Int) BITSPERBYTE = ((n % 8 : Nat) : Int) :=
  (Int.ofNat_tmod n 8).symm

theorem prologue_natCast (st : BT) (n : Nat) (c : Nat) (h : st.array[n / 8]? = some c) :
    prologue st (n : Int) =
      some { st with _BT_idx := ((n / 8 : Nat) : Int), _BT_c := c,
                     _BT_mask := intToChar (1 * 2 ^ (n % 8)) } := by
  unfold prologue
  simp only [tdiv_natCast, tmod_natCast, Int.toNat_ofNat, h]
  have h1 : ¬ (((n / 8 : Nat) : Int) < 0) := not_lt.mpr (Int.ofNat_nonneg _)
  have h2 : ¬ (((n % 8 : Nat) : Int) < 0) := not_lt.mpr (Int.ofNat_nonneg _)
  simp only [h1, h2, if_false]

theorem index_in_range (st : BT) (m : Int) (n : Nat)
    (hlen : (st.array.length : Int) = PetscBTLength m) (hm : (n : Int) < m) :
    n / 8 < st.array.length := by
  obtain ⟨M, rfl⟩ := Int.eq_ofNat_of_zero_le (le_trans (Int.ofNat_nonneg n) hm.le)
  simp only [PetscBTLength, tdiv_natCast] at hlen
  have h1 : n < M := by exact_mod_cast hm
  have h2 : n / 8 ≤ M / 8 := Nat.div_le_div_right h1.le
  omega


/-- The byte `PetscBTSet` stores over `c` for bit `k` of it. -/
theorem PetscBTSet_natCast (sc : Bool) (st : BT) (n c : Nat) (h : st.array[n / 8]? = some c) :
    PetscBTSet sc st (n : Int) =
      some (charToInt sc (intToChar (intOr (charToInt sc c) (charToInt sc (intToChar (1 * 2 ^ (n % 8)))))),
        { array := st.array.set (n / 8)
            (intToChar (intOr (charToInt sc c) (charToInt sc (intToChar (1 * 2 ^ (n % 8)))))),
          _BT_mask := intToChar (1 * 2 ^ (n % 8)), _BT_c := c, _BT_idx := ((n / 8 : Nat) : Int) }) := by
  simp only [PetscBTSet, prologue_natCast st n c h, Int.toNat_ofNat]

theorem PetscBTClear_natCast (sc : Bool) (st : BT) (n c : Nat) (h : st.array[n / 8]? = some c) :
    PetscBTClear sc st (n : Int) =
      some (charToInt sc (intToChar (intAnd (charToInt sc c)
              (intNot (charToInt sc (intToChar (1 * 2 ^ (n % 8))))))),
        { array := st.array.set (n / 8)
            (intToChar (intAnd (charToInt sc c) (intNot (charToInt sc (intToChar (1 * 2 ^ (n % 8))))))),
          _BT_mask := intToChar (1 * 2 ^ (n % 8)), _BT_c := c, _BT_idx := ((n / 8 : Nat) : Int) }) := by
  simp only [PetscBTClear, prologue_natCast st n c h, Int.toNat_ofNat]

theorem PetscBTLookup_natCast (sc : Bool) (arr : List Nat) (g1 g2 : Nat) (g3 : Int) (n c : Nat)
    (h : arr[n / 8]? = some c) :
    PetscBTLookup sc ⟨arr, g1, g2, g3⟩ (n : Int) =
      some (if intAnd (charToInt sc c) (charToInt sc (intToChar (1 * 2 ^ (n % 8)))) ≠ 0 then 1 else 0,
        { array := arr, _BT_mask := intToChar (1 * 2 ^ (n % 8)), _BT_c := c,
          _BT_idx := ((n / 8 : Nat) : Int) }) := by
  simp only [PetscBTLookup, prologue_natCast ⟨arr, g1, g2, g3⟩ n c h]

/-- C9. `PetscBTSet` sets an entry true: for every bit array created for `m` values
(`PetscBTLength m` bytes, whatever they hold, and whatever the three globals hold), for both
signed and unsigned plain `char`, and every index `0 <= i < m`, `PetscBTSet(array, i)` is
defined and afterwards `PetscBTLookup(array, i)` is defined and returns 1.  This includes
`i % 8 == 7`, where the mask byte reads as -128 when `char` is signed. -/
theorem PetscBTSet_then_Lookup (signedChar : Bool) (st : BT) (m i : Int)
    (hlen : (st.array.length : Int) = PetscBTLength m) (h0 : 0 ≤ i) (hm : i < m) :
    ∃ v s1 s2, PetscBTSet signedChar st i = some (v, s1) ∧
      PetscBTLookup signedChar s1 i = some (1, s2) := by
  obtain ⟨n, rfl⟩ := Int.eq_ofNat_of_zero_le h0
  have hr := index_in_range st m n hlen hm
  have hget : st.array[n / 8]? = some (st.array[n / 8]) := List.getElem?_eq_getElem hr
  have hk : n % 8 < 8 := Nat.mod_lt _ (by norm_num)
  have hb : st.array[n / 8] % 256 < 256 := Nat.mod_lt _ (by norm_num)
  have key := byte_set_lookup signedChar ⟨st.array[n / 8] % 256, hb⟩ ⟨n % 8, hk⟩
  simp only [charToInt_mod] at key
  have h2 := PetscBTLookup_natCast signedChar _ (intToChar (1 * 2 ^ (n % 8))) st.array[n / 8]
    ((n / 8 : Nat) : Int) n _
    (List.getElem?_set_self (a := intToChar (intOr (charToInt signedChar st.array[n / 8])
      (charToInt signedChar (intToChar (1 * 2 ^ (n % 8)))))) hr)
  rw [if_pos key] at h2
  exact ⟨_, _, _, PetscBTSet_natCast signedChar st n _ hget, h2⟩

/-- C10. `PetscBTClear` sets an entry false: for every bit array created for `m` values,
whatever it held before, and every index `0 <= i < m`, `PetscBTClear(array, i)` is defined and
afterwards `PetscBTLookup(array, i)` is defined and returns 0. -/
theorem PetscBTClear_then_Lookup (signedChar : Bool) (st : BT) (m i : Int)
    (hlen : (st.array.length : Int) = PetscBTLength m) (h0 : 0 ≤ i) (hm : i < m) :
    ∃ v s1 s2, PetscBTClear signedChar st i = some (v, s1) ∧
      PetscBTLookup signedChar s1 i = some (0, s2) := by
  obtain ⟨n, rfl⟩ := Int.eq_ofNat_of_zero_le h0
  have hr := index_in_range st m n hlen hm
  have hget : st.array[n / 8]? = some (st.array[n / 8]) := List.getElem?_eq_getElem hr
  have hk : n % 8 < 8 := Nat.mod_lt _ (by norm_num)
  have hb : st.array[n / 8] % 256 < 256 := Nat.mod_lt _ (by norm_num)
  have key := byte_clear_lookup signedChar ⟨st.array[n / 8] % 256, hb⟩ ⟨n % 8, hk⟩
  simp only [charToInt_mod] at key
  have h2 := PetscBTLookup_natCast signedChar _ (intToChar (1 * 2 ^ (n % 8))) st.array[n / 8]
    ((n / 8 : Nat) : Int) n _
    (List.getElem?_set_self (a := intToChar (intAnd (charToInt signedChar st.array[n / 8])
      (intNot (charToInt signedChar (intToChar (1 * 2 ^ (n % 8))))))) hr)
  rw [if_neg (not_not.mpr key)] at h2
  exact ⟨_, _, _, PetscBTClear_natCast signedChar st n _ hget, h2⟩

/-- Witness of C9 at bit 7 of byte 0 of a two-byte array, with signed `char`. -/
theorem PetscBTSet_then_Lookup_witness :
    ∃ v s1 s2, PetscBTSet true ⟨[0, 255], 0, 0, 0⟩ 7 = some (v, s1) ∧
      PetscBTLookup true s1 7 = some (1, s2) :=
  PetscBTSet_then_Lookup true ⟨[0, 255], 0, 0, 0⟩ 12 7 (by decide) (by decide) (by decide)

/-- Witness of C10 at bit 3 of byte 1 of a two-byte array whose bytes are all ones. -/
theorem PetscBTClear_then_Lookup_witness :
    ∃ v s1 s2, PetscBTClear true ⟨[255, 255], 0, 0, 0⟩ 11 = some (v, s1) ∧
      PetscBTLookup true s1 11 = some (0, s2) :=
  PetscBTClear_then_Lookup true ⟨[255, 255], 0, 0, 0⟩ 12 11 (by decide) (by decide) (by decide)

end PetscBT

namespace Plex

theorem getD_map_range {α : Type} (f : Nat → α) (n p : Nat) (d : α) (hp : p < n) :
    ((List.range n).map f).getD p d = f p := by
  simp [List.getD_eq_getElem?_getD, hp]

theorem getD_nil_of_le {α : Type} (l : List (List α)) (p : Nat) (hp : l.length ≤ p) :
    l.getD p [] = [] := by
  simp [List.getD_eq_getElem?_getD, List.getElem?_eq_none hp]

namespace Graph

theorem getCone_symmetrize (g : Graph) (p : Nat) : g.symmetrize.getCone p = g.getCone p := rfl

theorem numPoints_symmetrize (g : Graph) : g.symmetrize.numPoints = g.numPoints := rfl

theorem getCone_eq_nil (g : Graph) (p : Nat) (hp : g.numPoints ≤ p) : g.getCone p = [] :=
  getD_nil_of_le g.cones p hp

theorem lt_numPoints_of_mem_getCone (g : Graph) (p q : Nat) (h : q ∈ g.getCone p) :
    p < g.numPoints := by
  by_contra hp
  rw [getCone_eq_nil g p (not_lt.mp hp)] at h
  exact List.not_mem_nil _ h

theorem supportOf_symmetrize (g : Graph) (p : Nat) (hp : p < g.numPoints) :
    g.symmetrize.supportOf p =
      (List.range g.numPoints).filter fun q => decide (p ∈ g.getCone q) := by
  simp only [supportOf, symmetrize]
  exact getD_map_range _ _ _ _ hp

theorem supportOf_symmetrize_of_le (g : Graph) (p : Nat) (hp : g.numPoints ≤ p) :
    g.symmetrize.supportOf p = [] := by
  simp only [supportOf, symmetrize]
  exact getD_nil_of_le _ _ (by simpa using hp)

theorem getSupport_symmetrize (g : Graph) (p : Nat) :
    g.symmetrize.getSupport p = Except.ok (g.symmetrize.supportOf p) := rfl

theorem mem_supportOf_symmetrize (g : Graph) (p q : Nat) :
    q ∈ g.symmetrize.supportOf p ↔ p < g.numPoints ∧ p ∈ g.getCone q := by
  by_cases hp : p < g.numPoints
  · rw [supportOf_symmetrize g p hp]
    simp only [List.mem_filter, List.mem_range, decide_eq_true_eq]
    constructor
    · rintro ⟨_, h⟩; exact ⟨hp, h⟩
    · rintro ⟨_, h⟩; exact ⟨lt_numPoints_of_mem_getCone g q p h, h⟩
  · rw [supportOf_symmetrize_of_le g p (not_lt.mp hp)]
    simp [hp]

end Graph
end Plex

namespace Plex

theorem mem_reach_zero (next : Nat → List Nat) (p q : Nat) : q ∈ reach next 0 p ↔ q = p := by
  simp [reach]

theorem mem_reach_succ (next : Nat → List Nat) (k p q : Nat) :
    q ∈ reach next (k + 1) p ↔ q = p ∨ ∃ m ∈ next p, q ∈ reach next k m := by
  simp [reach, List.mem_flatMap]

theorem mem_reach_self (next : Nat → List Nat) (k p : Nat) : p ∈ reach next k p := by
  cases k with
  | zero => simp [reach]
  | succ k => simp [reach]

/-- One more step may also be taken at the far end of the path. -/
theorem mem_reach_succ_right (next : Nat → List Nat) (k : Nat) :
    ∀ p q, q ∈ reach next (k + 1) p ↔ q = p ∨ ∃ m, m ∈ reach next k p ∧ q ∈ next m := by
  induction k with
  | zero =>
    intro p q
    rw [mem_reach_succ]
    simp only [mem_reach_zero]
    constructor
    · rintro (h | ⟨m, hm, rfl⟩)
      · exact Or.inl h
      · exact Or.inr ⟨p, rfl, hm⟩
    · rintro (h | ⟨m, rfl, hq⟩)
      · exact Or.inl h
      · exact Or.inr ⟨q, hq, rfl⟩
  | succ k ih =>
    intro p q
    rw [mem_reach_succ]
    constructor
    · rintro (h | ⟨m, hm, hq⟩)
      · exact Or.inl h
      · rcases (ih m q).mp hq with rfl | ⟨m', hm', hq'⟩
        · exact Or.inr ⟨p, mem_reach_self _ _ _, hm⟩
        · exact Or.inr ⟨m', (mem_reach_succ _ _ _ _).mpr (Or.inr ⟨m, hm, hm'⟩), hq'⟩
    · rintro (h | ⟨m', hm', hq'⟩)
      · exact Or.inl h
      · rcases (mem_reach_succ _ _ _ _).mp hm' with rfl | ⟨m, hm, hmm'⟩
        · exact Or.inr ⟨q, hq', mem_reach_self _ _ _⟩
        · exact Or.inr ⟨m, hm, (ih m q).mpr (Or.inr ⟨m', hmm', hq'⟩)⟩

theorem reach_mono (next : Nat → List Nat) (k p q : Nat) (h : q ∈ reach next k p) :
    q ∈ reach next (k + 1) p := by
  induction k generalizing p with
  | zero =>
    rw [mem_reach_zero] at h
    subst h
    exact mem_reach_self _ _ _
  | succ k ih =>
    rcases (mem_reach_succ _ _ _ _).mp h with rfl | ⟨m, hm, hq⟩
    · exact mem_reach_self _ _ _
    · exact (mem_reach_succ _ _ _ _).mpr (Or.inr ⟨m, hm, ih m hq⟩)

/-- The start of a path that ends inside the chart lies inside the chart. -/
theorem start_lt_of_mem_reach (next : Nat → List Nat) (N : Nat)
    (hdom : ∀ a b, b ∈ next a → a < N) (k p q : Nat) (hq : q < N)
    (h : q ∈ reach next k p) : p < N := by
  cases k with
  | zero =>
    rw [mem_reach_zero] at h
    exact h ▸ hq
  | succ k =>
    rcases (mem_reach_succ _ _ _ _).mp h with rfl | ⟨m, hm, _⟩
    · exact hq
    · exact hdom p m hm

/-- A path along `next` read backwards is a path along `prev`. -/
theorem reach_reverse (next prev : Nat → List Nat) (N : Nat)
    (hdom : ∀ a b, b ∈ next a → a < N)
    (hrev : ∀ a b, b ∈ next a → b < N → a ∈ prev b) (k : Nat) :
    ∀ p q, q < N → q ∈ reach next k p → p ∈ reach prev k q := by
  induction k with
  | zero =>
    intro p q _ h
    rw [mem_reach_zero] at h
    rw [mem_reach_zero]
    exact h.symm
  | succ k ih =>
    intro p q hq h
    rcases (mem_reach_succ _ _ _ _).mp h with rfl | ⟨m, hm, hmq⟩
    · exact mem_reach_self _ _ _
    · have hmN : m < N := start_lt_of_mem_reach next N hdom k m q hq hmq
      exact (mem_reach_succ_right prev k q p).mpr
        (Or.inr ⟨m, ih m q hq hmq, hrev p m hm hmN⟩)

namespace Graph

theorem mem_closureOf (g : Graph) (p q : Nat) :
    q ∈ g.closureOf p ↔ q ∈ reach g.getCone g.numPoints p := by
  simp [closureOf]

theorem mem_starOf (g : Graph) (p q : Nat) :
    q ∈ g.starOf p ↔ q ∈ reach g.supportOf g.numPoints p := by
  simp [starOf]

theorem closure_symmetrize (g : Graph) (p : Nat) :
    g.symmetrize.closure p = Except.ok (g.symmetrize.closureOf p) := rfl

theorem star_symmetrize (g : Graph) (p : Nat) :
    g.symmetrize.star p = Except.ok (g.symmetrize.starOf p) := rfl

/-- Closure and star are dual in a symmetrized graph. -/
theorem mem_closureOf_iff_mem_starOf (g : Graph) (p q : Nat) (hp : p < g.numPoints)
    (hq : q < g.numPoints) :
    q ∈ g.symmetrize.closureOf p ↔ p ∈ g.symmetrize.starOf q := by
  rw [mem_closureOf, mem_starOf, numPoints_symmetrize]
  constructor
  · apply reach_reverse g.symmetrize.getCone g.symmetrize.supportOf g.numPoints
    · intro a b h
      exact lt_numPoints_of_mem_getCone g a b h
    · intro a b h hb
      exact (mem_supportOf_symmetrize g b a).mpr ⟨hb, h⟩
    · exact hq
  · apply reach_reverse g.symmetrize.supportOf g.symmetrize.getCone g.numPoints
    · intro a b h
      exact ((mem_supportOf_symmetrize g a b).mp h).1
    · intro a b h _
      exact ((mem_supportOf_symmetrize g a b).mp h).2
    · exact hp

end Graph
end Plex

namespace Plex

/-- Once a round adds nothing, no later round does. -/
theorem reach_saturated (next : Nat → List Nat) (p k : Nat)
    (hsat : ∀ q, q ∈ reach next (k + 1) p → q ∈ reach next k p) :
    ∀ j q, q ∈ reach next j p → q ∈ reach next k p := by
  intro j
  induction j with
  | zero =>
    intro q h
    rw [mem_reach_zero] at h
    subst h
    exact mem_reach_self _ _ _
  | succ j ih =>
    intro q h
    rcases (mem_reach_succ_right next j p q).mp h with rfl | ⟨m, hm, hq⟩
    · exact mem_reach_self _ _ _
    · exact hsat q ((mem_reach_succ_right next k p q).mpr (Or.inr ⟨m, ih m hm, hq⟩))

theorem reach_mono_le (next : Nat → List Nat) (p q : Nat) {j k : Nat} (hjk : j ≤ k)
    (h : q ∈ reach next j p) : q ∈ reach next k p := by
  induction hjk with
  | refl => exact h
  | step _ ih => exact reach_mono _ _ _ _ ih

/-- Either some round up to `k` added nothing, or `k + 1` chart points have been reached. -/
theorem reach_saturates_or_grows (next : Nat → List Nat) (N : Nat)
    (hdom : ∀ a b, b ∈ next a → a < N) (p : Nat) (hp : p < N) (k : Nat) :
    (∃ j, j ≤ k ∧ ∀ q, q ∈ reach next (j + 1) p → q ∈ reach next j p) ∨
      k + 1 ≤ ((Finset.range N).filter fun m => m ∈ reach next k p).card := by
  induction k with
  | zero =>
    right
    have : p ∈ (Finset.range N).filter fun m => m ∈ reach next 0 p := by
      simp [hp, mem_reach_self]
    exact Finset.card_pos.mpr ⟨p, this⟩
  | succ k ih =>
    rcases ih with ⟨j, hj, hsat⟩ | hcard
    · exact Or.inl ⟨j, Nat.le_succ_of_le hj, hsat⟩
    · have hsub : ((Finset.range N).filter fun m => m ∈ reach next k p) ⊆
          ((Finset.range N).filter fun m => m ∈ reach next (k + 1) p) := by
        intro m hm
        simp only [Finset.mem_filter] at hm ⊢
        exact ⟨hm.1, reach_mono _ _ _ _ hm.2⟩
      by_cases heq : ((Finset.range N).filter fun m => m ∈ reach next k p) =
          ((Finset.range N).filter fun m => m ∈ reach next (k + 1) p)
      · left
        refine ⟨k + 1, le_refl _, ?_⟩
        intro q hq
        rcases (mem_reach_succ_right next (k + 1) p q).mp hq with rfl | ⟨m, hm, hqm⟩
        · exact mem_reach_self _ _ _
        · have hmN : m < N := hdom m q hqm
          have hm' : m ∈ (Finset.range N).filter fun m => m ∈ reach next (k + 1) p := by
            simp [hmN, hm]
          rw [← heq] at hm'
          have hmk : m ∈ reach next k p := (Finset.mem_filter.mp hm').2
          exact (mem_reach_succ_right next k p q).mpr (Or.inr ⟨m, hmk, hqm⟩)
      · right
        have hlt := Finset.card_lt_card (Finset.ssubset_iff_subset_ne.mpr ⟨hsub, heq⟩)
        omega

/-- Fuel equal to the size of the chart exhausts every path. -/
theorem reach_fuel_enough (next : Nat → List Nat) (N : Nat)
    (hdom : ∀ a b, b ∈ next a → a < N) (p q k : Nat) (h : q ∈ reach next k p) :
    q ∈ reach next N p := by
  by_cases hp : p < N
  · rcases reach_saturates_or_grows next N hdom p hp N with ⟨j, hj, hsat⟩ | hcard
    · exact reach_mono_le next p q hj (reach_saturated next p j hsat k q h)
    · have hle : ((Finset.range N).filter fun m => m ∈ reach next N p).card ≤ N := by
        calc ((Finset.range N).filter fun m => m ∈ reach next N p).card
            ≤ (Finset.range N).card := Finset.card_filter_le _ _
          _ = N := Finset.card_range N
      omega
  · have hnil : ∀ m, m ∉ next p := fun m hm => hp (hdom p m hm)
    have hqp : q = p := by
      cases k with
      | zero => exact (mem_reach_zero _ _ _).mp h
      | succ k =>
        rcases (mem_reach_succ _ _ _ _).mp h with h | ⟨m, hm, _⟩
        · exact h
        · exact absurd hm (hnil m)
    subst hqp
    exact mem_reach_self _ _ _

/-- With fuel the size of the chart, `reach` is the reflexive-transitive closure of `next`. -/
theorem mem_reach_iff_reflTransGen (next : Nat → List Nat) (N : Nat)
    (hdom : ∀ a b, b ∈ next a → a < N) (p q : Nat) :
    q ∈ reach next N p ↔ Relation.ReflTransGen (fun a b => b ∈ next a) p q := by
  constructor
  · have : ∀ k p, q ∈ reach next k p → Relation.ReflTransGen (fun a b => b ∈ next a) p q := by
      intro k
      induction k with
      | zero =>
        intro p h
        rw [mem_reach_zero] at h
        subst h
        exact Relation.ReflTransGen.refl
      | succ k ih =>
        intro p h
        rcases (mem_reach_succ _ _ _ _).mp h with rfl | ⟨m, hm, hq⟩
        · exact Relation.ReflTransGen.refl
        · exact Relation.ReflTransGen.head hm (ih m hq)
    exact this N p
  · intro h
    induction h with
    | refl => exact mem_reach_self _ _ _
    | tail _ hbc ih =>
      exact reach_fuel_enough next N hdom p _ (N + 1)
        ((mem_reach_succ_right next N p _).mpr (Or.inr ⟨_, ih, hbc⟩))

namespace Graph

/-- `closureOf` is the set of points reachable by repeatedly following cones. -/
theorem mem_closureOf_iff_reachable (g : Graph) (p q : Nat) :
    q ∈ g.closureOf p ↔ Relation.ReflTransGen (fun a b => b ∈ g.getCone a) p q := by
  rw [mem_closureOf]
  exact mem_reach_iff_reflTransGen g.getCone g.numPoints
    (fun a b h => lt_numPoints_of_mem_getCone g a b h) p q

/-- `starOf` is the set of points reachable by repeatedly following supports. -/
theorem mem_starOf_iff_reachable (g : Graph) (p q : Nat) :
    q ∈ g.symmetrize.starOf p ↔
      Relation.ReflTransGen (fun a b => b ∈ g.symmetrize.supportOf a) p q := by
  rw [mem_starOf]
  exact mem_reach_iff_reflTransGen g.symmetrize.supportOf g.numPoints
    (fun a b h => ((mem_supportOf_symmetrize g a b).mp h).1) p q

end Graph
end Plex

namespace Plex

theorem mem_depthOrder (dim d : Nat) : d ∈ depthOrder dim ↔ d ≤ dim := by
  unfold depthOrder
  split
  · simp; omega
  · simp only [List.mem_cons, List.mem_reverse, List.mem_map, List.mem_range]
    constructor
    · rintro (h | h | ⟨i, hi, rfl⟩) <;> omega
    · intro h
      by_cases h1 : d = dim
      · exact Or.inl h1
      · by_cases h0 : d = 0
        · exact Or.inr (Or.inl h0)
        · exact Or.inr (Or.inr ⟨d - 1, by omega, by omega⟩)

theorem nodup_depthOrder (dim : Nat) : (depthOrder dim).Nodup := by
  unfold depthOrder
  split
  · simp
  · rw [List.nodup_cons, List.nodup_cons]
    refine ⟨?_, ?_, ?_⟩
    · simp only [List.mem_cons, List.mem_reverse, List.mem_map, List.mem_range, not_or,
        not_exists, not_and]
      refine ⟨by omega, ?_⟩
      intro i hi
      omega
    · simp
    · rw [List.nodup_reverse]
      exact (List.nodup_range _).map (fun a b h => by simpa using h)

theorem le_foldl_max (l : List Nat) : ∀ a, a ≤ l.foldl max a ∧ ∀ x ∈ l, x ≤ l.foldl max a := by
  induction l with
  | nil => intro a; simp
  | cons y t ih =>
    intro a
    simp only [List.foldl_cons, List.mem_cons]
    have h := ih (max a y)
    refine ⟨le_trans (le_max_left a y) h.1, ?_⟩
    rintro x (rfl | hx)
    · exact le_trans (le_max_right a x) h.1
    · exact h.2 x hx

namespace Graph

theorem depth_le_dim (g : Graph) (p : Nat) (hp : p < g.numPoints) : g.depth p ≤ g.dim := by
  unfold dim
  apply (le_foldl_max _ 0).2
  exact List.mem_map.mpr ⟨p, List.mem_range.mpr hp, rfl⟩

end Graph

theorem mem_hOrder (g : Graph) (split : List Nat) (h : HPoint) :
    h ∈ hOrder g split ↔ ∃ d, d ≤ g.dim ∧
      (h ∈ ((List.range g.numPoints).filter fun p => g.depth p == d).map HPoint.old ∨
       h ∈ (split.filter fun p => g.depth p == d).map HPoint.dup ∨
       h ∈ (split.filter fun p => g.depth p + 1 == d).map HPoint.coh) := by
  unfold hOrder
  simp only [List.mem_flatMap, mem_depthOrder, List.mem_append, or_assoc]

theorem old_mem_hOrder (g : Graph) (split : List Nat) (p : Nat) :
    HPoint.old p ∈ hOrder g split ↔ p < g.numPoints := by
  rw [mem_hOrder]
  constructor
  · rintro ⟨d, _, h | h | h⟩
    · simp only [List.mem_map, List.mem_filter, List.mem_range] at h
      obtain ⟨a, ⟨ha, _⟩, hap⟩ := h
      cases hap
      exact ha
    · simp at h
    · simp at h
  · intro hp
    refine ⟨g.depth p, g.depth_le_dim p hp, Or.inl ?_⟩
    simp [hp]

theorem dup_mem_hOrder (g : Graph) (split : List Nat) (p : Nat) :
    HPoint.dup p ∈ hOrder g split ↔ p ∈ split ∧ g.depth p ≤ g.dim := by
  rw [mem_hOrder]
  constructor
  · rintro ⟨d, hd, h | h | h⟩
    · simp at h
    · simp only [List.mem_map, List.mem_filter, beq_iff_eq] at h
      obtain ⟨a, ⟨ha, had⟩, hap⟩ := h
      cases hap
      exact ⟨ha, had ▸ hd⟩
    · simp at h
  · rintro ⟨hp, hd⟩
    refine ⟨g.depth p, hd, Or.inr (Or.inl ?_)⟩
    simp [hp]

theorem coh_mem_hOrder (g : Graph) (split : List Nat) (p : Nat) :
    HPoint.coh p ∈ hOrder g split ↔ p ∈ split ∧ g.depth p + 1 ≤ g.dim := by
  rw [mem_hOrder]
  constructor
  · rintro ⟨d, hd, h | h | h⟩
    · simp at h
    · simp at h
    · simp only [List.mem_map, List.mem_filter, beq_iff_eq] at h
      obtain ⟨a, ⟨ha, had⟩, hap⟩ := h
      cases hap
      exact ⟨ha, had ▸ hd⟩
  · rintro ⟨hp, hd⟩
    refine ⟨g.depth p + 1, hd, Or.inr (Or.inr ?_)⟩
    simp [hp]

/-- The cone stored for a hybrid point is its symbolic cone, renumbered. -/
theorem getCone_hybridGraphOf (g : Graph) (split sideB : List Nat) (h : HPoint)
    (hh : h ∈ hOrder g split) :
    (hybridGraphOf g split sideB).getCone (newId g split h) =
      (hCone g split sideB h).map (newId g split) := by
  have hlt : (hOrder g split).indexOf h < (hOrder g split).length :=
    List.indexOf_lt_length.mpr hh
  have hc : (hybridGraphOf g split sideB).getCone (newId g split h) =
      ((hOrder g split).map fun h => (hCone g split sideB h).map (newId g split)).getD
        ((hOrder g split).indexOf h) [] := rfl
  rw [hc, List.getD_eq_getElem?_getD, List.getElem?_map, List.getElem?_eq_getElem hlt,
    List.getElem_indexOf hlt]
  rfl

theorem numPoints_hybridGraphOf (g : Graph) (split sideB : List Nat) :
    (hybridGraphOf g split sideB).numPoints = (hOrder g split).length := by
  simp [hybridGraphOf, Graph.numPoints, Graph.symmetrize]

end Plex

namespace Plex

theorem sum_indicator_eq_one (D : List Nat) (hD : D.Nodup) (a : Nat) (ha : a ∈ D) :
    (D.map fun d => if a = d then 1 else 0).sum = 1 := by
  induction D with
  | nil => exact absurd ha (List.not_mem_nil _)
  | cons d t ih =>
    rw [List.nodup_cons] at hD
    rcases List.mem_cons.mp ha with rfl | hat
    · have hz : (t.map fun d => if a = d then 1 else 0).sum = 0 := by
        apply List.sum_eq_zero
        intro x hx
        obtain ⟨d, hd, rfl⟩ := List.mem_map.mp hx
        have : a ≠ d := fun h => hD.1 (h ▸ hd)
        simp [this]
      simp [hz]
    · have hne : a ≠ d := fun h => hD.1 (h ▸ hat)
      simp [hne, ih hD.2 hat]

/-- Sorting a list into the classes of a key loses and repeats no element. -/
theorem sum_length_filter_eq {α : Type} (D : List Nat) (hD : D.Nodup) (f : α → Nat)
    (l : List α) (h : ∀ x ∈ l, f x ∈ D) :
    (D.map fun d => (l.filter fun x => f x == d).length).sum = l.length := by
  induction l with
  | nil => simp
  | cons x t ih =>
    have hx : f x ∈ D := h x (List.mem_cons_self _ _)
    have ht : ∀ y ∈ t, f y ∈ D := fun y hy => h y (List.mem_cons_of_mem _ hy)
    have hstep : ∀ d, ((x :: t).filter fun y => f y == d).length =
        (if f x = d then 1 else 0) + (t.filter fun y => f y == d).length := by
      intro d
      by_cases hd : f x = d
      · simp [List.filter_cons, hd]; omega
      · simp [List.filter_cons, hd]
    simp only [hstep]
    rw [List.sum_map_add, sum_indicator_eq_one D hD (f x) hx, ih ht, List.length_cons]
    omega

/-- The hybrid chart holds every old point, one duplicate and one cohesive point per split
point. -/
theorem length_hOrder (g : Graph) (split : List Nat)
    (hs : ∀ p ∈ split, g.depth p + 1 ≤ g.dim) :
    (hOrder g split).length = g.numPoints + 2 * split.length := by
  unfold hOrder
  rw [List.length_flatMap]
  have hfun : (List.length ∘ fun d =>
      ((List.range g.numPoints).filter fun p => g.depth p == d).map HPoint.old ++
      (split.filter fun p => g.depth p == d).map HPoint.dup ++
      (split.filter fun p => g.depth p + 1 == d).map HPoint.coh) =
      fun d => ((List.range g.numPoints).filter fun p => g.depth p == d).length +
        ((split.filter fun p => g.depth p == d).length +
         (split.filter fun p => g.depth p + 1 == d).length) := by
    funext d
    simp [List.length_append, Nat.add_assoc]
  rw [hfun, List.sum_map_add, List.sum_map_add]
  rw [sum_length_filter_eq (depthOrder g.dim) (nodup_depthOrder _) g.depth (List.range g.numPoints)
      (fun p hp => (mem_depthOrder _ _).mpr (g.depth_le_dim p (List.mem_range.mp hp))),
    sum_length_filter_eq (depthOrder g.dim) (nodup_depthOrder _) g.depth split
      (fun p hp => (mem_depthOrder _ _).mpr (Nat.le_of_succ_le (hs p hp))),
    sum_length_filter_eq (depthOrder g.dim) (nodup_depthOrder _) (fun p => g.depth p + 1) split
      (fun p hp => (mem_depthOrder _ _).mpr (hs p hp)),
    List.length_range]
  omega

theorem depth_lt_dim_of_mem_toSplitOf (g : Graph) (fault faultBd : Label) (p : Nat)
    (hp : p ∈ toSplitOf g fault faultBd) : p < g.numPoints ∧ g.depth p + 1 ≤ g.dim := by
  simp only [toSplitOf, splitWith, interiorOf, faultClosure, List.mem_filter, List.mem_range,
    Bool.or_eq_true, Bool.and_eq_true, decide_eq_true_eq] at hp
  refine ⟨hp.1, ?_⟩
  rcases hp.2 with h | h
  · exact h.1.2.1
  · exact h.1.1.2

theorem mem_keepSharedOf (g : Graph) (fault faultBd : Label) (p : Nat) :
    p ∈ keepSharedOf g fault faultBd ↔
      p ∈ faultClosure g (faultCells g fault) ∧ p ∈ faultBd.points := by
  simp [keepSharedOf, isKeepShared]

theorem lt_numPoints_of_mem_faultClosure (g : Graph) (fc : List Nat) (p : Nat)
    (hp : p ∈ faultClosure g fc) : p < g.numPoints := by
  simp only [faultClosure, List.mem_filter, List.mem_range] at hp
  exact hp.1

theorem interiorOf_eq_of_keepSharedOf_nil (g : Graph) (fault faultBd : Label)
    (h : keepSharedOf g fault faultBd = []) :
    interiorOf g fault faultBd = faultClosure g (faultCells g fault) := by
  unfold interiorOf
  rw [List.filter_eq_self]
  intro p hp
  have hn : p ∉ keepSharedOf g fault faultBd := by simp [h]
  rw [mem_keepSharedOf] at hn
  have : p ∉ faultBd.points := fun hb => hn ⟨hp, hb⟩
  simp [isKeepShared, this]

theorem splitWith_nil (g : Graph) (faultBd : Label) (fc : List Nat) (P : Nat → Bool) :
    splitWith g faultBd ((faultClosure g fc).filter P) [] = (faultClosure g fc).filter P := by
  unfold splitWith faultClosure
  simp only [List.any_nil, Bool.false_and, Bool.or_false, List.filter_filter]
  apply List.filter_congr
  intro p hp
  simp only [List.mem_filter, List.mem_range, Bool.and_eq_true, decide_eq_true_eq] at *
  by_cases h1 : P p = true <;> by_cases h2 : g.depth p < g.dim <;>
    by_cases h3 : (fc.any fun f => decide (p ∈ g.closureOf f)) = true <;> simp [h1, h2, h3, hp]

theorem toSplitOf_eq_of_extension_nil (g : Graph) (fault faultBd : Label)
    (h : extensionFaces g (faultCells g fault) (interiorOf g fault faultBd)
      (assignSides g (faultCells g fault) (interiorOf g fault faultBd)) = []) :
    toSplitOf g fault faultBd = interiorOf g fault faultBd := by
  unfold toSplitOf
  rw [h]
  exact splitWith_nil g faultBd _ _

end Plex

namespace Plex

theorem createHybridMesh_ok (g : Graph) (fault faultBd : Label) (r : HybridResult)
    (h : createHybridMesh g fault faultBd = Except.ok r) :
    r.toSplit = toSplitOf g fault faultBd ∧
    r.keepShared = keepSharedOf g fault faultBd ∧
    r.hybridGraph = hybridGraphOf g (toSplitOf g fault faultBd)
      (sideBPoints g (faultCells g fault) (toSplitOf g fault faultBd)
        (sideCells g (interiorOf g fault faultBd)
          (assignSides g (faultCells g fault) (interiorOf g fault faultBd)) true)) ∧
    r.hybridLabel = (toSplitOf g fault faultBd).map (fun p =>
      (newId g (toSplitOf g fault faultBd) (HPoint.coh p), 1)) ∧
    r.extension = extensionFaces g (faultCells g fault) (interiorOf g fault faultBd)
      (assignSides g (faultCells g fault) (interiorOf g fault faultBd)) := by
  unfold createHybridMesh at h
  split at h
  · cases h
  · simp only at h
    split at h
    · cases h
    · split at h
      · cases h
      · cases h
        exact ⟨rfl, rfl, rfl, rfl, rfl⟩

theorem eq_ok_of_toOption {ε α : Type} (x : Except ε α) (r : α) (h : x.toOption = some r) :
    x = Except.ok r := by
  cases x with
  | error e => simp [Except.toOption] at h
  | ok a =>
    simp only [Except.toOption, Option.some.injEq] at h
    rw [h]

end Plex

namespace Plex

open Graph

/-- C1 (symmetrize invariant). In every incidence graph after `symmetrize`, and in the
hybrid graph that `createHybridMesh` returns, for every point `p` of the chart and every `q`:
the support of `p` can be read, and `q` is in it if and only if `p` is in the cone of `q`. -/
theorem symmetrize_invariant :
    (∀ (g : Graph) (p q : Nat), p < g.numPoints →
      ∃ s, g.symmetrize.getSupport p = Except.ok s ∧ (q ∈ s ↔ p ∈ g.symmetrize.getCone q)) ∧
    (∀ (g : Graph) (fault faultBd : Label) (r : HybridResult) (p q : Nat),
      createHybridMesh g fault faultBd = Except.ok r → p < r.hybridGraph.numPoints →
      ∃ s, r.hybridGraph.getSupport p = Except.ok s ∧
        (q ∈ s ↔ p ∈ r.hybridGraph.getCone q)) := by
  have key : ∀ (g : Graph) (p q : Nat), p < g.numPoints →
      ∃ s, g.symmetrize.getSupport p = Except.ok s ∧
        (q ∈ s ↔ p ∈ g.symmetrize.getCone q) := by
    intro g p q hp
    refine ⟨_, getSupport_symmetrize g p, ?_⟩
    rw [mem_supportOf_symmetrize, getCone_symmetrize]
    exact ⟨fun h => h.2, fun h => ⟨hp, h⟩⟩
  refine ⟨key, ?_⟩
  intro g fault faultBd r p q h hp
  have hg := (createHybridMesh_ok g fault faultBd r h).2.2.1
  rw [hg] at hp ⊢
  exact key _ p q hp

/-- C7 (closure/star duality). In every symmetrized incidence graph, for all points `p`
and `q` of the chart, `closure p` and `star q` are defined and `q` is in `closure p` if and
only if `p` is in `star q`; here `closure p` is exactly the set of points reachable from `p`
by repeatedly following cones, and `star q` the set reachable from `q` by following
supports. -/
theorem closure_star_duality (g : Graph) (p q : Nat) (hp : p < g.numPoints)
    (hq : q < g.numPoints) :
    ∃ cl st, g.symmetrize.closure p = Except.ok cl ∧ g.symmetrize.star q = Except.ok st ∧
      (q ∈ cl ↔ p ∈ st) ∧
      (q ∈ cl ↔ Relation.ReflTransGen (fun a b => b ∈ g.symmetrize.getCone a) p q) ∧
      (p ∈ st ↔ Relation.ReflTransGen (fun a b => b ∈ g.symmetrize.supportOf a) q p) :=
  ⟨_, _, closure_symmetrize g p, star_symmetrize g q,
    mem_closureOf_iff_mem_starOf g p q hp hq,
    mem_closureOf_iff_reachable g.symmetrize p q,
    mem_starOf_iff_reachable g q p⟩

end Plex

namespace Plex

theorem not_mem_sideBPoints (g : Graph) (fc split cellsB : List Nat) (c : Nat)
    (hc : ∀ q ∈ g.closureOf c, q ∉ split) : c ∉ sideBPoints g fc split cellsB := by
  intro h
  simp only [sideBPoints, touches, List.mem_filter, Bool.and_eq_true, List.any_eq_true,
    decide_eq_true_eq] at h
  obtain ⟨q, hq, hqs⟩ := h.2.1.1.2
  exact hc q hq hqs

/-- C5, amended (conservation under split). For every fault none of whose points is kept
shared (`b = 0`) and which has no end inside the mesh (the split runs on through no further
face), the points to split are exactly the `k` points of the fault closure, and the hybrid
graph has exactly `2 * k` more points than the old one: for each fault point one duplicate
and one cohesive point.  Old points receive distinct new ids, and every old point whose
closure holds no fault point (in particular every cell not adjacent to the fault) has the
same cone as before, read through the renumbering of old points. -/
theorem conservation_under_split (g : Graph) (fault faultBd : Label) (r : HybridResult)
    (h : createHybridMesh g fault faultBd = Except.ok r)
    (hb : r.keepShared = []) (he : r.extension = []) :
    r.toSplit = faultClosure g (faultCells g fault) ∧
    r.hybridGraph.numPoints =
      g.numPoints + 2 * (faultClosure g (faultCells g fault)).length ∧
    (∀ p ∈ faultClosure g (faultCells g fault),
      HPoint.dup p ∈ hOrder g r.toSplit ∧ HPoint.coh p ∈ hOrder g r.toSplit) ∧
    (∀ a b, a < g.numPoints → b < g.numPoints →
      newId g r.toSplit (HPoint.old a) = newId g r.toSplit (HPoint.old b) → a = b) ∧
    (∀ c, c < g.numPoints →
      (∀ q ∈ g.closureOf c, q ∉ faultClosure g (faultCells g fault)) →
      r.hybridGraph.getCone (newId g r.toSplit (HPoint.old c)) =
        (g.getCone c).map fun q => newId g r.toSplit (HPoint.old q)) := by
  obtain ⟨hs, hk, hg, _, hx⟩ := createHybridMesh_ok g fault faultBd r h
  have hfc : r.toSplit = faultClosure g (faultCells g fault) := by
    rw [hs, toSplitOf_eq_of_extension_nil g fault faultBd (hx ▸ he),
      interiorOf_eq_of_keepSharedOf_nil g fault faultBd (hk ▸ hb)]
  have hdepth : ∀ p ∈ r.toSplit, g.depth p + 1 ≤ g.dim := by
    intro p hp
    rw [hs] at hp
    exact (depth_lt_dim_of_mem_toSplitOf g fault faultBd p hp).2
  refine ⟨hfc, ?_, ?_, ?_, ?_⟩
  · rw [hg, numPoints_hybridGraphOf, ← hs, length_hOrder g r.toSplit hdepth, hfc]
  · intro p hp
    rw [← hfc] at hp
    exact ⟨(dup_mem_hOrder g r.toSplit p).mpr ⟨hp, Nat.le_of_succ_le (hdepth p hp)⟩,
      (coh_mem_hOrder g r.toSplit p).mpr ⟨hp, hdepth p hp⟩⟩
  · intro a b ha hb' hab
    have h1 := (List.indexOf_inj ((old_mem_hOrder g r.toSplit a).mpr ha)
      ((old_mem_hOrder g r.toSplit b).mpr hb')).mp hab
    cases h1
    rfl
  · intro c hc hfar
    rw [← hfc] at hfar
    rw [hg, ← hs, getCone_hybridGraphOf g r.toSplit _ _ ((old_mem_hOrder g r.toSplit c).mpr hc)]
    have hnot : c ∉ sideBPoints g (faultCells g fault) r.toSplit
        (sideCells g (interiorOf g fault faultBd)
          (assignSides g (faultCells g fault) (interiorOf g fault faultBd)) true) :=
      not_mem_sideBPoints g _ _ _ c hfar
    simp only [hCone, if_neg hnot, List.map_map]
    rfl

/-- C8, amended (cone size of cohesive cells). Every synthesized cohesive point is the
cohesive point over some split point `p`; when the whole cone of `p` is split, its cone is
`p`, the duplicate of `p`, and the cohesive points over the entries of the cone of `p` in
their order, so that its cone size is `2 + (cone size of p)`, for any shape of `p`. -/
theorem cohesive_cone_size (g : Graph) (fault faultBd : Label) (r : HybridResult)
    (h : createHybridMesh g fault faultBd = Except.ok r) :
    (∀ e ∈ r.hybridLabel, ∃ p ∈ r.toSplit, e.1 = newId g r.toSplit (HPoint.coh p)) ∧
    (∀ p ∈ r.toSplit, (∀ q ∈ g.getCone p, q ∈ r.toSplit) →
      r.hybridGraph.getCone (newId g r.toSplit (HPoint.coh p)) =
        newId g r.toSplit (HPoint.old p) :: newId g r.toSplit (HPoint.dup p) ::
          (g.getCone p).map (fun q => newId g r.toSplit (HPoint.coh q)) ∧
      (r.hybridGraph.getCone (newId g r.toSplit (HPoint.coh p))).length =
        2 + (g.getCone p).length) := by
  obtain ⟨hs, _, hg, hl, _⟩ := createHybridMesh_ok g fault faultBd r h
  have hdepth : ∀ p ∈ r.toSplit, g.depth p + 1 ≤ g.dim := by
    intro p hp
    rw [hs] at hp
    exact (depth_lt_dim_of_mem_toSplitOf g fault faultBd p hp).2
  refine ⟨?_, ?_⟩
  · intro e he
    rw [hl, ← hs] at he
    obtain ⟨p, hp, rfl⟩ := List.mem_map.mp he
    exact ⟨p, hp, rfl⟩
  · intro p hp hall
    have hcone : r.hybridGraph.getCone (newId g r.toSplit (HPoint.coh p)) =
        newId g r.toSplit (HPoint.old p) :: newId g r.toSplit (HPoint.dup p) ::
          (g.getCone p).map (fun q => newId g r.toSplit (HPoint.coh q)) := by
      rw [hg, ← hs, getCone_hybridGraphOf g r.toSplit _ _
        ((coh_mem_hOrder g r.toSplit p).mpr ⟨hp, hdepth p hp⟩)]
      have hf : ((g.getCone p).filter fun q => decide (q ∈ r.toSplit)) = g.getCone p := by
        rw [List.filter_eq_self]
        intro q hq
        simpa using hall q hq
      simp only [hCone, hf, List.map_append, List.map_cons, List.map_nil, List.map_map,
        List.cons_append, List.nil_append]
      rfl
    refine ⟨hcone, ?_⟩
    rw [hcone]
    simp only [List.length_cons, List.length_map]
    omega

end Plex

namespace Plex

theorem exists_ok_of {ε α : Type} (x : Except ε α) (P : α → Prop)
    (h1 : x.toOption.isSome = true) (h2 : ∀ a ∈ x.toOption, P a) :
    ∃ a, x = Except.ok a ∧ P a := by
  cases x with
  | error e => simp [Except.toOption] at h1
  | ok a => exact ⟨a, rfl, h2 a (by simp [Except.toOption])⟩

end Plex

namespace Ex5

open Plex

/-- C2 (two-triangle example). For the fixture of `CreateSimplex_2D` test 0 (cells 0 and
1 on vertices 2,3,4 and 5,4,3, fault label on the vertices 3 and 4 of the shared edge 7, no
point kept shared) hybrid-mesh construction succeeds; its graph has the cells 0, 1, 2, of
which exactly cell 2 is cohesive; cells 0 and 1 are still triangles, on the old vertices and
on vertex 5 with the duplicates of 4 and 3; and the cohesive cell has exactly the four
vertices: fault vertex 3, its duplicate, fault vertex 4, its duplicate. -/
theorem two_triangle_example :
    ∃ x, createHybrid (CreateSimplex_2D 0) = Except.ok x ∧
      x.1.graph.getHeightStratum 0 = [0, 1] ∧
      x.1.graph.vertices 0 = [3, 4, 2] ∧ x.1.graph.vertices 1 = [4, 3, 5] ∧
      DMGetLabel x.1 "fault" = [(3, 1), (4, 1)] ∧
      sharedFaces x.1.graph 0 1 = [7] ∧ x.1.graph.getCone 7 = [3, 4] ∧
      x.2.keepShared = [] ∧
      x.2.hybridGraph.getHeightStratum 0 = [0, 1, 2] ∧
      ((x.2.hybridGraph.getHeightStratum 0).filter fun c =>
        decide (c ∈ x.2.hybridLabel.points)) = [2] ∧
      (x.2.hybridGraph.getCone 0).length = 3 ∧ (x.2.hybridGraph.getCone 1).length = 3 ∧
      x.2.hybridGraph.vertices 0 =
        (x.1.graph.vertices 0).map (fun v => newId x.1.graph x.2.toSplit (HPoint.old v)) ∧
      x.2.hybridGraph.vertices 1 =
        (x.1.graph.vertices 1).map (fun v => newId x.1.graph x.2.toSplit (toSideB x.2.toSplit v)) ∧
      x.2.hybridGraph.vertices 2 =
        [newId x.1.graph x.2.toSplit (HPoint.old 3), newId x.1.graph x.2.toSplit (HPoint.dup 3),
         newId x.1.graph x.2.toSplit (HPoint.old 4), newId x.1.graph x.2.toSplit (HPoint.dup 4)] ∧
      x.2.hybridGraph.vertices 2 = [4, 7, 5, 8] :=
  exists_ok_of _ _ (by decide!) (by decide!)

end Ex5

namespace Ex5

open Plex

theorem createHybrid_ok (fixture : Except PetscError DM) (x : DM × HybridResult)
    (h : createHybrid fixture = Except.ok x) :
    fixture = Except.ok x.1 ∧
      createHybridMesh x.1.graph (DMGetLabel x.1 "fault") (DMGetLabel x.1 "faultBd") =
        Except.ok x.2 := by
  unfold createHybrid at h
  split at h
  · cases h
  · split at h
    · next dm _ r hr =>
      cases h
      exact ⟨rfl, hr⟩
    · cases h

theorem twoTriangles_ok : ∃ x, createHybrid (CreateSimplex_2D 0) = Except.ok x ∧
    x.1.graph.numPoints = 11 ∧ x.2.hybridGraph.numPoints = 17 ∧ x.2.toSplit = [3, 4, 7] :=
  exists_ok_of _ _ (by decide!) (by decide!)

theorem twoTetrahedra_ok : ∃ x, createHybrid (CreateSimplex_3D 0) = Except.ok x ∧
    x.1.graph.numPoints = 23 ∧ x.2.hybridGraph.numPoints = 37 ∧
    x.2.toSplit = [3, 4, 5, 10, 17, 18, 19] :=
  exists_ok_of _ _ (by decide!) (by decide!)

/-- C3 (two-tetrahedra example). For the fixture of `CreateSimplex_3D` test 0 (two
tetrahedra sharing face 10 on the fault vertices 3, 4, 5) hybrid-mesh construction succeeds;
its graph has the cells 0, 1, 2, of which exactly cell 2, the cohesive point over face 10,
is cohesive; cells 0 and 1 are still tetrahedra; there are exactly 3 cohesive faces (19, 20,
21) and 3 cohesive edges (34, 35, 36), all in the closure of cell 2; and cell 2 has exactly
the 6 vertices: the fault vertices 3, 4, 5 and their duplicates. -/
theorem two_tetrahedra_example :
    ∃ x, createHybrid (CreateSimplex_3D 0) = Except.ok x ∧
      x.1.graph.getHeightStratum 0 = [0, 1] ∧
      (x.1.graph.getCone 0).length = 4 ∧ (x.1.graph.getCone 1).length = 4 ∧
      sharedFaces x.1.graph 0 1 = [10] ∧ x.1.graph.vertices 10 = [4, 5, 3] ∧
      DMGetLabel x.1 "fault" = [(3, 1), (4, 1), (5, 1)] ∧
      x.2.hybridGraph.getHeightStratum 0 = [0, 1, 2] ∧
      ((x.2.hybridGraph.getHeightStratum 0).filter fun c =>
        decide (c ∈ x.2.hybridLabel.points)) = [2] ∧
      newId x.1.graph x.2.toSplit (HPoint.coh 10) = 2 ∧
      (x.2.hybridGraph.getCone 0).length = 4 ∧ (x.2.hybridGraph.getCone 1).length = 4 ∧
      x.2.hybridGraph.vertices 0 =
        (x.1.graph.vertices 0).map (fun v => newId x.1.graph x.2.toSplit (HPoint.old v)) ∧
      x.2.hybridGraph.vertices 1 =
        (x.1.graph.vertices 1).map (fun v => newId x.1.graph x.2.toSplit (toSideB x.2.toSplit v)) ∧
      (x.2.hybridLabel.points.filter fun c => x.2.hybridGraph.depth c == 2) = [19, 20, 21] ∧
      (x.2.hybridLabel.points.filter fun c => x.2.hybridGraph.depth c == 1) = [34, 35, 36] ∧
      ([19, 20, 21, 34, 35, 36].all fun c => decide (c ∈ x.2.hybridGraph.closureOf 2)) = true ∧
      x.2.hybridGraph.vertices 2 =
        [newId x.1.graph x.2.toSplit (HPoint.old 4), newId x.1.graph x.2.toSplit (HPoint.dup 4),
         newId x.1.graph x.2.toSplit (HPoint.old 5), newId x.1.graph x.2.toSplit (HPoint.dup 5),
         newId x.1.graph x.2.toSplit (HPoint.old 3), newId x.1.graph x.2.toSplit (HPoint.dup 3)] ∧
      x.2.hybridGraph.vertices 2 = [5, 9, 6, 10, 4, 8] :=
  exists_ok_of _ _ (by decide!) (by decide!)

/-- C5 fails as stated: the pictures of triangle test 0 in `ex5.c` number 11 points before
the split and 17 after it, and the hybrid-mesh construction reproduces both; the fault
closure has `k = 3` points (vertices 3, 4 and edge 7), none kept shared; so there are 6 new
points and not 3. -/
theorem conservation_counterexample :
    drawnTriangles.length = 11 ∧ drawnHybridTriangles.length = 17 ∧
    ∃ x, createHybrid (CreateSimplex_2D 0) = Except.ok x ∧
      (x.1.graph.cones.map fun c => c.insertionSort fun a b => a ≤ b) = drawnTriangles ∧
      (x.2.hybridGraph.cones.map fun c => c.insertionSort fun a b => a ≤ b) =
        drawnHybridTriangles ∧
      DMGetLabel x.1 "fault" = [(3, 1), (4, 1)] ∧
      faultClosure x.1.graph (faultCells x.1.graph (DMGetLabel x.1 "fault")) = [3, 4, 7] ∧
      x.2.toSplit = [3, 4, 7] ∧ x.2.keepShared = [] ∧
      x.1.graph.numPoints = 11 ∧ x.2.hybridGraph.numPoints = 17 ∧
      x.2.hybridGraph.numPoints ≠ x.1.graph.numPoints +
        (faultClosure x.1.graph (faultCells x.1.graph (DMGetLabel x.1 "fault"))).length :=
  ⟨rfl, rfl, exists_ok_of _ _ (by decide!) (by decide!)⟩

/-- C8 fails as stated: the cohesive cell 2 over the triangular fault face 10 of the
two-tetrahedra fixture (cone size 3) has cone size 5, not 6: the fault face 14, its duplicate
18 and the three cohesive faces 19, 20, 21, which are all the faces the hybrid mesh has
besides the four of each tetrahedron (the picture in `ex5.c` numbers the faces 11..21, the
edges from 22 on, "3 faces/3 edges/6 vertices").  The cohesive cell 2 over the quadrilateral
fault face 17 of the two-hexahedra fixture (cone size 4) has cone size 6, not 8: faces 22 and
30 and the four cohesive faces 31..34 (faces 19..34 in the picture, edges from 35 on). -/
theorem cohesive_cone_counterexample :
    (∃ x, createHybrid (CreateSimplex_3D 0) = Except.ok x ∧
      newId x.1.graph x.2.toSplit (HPoint.coh 10) = 2 ∧
      (x.1.graph.getCone 10).length = 3 ∧
      x.2.hybridGraph.getDepthStratum 2 = [11, 12, 13, 14, 15, 16, 17, 18, 19, 20, 21] ∧
      (x.2.hybridGraph.getDepthStratum 1).head? = some 22 ∧
      x.2.hybridGraph.getCone 0 = [11, 12, 13, 14] ∧
      x.2.hybridGraph.getCone 1 = [15, 18, 17, 16] ∧
      x.2.hybridGraph.getCone 2 = [14, 18, 19, 20, 21] ∧
      (x.2.hybridGraph.getCone 2).length ≠ 2 * (x.1.graph.getCone 10).length) ∧
    (∃ y, createHybrid (CreateHex_3D 0) = Except.ok y ∧
      newId y.1.graph y.2.toSplit (HPoint.coh 17) = 2 ∧
      (y.1.graph.getCone 17).length = 4 ∧
      y.2.hybridGraph.getDepthStratum 2 =
        [19, 20, 21, 22, 23, 24, 25, 26, 27, 28, 29, 30, 31, 32, 33, 34] ∧
      (y.2.hybridGraph.getDepthStratum 1).head? = some 35 ∧
      y.2.hybridGraph.getCone 0 = [19, 20, 21, 22, 23, 24] ∧
      y.2.hybridGraph.getCone 1 = [25, 26, 27, 28, 29, 30] ∧
      y.2.hybridGraph.getCone 2 = [22, 30, 31, 34, 32, 33] ∧
      (y.2.hybridGraph.getCone 2).length ≠ 2 * (y.1.graph.getCone 17).length) :=
  ⟨exists_ok_of _ _ (by decide!) (by decide!), exists_ok_of _ _ (by decide!) (by decide!)⟩

end Ex5

namespace Ex5

open Plex

theorem twoTetrahedra_fault_face : ∃ x, createHybrid (CreateSimplex_3D 0) = Except.ok x ∧
    x.2.toSplit = [3, 4, 5, 10, 17, 18, 19] ∧ x.1.graph.getCone 10 = [17, 18, 19] :=
  exists_ok_of _ _ (by decide!) (by decide!)

theorem twoHexahedra_fault_face : ∃ x, createHybrid (CreateHex_3D 0) = Except.ok x ∧
    x.2.toSplit = [3, 4, 7, 8, 17, 27, 30, 33, 35] ∧ x.1.graph.getCone 17 = [27, 35, 30, 33] :=
  exists_ok_of _ _ (by decide!) (by decide!)

theorem twoTriangles_fault : ∃ x, createHybrid (CreateSimplex_2D 0) = Except.ok x ∧
    x.2.keepShared = [] ∧ x.2.extension = [] ∧
    faultClosure x.1.graph (faultCells x.1.graph (DMGetLabel x.1 "fault")) = [3, 4, 7] :=
  exists_ok_of _ _ (by decide!) (by decide!)

theorem threeQuads_far_cell :
    ∃ g, g = interpolate 2 (Graph.symmetrize
        ⟨[[3, 4, 8, 7], [4, 5, 9, 8], [5, 6, 10, 9], [], [], [], [], [], [], [], []],
         [[0, 0, 0, 0], [0, 0, 0, 0], [0, 0, 0, 0], [], [], [], [], [], [], [], []], none⟩) ∧
      ∃ r, createHybridMesh g [(4, 1), (8, 1)] [] = Except.ok r ∧
        r.keepShared = [] ∧ r.extension = [] ∧ g.numPoints = 21 ∧
        (∀ q ∈ g.closureOf 2, q ∉ faultClosure g (faultCells g [(4, 1), (8, 1)])) ∧
        newId g r.toSplit (HPoint.old 2) = 2 ∧ g.getCone 2 = [18, 19, 20, 16] ∧
        ((g.getCone 2).map fun q => newId g r.toSplit (HPoint.old q)) = [21, 22, 23, 19] :=
  ⟨_, rfl, exists_ok_of _ _ (by decide!) (by decide!)⟩

/-- Witness of C1 on the two-triangle fixture, before interpolation and after hybrid-mesh
construction. -/
theorem symmetrize_invariant_witness :
    (∃ s, (Graph.symmetrize ⟨[[2, 3, 4], [5, 4, 3], [], [], [], []],
        [[0, 0, 0], [0, 0, 0], [], [], [], []], none⟩).getSupport 3 = Except.ok s ∧
      (1 ∈ s ↔ 3 ∈ (Graph.symmetrize ⟨[[2, 3, 4], [5, 4, 3], [], [], [], []],
        [[0, 0, 0], [0, 0, 0], [], [], [], []], none⟩).getCone 1)) ∧
    (∃ x, createHybrid (CreateSimplex_2D 0) = Except.ok x ∧
      ∃ s, x.2.hybridGraph.getSupport 4 = Except.ok s ∧
        (9 ∈ s ↔ 4 ∈ x.2.hybridGraph.getCone 9)) := by
  refine ⟨symmetrize_invariant.1 _ 3 1 (by decide), ?_⟩
  obtain ⟨x, hx, _, hn, _⟩ := twoTriangles_ok
  exact ⟨x, hx, symmetrize_invariant.2 _ _ _ x.2 4 9 (createHybrid_ok _ x hx).2
    (by rw [hn]; decide)⟩

/-- Witness of C7: cell 0 and vertex 3 of the two-triangle fixture. -/
theorem closure_star_duality_witness :
    ∃ cl st, (Graph.symmetrize ⟨[[2, 3, 4], [5, 4, 3], [], [], [], []],
        [[0, 0, 0], [0, 0, 0], [], [], [], []], none⟩).closure 0 = Except.ok cl ∧
      (Graph.symmetrize ⟨[[2, 3, 4], [5, 4, 3], [], [], [], []],
        [[0, 0, 0], [0, 0, 0], [], [], [], []], none⟩).star 3 = Except.ok st ∧
      (3 ∈ cl ↔ 0 ∈ st) ∧
      (3 ∈ cl ↔ Relation.ReflTransGen (fun a b => b ∈ (Graph.symmetrize
        ⟨[[2, 3, 4], [5, 4, 3], [], [], [], []],
         [[0, 0, 0], [0, 0, 0], [], [], [], []], none⟩).getCone a) 0 3) ∧
      (0 ∈ st ↔ Relation.ReflTransGen (fun a b => b ∈ (Graph.symmetrize
        ⟨[[2, 3, 4], [5, 4, 3], [], [], [], []],
         [[0, 0, 0], [0, 0, 0], [], [], [], []], none⟩).supportOf a) 3 0) :=
  closure_star_duality ⟨[[2, 3, 4], [5, 4, 3], [], [], [], []],
    [[0, 0, 0], [0, 0, 0], [], [], [], []], none⟩ 0 3 (by decide) (by decide)

/-- Witness of C5 as amended: the count on the two-triangle fixture, and the cone of cell 2
of a strip of three quadrilaterals with the fault between cells 0 and 1, which no fault
point touches. -/
theorem conservation_under_split_witness :
    (∃ x, createHybrid (CreateSimplex_2D 0) = Except.ok x ∧
      x.2.toSplit = [3, 4, 7] ∧
      x.2.hybridGraph.numPoints = x.1.graph.numPoints + 2 * 3) ∧
    (∃ g, g = interpolate 2 (Graph.symmetrize
        ⟨[[3, 4, 8, 7], [4, 5, 9, 8], [5, 6, 10, 9], [], [], [], [], [], [], [], []],
         [[0, 0, 0, 0], [0, 0, 0, 0], [0, 0, 0, 0], [], [], [], [], [], [], [], []], none⟩) ∧
      ∃ r, createHybridMesh g [(4, 1), (8, 1)] [] = Except.ok r ∧
        g.getCone 2 = [18, 19, 20, 16] ∧ r.hybridGraph.getCone 2 = [21, 22, 23, 19]) := by
  constructor
  · obtain ⟨x, hx, hb, he, hf⟩ := twoTriangles_fault
    have h := conservation_under_split _ _ _ x.2 (createHybrid_ok _ x hx).2 hb he
    rw [hf] at h
    exact ⟨x, hx, h.1, h.2.1⟩
  · obtain ⟨g, hg, r, hr, hb, he, hn, hfar, hid, hc, hm⟩ := threeQuads_far_cell
    have h := (conservation_under_split _ _ _ r hr hb he).2.2.2.2 2 (by rw [hn]; decide) hfar
    rw [hid, hm] at h
    exact ⟨g, hg, r, hr, hc, h⟩

/-- Witness of C8 as amended: the cohesive cells over face 10 of the two-tetrahedra fixture
and over face 17 of the two-hexahedra fixture. -/
theorem cohesive_cone_size_witness :
    (∃ x, createHybrid (CreateSimplex_3D 0) = Except.ok x ∧
      (x.2.hybridGraph.getCone (newId x.1.graph x.2.toSplit (HPoint.coh 10))).length =
        2 + 3) ∧
    (∃ y, createHybrid (CreateHex_3D 0) = Except.ok y ∧
      (y.2.hybridGraph.getCone (newId y.1.graph y.2.toSplit (HPoint.coh 17))).length =
        2 + 4) := by
  constructor
  · obtain ⟨x, hx, hs, hc⟩ := twoTetrahedra_fault_face
    have h := ((cohesive_cone_size _ _ _ x.2 (createHybrid_ok _ x hx).2).2 10
      (by rw [hs]; decide) (by rw [hs, hc]; decide)).2
    rw [hc] at h
    exact ⟨x, hx, h⟩
  · obtain ⟨y, hy, hs, hc⟩ := twoHexahedra_fault_face
    have h := ((cohesive_cone_size _ _ _ y.2 (createHybrid_ok _ y hy).2).2 17
      (by rw [hs]; decide) (by rw [hs, hc]; decide)).2
    rw [hc] at h
    exact ⟨y, hy, h⟩

end Ex5

namespace Ex5

open Plex

/-- The model reproduces the hybrid mesh drawn in `ex5.c` for triangle test 0, point by
point. -/
theorem hybrid_triangles_as_drawn :
    ((createHybrid (CreateSimplex_2D 0)).toOption.map fun x =>
      x.2.hybridGraph.cones.map fun c => c.insertionSort (fun a b => a ≤ b)) =
      some drawnHybridTriangles := by decide!

/-- The model reproduces the edges drawn in `ex5.c` for the hybrid mesh of tetrahedron
test 0. -/
theorem hybrid_tetrahedra_edges_as_drawn :
    ((createHybrid (CreateSimplex_3D 0)).toOption.map fun x =>
      (x.2.hybridGraph.cones.drop 22).map fun c => c.insertionSort (fun a b => a ≤ b)) =
      some drawnHybridTetrahedraEdges := by decide!

/-- The model reproduces the cells drawn in `ex5.c` for quadrilateral test 1 "After first
fault", each with its corners: the fault end 19 inside the mesh is split like the other
fault vertices, and the third zero-volume cell 11 lies between 22, 30 and 23. -/
theorem hybrid_quads_as_drawn :
    ((createHybrid (CreateQuad_2D 1)).toOption.map fun x =>
      (x.2.hybridGraph.getHeightStratum 0).map fun c =>
        (c, (x.2.hybridGraph.vertices c).insertionSort fun a b => a ≤ b)) =
      some drawnQuadsAfterFirstFault := by decide!

/-- The model reproduces the cells drawn in `ex5.c` for the hybrid meshes of triangle test 1
(two fault edges oriented against each other), tetrahedron test 0, quadrilateral test 0 and
hexahedron test 0, each with its corners: the duplicates lie on the side drawn. -/
theorem hybrid_cells_as_drawn :
    ([CreateSimplex_2D 1, CreateSimplex_3D 0, CreateQuad_2D 0, CreateHex_3D 0].map fun f =>
      (createHybrid f).toOption.map fun x =>
        (x.2.hybridGraph.getHeightStratum 0).map fun c =>
          (c, (x.2.hybridGraph.vertices c).insertionSort fun a b => a ≤ b)) =
      drawnHybridCells.map some := by decide!

/-- The model reproduces the sizes of the charts that `ex5.c` documents before and after
the split, and in each of these fixtures the split adds two points per fault point. -/
theorem chart_sizes_as_documented :
    ([CreateSimplex_2D 0, CreateSimplex_2D 1, CreateSimplex_3D 0, CreateSimplex_3D 1,
      CreateQuad_2D 0, CreateHex_3D 0].map fun f =>
        (createHybrid f).toOption.map fun x =>
          (x.1.graph.numPoints, x.2.hybridGraph.numPoints)) = documentedChartSizes.map some ∧
    ([CreateSimplex_2D 0, CreateSimplex_2D 1, CreateSimplex_3D 0, CreateSimplex_3D 1,
      CreateQuad_2D 0, CreateHex_3D 0].map fun f =>
        (createHybrid f).toOption.map fun x =>
          decide (x.2.hybridGraph.numPoints = x.1.graph.numPoints + 2 *
            (faultClosure x.1.graph (faultCells x.1.graph (DMGetLabel x.1 "fault"))).length)) =
      List.replicate 6 (some true) := by decide!

/-- The model reproduces the point ranges documented in `ex5.c` for tetrahedron test 1
(two fault faces oriented against each other). -/
theorem hybrid_tetrahedra_ranges_as_documented :
    ((createHybrid (CreateSimplex_3D 1)).toOption.map fun x =>
      [3, 0, 2, 1].map fun d =>
        ((x.2.hybridGraph.getDepthStratum d).headD 0,
         ((x.2.hybridLabel.points.filter fun c => x.2.hybridGraph.depth c == d).headD
            (((x.2.hybridGraph.getDepthStratum d).getLastD 0) + 1)),
         ((x.2.hybridGraph.getDepthStratum d).getLastD 0) + 1)) =
      some documentedHybridTetrahedraRanges := by decide!

end Ex5

/-! ## Slices: what is decided around the fault does not depend on the rest of the mesh -/

namespace Plex

namespace Graph

theorem mem_closureOf_self (g : Graph) (p : Nat) : p ∈ g.closureOf p := by
  rw [mem_closureOf]
  exact mem_reach_self _ _ _

theorem mem_closureOf_trans (g : Graph) (a b c : Nat) (h1 : b ∈ g.closureOf a)
    (h2 : c ∈ g.closureOf b) : c ∈ g.closureOf a := by
  rw [mem_closureOf_iff_reachable] at *
  exact h1.trans h2

theorem holds_of_mem_closureOf (g : Graph) (cells : List Nat) (p q : Nat)
    (hp : g.holds cells p = true) (hq : q ∈ g.closureOf p) : g.holds cells q = true := by
  simp only [holds, List.any_eq_true, decide_eq_true_eq] at *
  obtain ⟨c, hc, hpc⟩ := hp
  exact ⟨c, hc, mem_closureOf_trans g c p q hpc hq⟩

end Graph

end Plex

namespace Plex

open Graph

theorem aroundFault_of_mem_points (g : Graph) (fault : Label) (p : Nat)
    (hp : p ∈ fault.points) : aroundFault g fault p = true := by
  simp only [aroundFault, List.any_eq_true, Bool.or_eq_true, decide_eq_true_eq]
  exact ⟨p, mem_closureOf_self g p, Or.inl hp⟩

theorem aroundFault_of_mem_faultClosure (g : Graph) (fault : Label) (p : Nat)
    (hp : p ∈ faultClosure g (faultCells g fault)) : aroundFault g fault p = true := by
  simp only [aroundFault, List.any_eq_true, Bool.or_eq_true, decide_eq_true_eq]
  exact ⟨p, mem_closureOf_self g p, Or.inr hp⟩

theorem mem_faultCells (g : Graph) (fault : Label) (f : Nat) :
    f ∈ faultCells g fault ↔ g.dim ≠ 0 ∧ f < g.numPoints ∧ g.depth f = g.dim - 1 ∧
      (decide (f ∈ fault.points) ||
        (!(g.vertices f).isEmpty && (g.vertices f).all fun v => decide (v ∈ fault.points))) =
        true := by
  unfold faultCells
  by_cases hd : g.dim = 0
  · simp [hd]
  · rw [if_neg hd]
    simp only [getDepthStratum, List.mem_filter, List.mem_range, beq_iff_eq]
    constructor
    · rintro ⟨⟨h1, h2⟩, h3⟩
      exact ⟨hd, h1, h2, h3⟩
    · rintro ⟨_, h1, h2, h3⟩
      exact ⟨⟨h1, h2⟩, h3⟩

theorem mem_faultClosure_of_mem_faultCells (g : Graph) (fault : Label) (f : Nat)
    (hf : f ∈ faultCells g fault) : f ∈ faultClosure g (faultCells g fault) := by
  obtain ⟨hd, hlt, hdep, _⟩ := (mem_faultCells g fault f).mp hf
  simp only [faultClosure, List.mem_filter, List.mem_range, Bool.and_eq_true,
    decide_eq_true_eq, List.any_eq_true]
  exact ⟨hlt, by omega, f, hf, mem_closureOf_self g f⟩

theorem mem_closure_of_mem_faultClosure (g : Graph) (fc : List Nat) (p : Nat)
    (hp : p ∈ faultClosure g fc) : ∃ f ∈ fc, p ∈ g.closureOf f := by
  simp only [faultClosure, List.mem_filter, Bool.and_eq_true, List.any_eq_true,
    decide_eq_true_eq] at hp
  exact hp.2.2

end Plex

namespace Plex

open Graph

theorem SliceBase.closure_held {g : Graph} {fault : Label} {cells : List Nat}
    (ok : SliceBase g fault cells) (p : Nat) (hp : p ∈ faultClosure g (faultCells g fault)) :
    g.holds cells p = true := by
  obtain ⟨f, hf, hpf⟩ := mem_closure_of_mem_faultClosure g _ p hp
  exact holds_of_mem_closureOf g cells f p (ok.faultHeld f hf) hpf

theorem SliceOk.holds_of_points {g : Graph} {fault : Label} {cells : List Nat}
    (ok : SliceOk g fault cells) (p : Nat) (hlt : p < g.numPoints) (hp : p ∈ fault.points) :
    g.holds cells p = true :=
  ok.around p hlt (aroundFault_of_mem_points g fault p hp)

theorem SliceOk.holds_of_faultClosure {g : Graph} {fault : Label} {cells : List Nat}
    (ok : SliceOk g fault cells) (p : Nat) (hp : p ∈ faultClosure g (faultCells g fault)) :
    g.holds cells p = true :=
  ok.around p (lt_numPoints_of_mem_faultClosure g _ p hp)
    (aroundFault_of_mem_faultClosure g fault p hp)

theorem SliceOk.holds_of_faultCells {g : Graph} {fault : Label} {cells : List Nat}
    (ok : SliceOk g fault cells) (f : Nat) (hf : f ∈ faultCells g fault) :
    g.holds cells f = true :=
  ok.holds_of_faultClosure f (mem_faultClosure_of_mem_faultCells g fault f hf)

end Plex

namespace Plex

open Graph

end Plex

namespace Plex

open Graph

end Plex

namespace Ex5

open Plex

/-- On the two-triangle fixture each single-cell slice holds the fault cell and the labelled
points, classifies the fault points as the whole mesh does and gives its cell the side it
has in the whole mesh. -/
theorem twoTriangles_slices_agree :
    ∃ dm, CreateSimplex_2D 0 = Except.ok dm ∧
      holdsFaultCells dm.graph (DMGetLabel dm "fault") [0] = true ∧
      holdsFaultCells dm.graph (DMGetLabel dm "fault") [1] = true ∧
      ([[0, 1], [0], [1]].map fun cells =>
        (toSplitOf (dm.graph.slice cells) (DMGetLabel dm "fault") (DMGetLabel dm "faultBd"),
         keepSharedOf (dm.graph.slice cells) (DMGetLabel dm "fault") (DMGetLabel dm "faultBd"),
         assignSides (dm.graph.slice cells)
          (faultCells (dm.graph.slice cells) (DMGetLabel dm "fault"))
          (interiorOf (dm.graph.slice cells) (DMGetLabel dm "fault")
            (DMGetLabel dm "faultBd")))) =
      [([3, 4, 7], [], [(0, false), (1, true)]), ([3, 4, 7], [], [(0, false)]),
       ([3, 4, 7], [], [(1, true)])] :=
  exists_ok_of _ _ (by decide!) (by decide!)

end Ex5

namespace PetscBT

/-- The value and the byte `PetscBTLookupSet` produces over `c` for bit `n % 8` of it. -/
theorem PetscBTLookupSet_natCast (sc : Bool) (st : BT) (n c : Nat) (h : st.array[n / 8]? = some c) :
    PetscBTLookupSet sc st (n : Int) =
      some (intAnd (charToInt sc c) (charToInt sc (intToChar (1 * 2 ^ (n % 8)))),
        { array := st.array.set (n / 8)
            (intToChar (intOr (charToInt sc c) (charToInt sc (intToChar (1 * 2 ^ (n % 8)))))),
          _BT_mask := intToChar (1 * 2 ^ (n % 8)), _BT_c := c, _BT_idx := ((n / 8 : Nat) : Int) }) := by
  simp only [PetscBTLookupSet, prologue_natCast st n c h, Int.toNat_ofNat]

/-- Counterexample to C11 as written: on the one-byte array holding 2 (bit 1 set), with
unsigned `char`, `PetscBTLookupSet(array, 1)` returns 2, the value of `_BT_c & _BT_mask`,
while `PetscBTLookup(array, 1)` on the same array returns 1. -/
theorem PetscBTLookupSet_value_counterexample :
    PetscBTLookupSet false ⟨[2], 0, 0, 0⟩ 1 = some (2, ⟨[2], 2, 2, 0⟩) ∧
    PetscBTLookup false ⟨[2], 0, 0, 0⟩ 1 = some (1, ⟨[2], 2, 2, 0⟩) := by
  decide

/-- C11, amended. For every bit array created for `m` values (`PetscBTLength m` bytes,
whatever they hold), both signednesses of plain `char` and every index `0 <= i < m`:
`PetscBTLookup(array, i)` and `PetscBTLookupSet(array, i)` are both defined on it, the value
`v` that `PetscBTLookup` returns is 1 exactly when the value `r` that `PetscBTLookupSet`
returns is not 0 and is 0 otherwise (`r` is the masked byte `_BT_c & _BT_mask`, not 0 or 1),
and after `PetscBTLookupSet` a `PetscBTLookup(array, i)` is defined and returns 1. -/
theorem PetscBTLookupSet_then_Lookup (signedChar : Bool) (st : BT) (m i : Int)
    (hlen : (st.array.length : Int) = PetscBTLength m) (h0 : 0 ≤ i) (hm : i < m) :
    ∃ v s0 r s1 s2, PetscBTLookup signedChar st i = some (v, s0) ∧
      PetscBTLookupSet signedChar st i = some (r, s1) ∧
      v = (if r ≠ 0 then 1 else 0) ∧
      PetscBTLookup signedChar s1 i = some (1, s2) := by
  obtain ⟨n, rfl⟩ := Int.eq_ofNat_of_zero_le h0
  have hr := index_in_range st m n hlen hm
  have hget : st.array[n / 8]? = some (st.array[n / 8]) := List.getElem?_eq_getElem hr
  have hk : n % 8 < 8 := Nat.mod_lt _ (by norm_num)
  have hb : st.array[n / 8] % 256 < 256 := Nat.mod_lt _ (by norm_num)
  have key := byte_set_lookup signedChar ⟨st.array[n / 8] % 256, hb⟩ ⟨n % 8, hk⟩
  simp only [charToInt_mod] at key
  have h2 := PetscBTLookup_natCast signedChar _ (intToChar (1 * 2 ^ (n % 8))) st.array[n / 8]
    ((n / 8 : Nat) : Int) n _
    (List.getElem?_set_self (a := intToChar (intOr (charToInt signedChar st.array[n / 8])
      (charToInt signedChar (intToChar (1 * 2 ^ (n % 8)))))) hr)
  rw [if_pos key] at h2
  have h1 := PetscBTLookup_natCast signedChar st.array st._BT_mask st._BT_c st._BT_idx n _ hget
  exact ⟨_, _, _, _, _, h1, PetscBTLookupSet_natCast signedChar st n _ hget, rfl, h2⟩

/-- Witness of C11 at bit 7 of a byte whose bit 7 is set, with signed `char`. -/
theorem PetscBTLookupSet_then_Lookup_witness :
    ∃ v s0 r s1 s2, PetscBTLookup true ⟨[128, 0], 0, 0, 0⟩ 7 = some (v, s0) ∧
      PetscBTLookupSet true ⟨[128, 0], 0, 0, 0⟩ 7 = some (r, s1) ∧
      v = (if r ≠ 0 then 1 else 0) ∧
      PetscBTLookup true s1 7 = some (1, s2) :=
  PetscBTLookupSet_then_Lookup true ⟨[128, 0], 0, 0, 0⟩ 12 7 (by decide) (by decide) (by decide)

/-- Every bit position of a zero byte reads as clear, for both signednesses. -/
theorem byte_zero_lookup (sc : Bool) (k : Fin 8) :
    intAnd (charToInt sc 0) (charToInt sc (intToChar (1 * 2 ^ k.val))) = 0 := by
  revert sc k; decide!

/-- The byte count for `M` values. -/
theorem PetscBTLength_natCast (M : Nat) : PetscBTLength (M : Int) = ((M / 8 + 1 : Nat) : Int) := by
  simp only [PetscBTLength, tdiv_natCast, mul_one]; rfl

/-- After `PetscBTMemzero(m, array)` on an array of at least `PetscBTLength m` bytes every
index below `m` is looked up as 0. -/
theorem PetscBTMemzero_Lookup (sc : Bool) (M : Nat) (st : BT)
    (hlen : M / 8 + 1 ≤ st.array.length) :
    ∃ s, PetscBTMemzero (M : Int) st = some s ∧ s.array.length = st.array.length ∧
      ∀ k : Nat, k < M → ∃ s2, PetscBTLookup sc s (k : Int) = some (0, s2) := by
  have hn : (Int.tdiv (M : Int) BITSPERBYTE + 1).toNat = M / 8 + 1 := by
    rw [tdiv_natCast]; exact Int.toNat_ofNat (M / 8 + 1)
  refine ⟨{ st with array := List.replicate (M / 8 + 1) 0 ++ st.array.drop (M / 8 + 1) }, ?_, ?_, ?_⟩
  · simp only [PetscBTMemzero, hn, if_pos hlen]
  · simp only [List.length_append, List.length_replicate, List.length_drop]; omega
  · intro k hk
    have h1 : k / 8 < M / 8 + 1 := Nat.lt_succ_of_le (Nat.div_le_div_right hk.le)
    have hget : (List.replicate (M / 8 + 1) 0 ++ st.array.drop (M / 8 + 1))[k / 8]? = some 0 := by
      rw [List.getElem?_append_left (by simpa using h1)]
      simp [List.getElem?_replicate, h1]
    have h2 := PetscBTLookup_natCast sc _ st._BT_mask st._BT_c st._BT_idx k 0 hget
    rw [if_neg (not_not.mpr (byte_zero_lookup sc ⟨k % 8, Nat.mod_lt _ (by norm_num)⟩))] at h2
    exact ⟨_, h2⟩

/-- Macro `PetscBTCreate` unfolded for `M >= 0` values. -/
theorem PetscBTCreate_eq (M : Nat) (junk : List Nat) (st : BT) :
    PetscBTCreate (M : Int) junk st =
      PetscBTMemzero (M : Int) { st with array := (junk ++ List.replicate (M / 8 + 1) 0).take (M / 8 + 1) } := by
  have hn : (PetscBTLength (M : Int)).toNat = M / 8 + 1 := by
    rw [PetscBTLength_natCast]; exact Int.toNat_ofNat (M / 8 + 1)
  simp only [PetscBTCreate, hn]

/-- The block handed out has the size asked for. -/
theorem length_malloc (n : Nat) (junk : List Nat) :
    ((junk ++ List.replicate n 0).take n).length = n := by
  simp

/-- C12. A fresh or zeroed bit array holds only false values: for every `m >= 0`, whatever
`PetscMalloc` hands out (`junk`), `PetscBTCreate(m, bt)` is defined and afterwards
`PetscBTLookup(bt, i)` is defined and returns 0 for every `0 <= i < m`; likewise
`PetscBTMemzero(m, bt)` on an array of at least `PetscBTLength m` bytes, whatever it held. -/
theorem PetscBTCreate_Memzero_all_false (signedChar : Bool) (m : Int) (junk : List Nat)
    (st0 st : BT) (hm0 : 0 ≤ m) (hlen : PetscBTLength m ≤ (st.array.length : Int)) :
    (∃ s, PetscBTCreate m junk st0 = some s ∧
      ∀ i : Int, 0 ≤ i → i < m → ∃ s2, PetscBTLookup signedChar s i = some (0, s2)) ∧
    (∃ s, PetscBTMemzero m st = some s ∧
      ∀ i : Int, 0 ≤ i → i < m → ∃ s2, PetscBTLookup signedChar s i = some (0, s2)) := by
  obtain ⟨M, rfl⟩ := Int.eq_ofNat_of_zero_le hm0
  rw [PetscBTLength_natCast] at hlen
  have hlen2 : M / 8 + 1 ≤ st.array.length := by exact_mod_cast hlen
  constructor
  · rw [PetscBTCreate_eq]
    obtain ⟨s, hs, _, hall⟩ := PetscBTMemzero_Lookup signedChar M
      { st0 with array := (junk ++ List.replicate (M / 8 + 1) 0).take (M / 8 + 1) }
      (le_of_eq (length_malloc _ _).symm)
    refine ⟨s, hs, ?_⟩
    intro i h0 hi
    obtain ⟨k, rfl⟩ := Int.eq_ofNat_of_zero_le h0
    exact hall k (by exact_mod_cast hi)
  · obtain ⟨s, hs, _, hall⟩ := PetscBTMemzero_Lookup signedChar M st hlen2
    refine ⟨s, hs, ?_⟩
    intro i h0 hi
    obtain ⟨k, rfl⟩ := Int.eq_ofNat_of_zero_le h0
    exact hall k (by exact_mod_cast hi)

/-- Witness of C12 for `m = 12`: two bytes, handed out or held with bits set. -/
theorem PetscBTCreate_Memzero_all_false_witness :
    (∃ s, PetscBTCreate 12 [255, 90, 7] ⟨[], 3, 4, 5⟩ = some s ∧
      ∀ i : Int, 0 ≤ i → i < 12 → ∃ s2, PetscBTLookup true s i = some (0, s2)) ∧
    (∃ s, PetscBTMemzero 12 ⟨[255, 129], 0, 0, 0⟩ = some s ∧
      ∀ i : Int, 0 ≤ i → i < 12 → ∃ s2, PetscBTLookup true s i = some (0, s2)) :=
  PetscBTCreate_Memzero_all_false true 12 [255, 90, 7] ⟨[], 3, 4, 5⟩ ⟨[255, 129], 0, 0, 0⟩
    (by decide) (by decide)

/-- C13. `PetscBTCreate(m)` has room for `m` values: for every index `0 <= i < m` (so
`m > 0`), `PetscBTCreate` is defined and yields an array of exactly `PetscBTLength m` bytes,
which is `m / 8 + 1`; the byte offset `i / 8` is at least 0 and strictly less than that
count; and on every array of that many bytes `PetscBTMemzero(m, ...)` is defined and keeps
the length, and `PetscBTSet`, `PetscBTClear`, `PetscBTLookup` and `PetscBTLookupSet` at `i`
are all defined (no access outside the array) and leave `_BT_idx` equal to `i / 8`. -/
theorem PetscBTCreate_enough_room (signedChar : Bool) (m i : Int) (junk : List Nat) (st : BT)
    (h0 : 0 ≤ i) (hm : i < m) :
    ∃ s, PetscBTCreate m junk st = some s ∧
      (s.array.length : Int) = PetscBTLength m ∧
      PetscBTLength m = Int.tdiv m 8 + 1 ∧
      0 ≤ Int.tdiv i BITSPERBYTE ∧ Int.tdiv i BITSPERBYTE < PetscBTLength m ∧
      ∀ t : BT, t.array.length = s.array.length →
        (∃ z, PetscBTMemzero m t = some z ∧ z.array.length = t.array.length) ∧
        (∃ r u, PetscBTSet signedChar t i = some (r, u) ∧ u._BT_idx = Int.tdiv i BITSPERBYTE) ∧
        (∃ r u, PetscBTClear signedChar t i = some (r, u) ∧ u._BT_idx = Int.tdiv i BITSPERBYTE) ∧
        (∃ r u, PetscBTLookup signedChar t i = some (r, u) ∧ u._BT_idx = Int.tdiv i BITSPERBYTE) ∧
        (∃ r u, PetscBTLookupSet signedChar t i = some (r, u) ∧
          u._BT_idx = Int.tdiv i BITSPERBYTE) := by
  obtain ⟨k, rfl⟩ := Int.eq_ofNat_of_zero_le h0
  obtain ⟨M, rfl⟩ := Int.eq_ofNat_of_zero_le (le_trans h0 hm.le)
  have hkM : k < M := by exact_mod_cast hm
  have hk8 : k / 8 < M / 8 + 1 := Nat.lt_succ_of_le (Nat.div_le_div_right hkM.le)
  obtain ⟨s, hs, hsl, -⟩ := PetscBTMemzero_Lookup signedChar M
    { st with array := (junk ++ List.replicate (M / 8 + 1) 0).take (M / 8 + 1) }
    (le_of_eq (length_malloc _ _).symm)
  have hsl2 : s.array.length = M / 8 + 1 := by rw [hsl]; exact length_malloc _ _
  refine ⟨s, by rw [PetscBTCreate_eq]; exact hs, ?_, ?_, ?_, ?_, ?_⟩
  · rw [PetscBTLength_natCast, hsl2]
  · simp [PetscBTLength, BITSPERBYTE]
  · rw [tdiv_natCast]; exact Int.ofNat_nonneg _
  · rw [tdiv_natCast, PetscBTLength_natCast]; exact_mod_cast hk8
  · intro t ht
    have hr : k / 8 < t.array.length := by rw [ht, hsl2]; exact hk8
    have hget : t.array[k / 8]? = some (t.array[k / 8]) := List.getElem?_eq_getElem hr
    refine ⟨?_, ?_, ?_, ?_, ?_⟩
    · obtain ⟨z, hz, hzl, -⟩ := PetscBTMemzero_Lookup signedChar M t (by rw [ht, hsl2])
      exact ⟨z, hz, hzl⟩
    · exact ⟨_, _, PetscBTSet_natCast signedChar t k _ hget, (tdiv_natCast k).symm⟩
    · exact ⟨_, _, PetscBTClear_natCast signedChar t k _ hget, (tdiv_natCast k).symm⟩
    · exact ⟨_, _, PetscBTLookup_natCast signedChar t.array t._BT_mask t._BT_c t._BT_idx k _ hget,
        (tdiv_natCast k).symm⟩
    · exact ⟨_, _, PetscBTLookupSet_natCast signedChar t k _ hget, (tdiv_natCast k).symm⟩

/-- Witness of C13 for `m = 12` and the last index 11, with signed `char`. -/
theorem PetscBTCreate_enough_room_witness :
    ∃ s, PetscBTCreate 12 [255] ⟨[], 0, 0, 0⟩ = some s ∧
      (s.array.length : Int) = PetscBTLength 12 ∧
      PetscBTLength 12 = Int.tdiv 12 8 + 1 ∧
      0 ≤ Int.tdiv 11 BITSPERBYTE ∧ Int.tdiv 11 BITSPERBYTE < PetscBTLength 12 ∧
      ∀ t : BT, t.array.length = s.array.length →
        (∃ z, PetscBTMemzero 12 t = some z ∧ z.array.length = t.array.length) ∧
        (∃ r u, PetscBTSet true t 11 = some (r, u) ∧ u._BT_idx = Int.tdiv 11 BITSPERBYTE) ∧
        (∃ r u, PetscBTClear true t 11 = some (r, u) ∧ u._BT_idx = Int.tdiv 11 BITSPERBYTE) ∧
        (∃ r u, PetscBTLookup true t 11 = some (r, u) ∧ u._BT_idx = Int.tdiv 11 BITSPERBYTE) ∧
        (∃ r u, PetscBTLookupSet true t 11 = some (r, u) ∧
          u._BT_idx = Int.tdiv 11 BITSPERBYTE) :=
  PetscBTCreate_enough_room true 12 11 [255] ⟨[], 0, 0, 0⟩ (by decide) (by decide)

end PetscBT

namespace DAView

/-- The guarded assignment never fails: a null pointer is skipped. -/
theorem storeIfNonNull_eq (ptr : Option Int) (v : Int) :
    storeIfNonNull ptr v = some (ptr.map fun _ => v) := by
  cases ptr <;> simp [storeIfNonNull, store]

/-- C14. `DAGetInfo` reports the description of the array and nothing else: for every `DA`
that passes the header check and every choice of which of the ten output pointers are
`PETSC_NULL`, the call is defined (no null pointer is written through), returns 0, leaves
every field of the `DA` as it was, leaves each `PETSC_NULL` output null, and each non-null
output among `dim, M, N, P, m, n, p, w, s, wrap` holds exactly the field of the same name,
whatever the variable held before. -/
theorem DAGetInfo_reports (PetscValidHeaderSpecific : DA → Int) (da : DA) (out : Outputs)
    (hvalid : PetscValidHeaderSpecific da = 0) :
    DAGetInfo PetscValidHeaderSpecific da out =
      some (0, da,
        { dim := out.dim.map fun _ => da.dim, M := out.M.map fun _ => da.M,
          N := out.N.map fun _ => da.N, P := out.P.map fun _ => da.P,
          m := out.m.map fun _ => da.m, n := out.n.map fun _ => da.n,
          p := out.p.map fun _ => da.p, w := out.w.map fun _ => da.w,
          s := out.s.map fun _ => da.s, wrap := out.wrap.map fun _ => da.wrap }) := by
  simp only [DAGetInfo, hvalid, ne_eq, not_true_eq_false, if_false, storeIfNonNull_eq,
    Option.some_bind]

/-- Witness of C14 with five outputs null and five pointing at variables. -/
theorem DAGetInfo_reports_witness :
    DAGetInfo (fun _ => 0) ⟨2, 10, 20, 1, 2, 4, 1, 3, 1, 0⟩
        ⟨some 7, none, some (-1), none, some 0, none, none, some 5, none, some 9⟩ =
      some (0, ⟨2, 10, 20, 1, 2, 4, 1, 3, 1, 0⟩,
        ⟨some 2, none, some 20, none, some 2, none, none, some 3, none, some 0⟩) :=
  DAGetInfo_reports (fun _ => 0) ⟨2, 10, 20, 1, 2, 4, 1, 3, 1, 0⟩
    ⟨some 7, none, some (-1), none, some 0, none, none, some 5, none, some 9⟩ rfl

end DAView

namespace Ex5

open Plex

/-- A result that is present and of which a property was checked. -/
theorem exists_some_of {α : Type} (x : Option α) (P : α → Prop)
    (h1 : x.isSome = true) (h2 : ∀ a ∈ x, P a) : ∃ a, x = some a ∧ P a := by
  cases x with
  | none => simp at h1
  | some a => exact ⟨a, rfl, h2 a rfl⟩

/-- Only `dim` 2 and 3 and the test numbers 0, 1, 2 have a fixture. -/
theorem CreateMesh_arrays_supported (dim : Nat) (cellSimplex : Bool) (testNum : Nat)
    (a : DAGArrays) (h : CreateMesh_arrays dim cellSimplex testNum = some a) :
    dim ∈ [2, 3] ∧ testNum ∈ [0, 1, 2] := by
  have hd : dim ∈ [2, 3] := by
    rcases dim with _ | _ | _ | _ | d
    · simp [CreateMesh_arrays] at h
    · simp [CreateMesh_arrays] at h
    · simp
    · simp
    · simp [CreateMesh_arrays] at h
  refine ⟨hd, ?_⟩
  rcases testNum with _ | _ | _ | t
  · simp
  · simp
  · simp
  · exfalso
    simp only [List.mem_cons, List.mem_singleton, List.not_mem_nil, or_false] at hd
    rcases hd with rfl | rfl <;> cases cellSimplex <;>
      simp [CreateMesh_arrays, CreateSimplex_2D_arrays, CreateSimplex_3D_arrays,
        CreateQuad_2D_arrays, CreateHex_3D_arrays] at h

/-- A property checked on the fixtures of every supported `dim`, cell shape and test number
holds of every fixture. -/
theorem forall_fixtures (P : Nat → Bool → Nat → DAGArrays → Prop)
    (hP : ∀ d ∈ [2, 3], ∀ s ∈ [true, false], ∀ t ∈ [0, 1, 2],
      ∀ a ∈ CreateMesh_arrays d s t, P d s t a)
    (dim : Nat) (cellSimplex : Bool) (testNum : Nat) (a : DAGArrays)
    (h : CreateMesh_arrays dim cellSimplex testNum = some a) : P dim cellSimplex testNum a :=
  hP dim (CreateMesh_arrays_supported _ _ _ _ h).1 cellSimplex (by cases cellSimplex <;> simp)
    testNum (CreateMesh_arrays_supported _ _ _ _ h).2 a h

/-- The shape conditions, checked on the arrays of every fixture. -/
theorem fixture_arrays_checked (dim : Nat) (cellSimplex : Bool) (testNum : Nat) (a : DAGArrays)
    (h : CreateMesh_arrays dim cellSimplex testNum = some a) :
    a.numPoints.length = a.depth + 1 ∧
    a.coneSize.length = a.numPoints.sum ∧
    a.coneSize.sum = a.cones.length ∧
    a.coneSize.sum = a.coneOrientations.length ∧
    (∀ q ∈ a.cones, q < a.numPoints.sum) ∧
    a.vertexCoords.length = dim * a.numPoints.getD 0 0 :=
  forall_fixtures
    (fun d _ _ a => a.numPoints.length = a.depth + 1 ∧ a.coneSize.length = a.numPoints.sum ∧
      a.coneSize.sum = a.cones.length ∧ a.coneSize.sum = a.coneOrientations.length ∧
      (∀ q ∈ a.cones, q < a.numPoints.sum) ∧ a.vertexCoords.length = d * a.numPoints.getD 0 0)
    (by decide!) dim cellSimplex testNum a h

/-- C15. No fixture can trigger `ShapeMismatch`: for every fixture `CreateMesh` selects
(every test number of `CreateSimplex_2D`, `CreateSimplex_3D`, `CreateQuad_2D`, `CreateHex_3D`)
the arrays passed to `DMPlexCreateFromDAG` satisfy: `numPoints` has `depth + 1` entries,
`coneSize` has as many entries as the sum of `numPoints`, the sum of the `coneSize` entries
equals the number of entries of `cones` and of `coneOrientations`, every cone entry is a
point id below the sum of `numPoints`, and `vertexCoords` has exactly `dim` times
`numPoints[0]` entries, `dim` being the dimension given to `DMSetDimension`. -/
theorem fixture_arrays_shapes (dim : Nat) (cellSimplex : Bool) (testNum : Nat) (a : DAGArrays)
    (h : CreateMesh_arrays dim cellSimplex testNum = some a) :
    a.numPoints.length = a.depth + 1 ∧
    a.coneSize.length = a.numPoints.sum ∧
    a.coneSize.sum = a.cones.length ∧
    a.coneSize.sum = a.coneOrientations.length ∧
    (∀ q ∈ a.cones, q < a.numPoints.sum) ∧
    a.vertexCoords.length = dim * a.numPoints.getD 0 0 :=
  fixture_arrays_checked dim cellSimplex testNum a h

/-- Witness of C15 at `CreateHex_3D` test 1, whose `coneOrientations[56]` has 55
initialisers. -/
theorem fixture_arrays_shapes_witness :
    ∃ a, CreateHex_3D_arrays 1 = some a ∧
      a.numPoints.length = a.depth + 1 ∧
      a.coneSize.length = a.numPoints.sum ∧
      a.coneSize.sum = a.cones.length ∧
      a.coneSize.sum = a.coneOrientations.length ∧
      (∀ q ∈ a.cones, q < a.numPoints.sum) ∧
      a.vertexCoords.length = 3 * a.numPoints.getD 0 0 :=
  ⟨_, rfl, fixture_arrays_shapes 3 false 1 _ rfl⟩

/-- The arrays pass the shape check of the modelled `createFromDAG`. -/
theorem fixture_arrays_createFromDAG (dim : Nat) (cellSimplex : Bool) (testNum : Nat)
    (a : DAGArrays) (h : CreateMesh_arrays dim cellSimplex testNum = some a) :
    createFromDAG a.depth a.numPoints a.coneSize a.cones a.coneOrientations =
      Except.ok a.graph.symmetrize := by
  obtain ⟨h1, h2, h3, h4, -, -⟩ := fixture_arrays_checked dim cellSimplex testNum a h
  simp only [createFromDAG, h1, h2, h3.symm, h4.symm, and_self, if_true, DAGArrays.graph]

/-- The meshes built by `CreateSimplex_2D`, `CreateSimplex_3D`, `CreateQuad_2D` and
`CreateHex_3D` are those of the arrays: symmetrized, and interpolated except for the
tetrahedra, which are given with their faces and edges. -/
theorem CreateMesh_fixture_graph :
    ∀ d ∈ [2, 3], ∀ s ∈ [true, false], ∀ t ∈ [0, 1, 2],
      (CreateMesh_fixture d s t).toOption.map DM.graph =
        (CreateMesh_arrays d s t).map fun a =>
          if d = 3 ∧ s = true then a.graph.symmetrize else interpolate d a.graph.symmetrize := by
  intro d hd s hs t ht
  simp only [List.mem_cons, List.mem_singleton, List.not_mem_nil, or_false] at hd hs ht
  rcases hd with rfl | rfl <;> rcases hs with rfl | rfl <;> rcases ht with rfl | rfl | rfl <;> rfl

/-- A list holds exactly the common members of two lists. -/
theorem mem_iff_common (l l0 l1 : List Nat) (h1 : ∀ v ∈ l, v ∈ l0 ∧ v ∈ l1)
    (h2 : ∀ v ∈ l0, v ∈ l1 → v ∈ l) : ∀ v, v ∈ l ↔ v ∈ l0 ∧ v ∈ l1 :=
  fun v => ⟨h1 v, fun h => h2 v h.1 h.2⟩

/-- The fault label of a two-cell fixture and the vertices its cells 0 and 1 share, in the
arrays and in the mesh built from them. -/
theorem fault_label_common (fixture : Except PetscError DM) (arrays : Option DAGArrays)
    (l : List Nat)
    (h1 : fixture.toOption.isSome = true)
    (h2 : ∀ dm ∈ fixture.toOption, (DMGetLabel dm "fault").points = l ∧
      (∀ v ∈ l, v ∈ dm.graph.vertices 0 ∧ v ∈ dm.graph.vertices 1) ∧
      (∀ v ∈ dm.graph.vertices 0, v ∈ dm.graph.vertices 1 → v ∈ l))
    (h3 : arrays.isSome = true)
    (h4 : ∀ a ∈ arrays, (∀ v ∈ l, v ∈ a.graph.vertices 0 ∧ v ∈ a.graph.vertices 1) ∧
      (∀ v ∈ a.graph.vertices 0, v ∈ a.graph.vertices 1 → v ∈ l)) :
    ∃ dm a, fixture = Except.ok dm ∧ arrays = some a ∧
      (DMGetLabel dm "fault").points = l ∧
      (∀ v, v ∈ l ↔ v ∈ a.graph.vertices 0 ∧ v ∈ a.graph.vertices 1) ∧
      (∀ v, v ∈ l ↔ v ∈ dm.graph.vertices 0 ∧ v ∈ dm.graph.vertices 1) := by
  obtain ⟨dm, hdm, hl, hd1, hd2⟩ := exists_ok_of fixture _ h1 h2
  obtain ⟨a, ha, ha1, ha2⟩ := exists_some_of arrays _ h3 h4
  exact ⟨dm, a, hdm, ha, hl, mem_iff_common _ _ _ ha1 ha2, mem_iff_common _ _ _ hd1 hd2⟩

/-- C16. In each fixture of two cells sharing a face (test 0 of `CreateSimplex_2D`,
`CreateSimplex_3D`, `CreateQuad_2D` and `CreateHex_3D`) the points given the fault label are
exactly the vertices lying in the closure of both cell 0 and cell 1, in the arrays passed to
`DMPlexCreateFromDAG` and in the mesh the function returns: 3, 4 for the triangles, 3, 4, 5
for the tetrahedra (through the face and edge cones), 3, 4 for the quadrilaterals and
3, 4, 7, 8 for the hexahedra. -/
theorem fault_label_is_shared_vertices :
    (∃ dm a, CreateSimplex_2D 0 = Except.ok dm ∧ CreateSimplex_2D_arrays 0 = some a ∧
      (DMGetLabel dm "fault").points = [3, 4] ∧
      (∀ v, v ∈ [3, 4] ↔ v ∈ a.graph.vertices 0 ∧ v ∈ a.graph.vertices 1) ∧
      (∀ v, v ∈ [3, 4] ↔ v ∈ dm.graph.vertices 0 ∧ v ∈ dm.graph.vertices 1)) ∧
    (∃ dm a, CreateSimplex_3D 0 = Except.ok dm ∧ CreateSimplex_3D_arrays 0 = some a ∧
      (DMGetLabel dm "fault").points = [3, 4, 5] ∧
      (∀ v, v ∈ [3, 4, 5] ↔ v ∈ a.graph.vertices 0 ∧ v ∈ a.graph.vertices 1) ∧
      (∀ v, v ∈ [3, 4, 5] ↔ v ∈ dm.graph.vertices 0 ∧ v ∈ dm.graph.vertices 1)) ∧
    (∃ dm a, CreateQuad_2D 0 = Except.ok dm ∧ CreateQuad_2D_arrays 0 = some a ∧
      (DMGetLabel dm "fault").points = [3, 4] ∧
      (∀ v, v ∈ [3, 4] ↔ v ∈ a.graph.vertices 0 ∧ v ∈ a.graph.vertices 1) ∧
      (∀ v, v ∈ [3, 4] ↔ v ∈ dm.graph.vertices 0 ∧ v ∈ dm.graph.vertices 1)) ∧
    (∃ dm a, CreateHex_3D 0 = Except.ok dm ∧ CreateHex_3D_arrays 0 = some a ∧
      (DMGetLabel dm "fault").points = [3, 4, 7, 8] ∧
      (∀ v, v ∈ [3, 4, 7, 8] ↔ v ∈ a.graph.vertices 0 ∧ v ∈ a.graph.vertices 1) ∧
      (∀ v, v ∈ [3, 4, 7, 8] ↔ v ∈ dm.graph.vertices 0 ∧ v ∈ dm.graph.vertices 1)) :=
  ⟨fault_label_common _ _ _ (by decide!) (by decide!) (by decide!) (by decide!),
   fault_label_common _ _ _ (by decide!) (by decide!) (by decide!) (by decide!),
   fault_label_common _ _ _ (by decide!) (by decide!) (by decide!) (by decide!),
   fault_label_common _ _ _ (by decide!) (by decide!) (by decide!) (by decide!)⟩

/-- C17. The fixture "Buried fault edge" (`CreateHex_3D` test 2) has the cells 0, 1, 2, 3;
its fault label holds the vertices 7, 8, 16, 17, which are exactly the vertices the cones of
cells 0 and 2 have in common; cells 0 and 2 are the only cells whose cone holds all four;
vertices 8 and 17 are in the cone of every cell; vertices 7 and 16 are in the cones of cells 0
and 2 only. -/
theorem buried_fault_edge_fixture :
    ∃ dm a, CreateHex_3D 2 = Except.ok dm ∧ CreateHex_3D_arrays 2 = some a ∧
      (DMGetLabel dm "fault").points = [7, 8, 16, 17] ∧
      a.graph.getHeightStratum 0 = [0, 1, 2, 3] ∧
      (∀ v, v ∈ [7, 8, 16, 17] ↔ v ∈ a.graph.getCone 0 ∧ v ∈ a.graph.getCone 2) ∧
      (∀ c ∈ a.graph.getHeightStratum 0,
        (∀ v ∈ [7, 8, 16, 17], v ∈ a.graph.getCone c) ↔ c = 0 ∨ c = 2) ∧
      (∀ c ∈ a.graph.getHeightStratum 0, 8 ∈ a.graph.getCone c ∧ 17 ∈ a.graph.getCone c) ∧
      (∀ c ∈ a.graph.getHeightStratum 0, 7 ∈ a.graph.getCone c ↔ c = 0 ∨ c = 2) ∧
      (∀ c ∈ a.graph.getHeightStratum 0, 16 ∈ a.graph.getCone c ↔ c = 0 ∨ c = 2) := by
  obtain ⟨dm, hdm, hl⟩ := exists_ok_of (CreateHex_3D 2)
    (fun dm => (DMGetLabel dm "fault").points = [7, 8, 16, 17]) (by decide!) (by decide!)
  obtain ⟨a, ha, hc, h1, h2, h3, h4, h5, h6⟩ := exists_some_of (CreateHex_3D_arrays 2)
    (fun a => a.graph.getHeightStratum 0 = [0, 1, 2, 3] ∧
      (∀ v ∈ [7, 8, 16, 17], v ∈ a.graph.getCone 0 ∧ v ∈ a.graph.getCone 2) ∧
      (∀ v ∈ a.graph.getCone 0, v ∈ a.graph.getCone 2 → v ∈ [7, 8, 16, 17]) ∧
      (∀ c ∈ a.graph.getHeightStratum 0,
        (∀ v ∈ [7, 8, 16, 17], v ∈ a.graph.getCone c) ↔ c = 0 ∨ c = 2) ∧
      (∀ c ∈ a.graph.getHeightStratum 0, 8 ∈ a.graph.getCone c ∧ 17 ∈ a.graph.getCone c) ∧
      (∀ c ∈ a.graph.getHeightStratum 0, 7 ∈ a.graph.getCone c ↔ c = 0 ∨ c = 2) ∧
      (∀ c ∈ a.graph.getHeightStratum 0, 16 ∈ a.graph.getCone c ↔ c = 0 ∨ c = 2))
    (by decide!) (by decide!)
  exact ⟨dm, a, hdm, ha, hl, hc, mem_iff_common _ _ _ h1 h2, h3, h4, h5, h6⟩

/-- C19, evaluated. In `CreateSimplex_3D` case 0 the array is `numPoints = {5, 7, 9, 2}`,
but the points of depth 1 (the edges, cone size 2) are the nine points 14..22 and the points of
depth 2 (the faces, cone size 3) the seven points 7..13: `numPoints[1]` and `numPoints[2]` are
exchanged.  The ranges themselves are contiguous and disjoint (cells 0..1, vertices 2..6).  In
case 1, `numPoints = {6, 13, 12, 4}` does count the thirteen edges 22..34 and the twelve faces
10..21, and in every fixture of depth 1 the cells are the points below `numPoints[1]` and the
vertices the `numPoints[0]` points after them. -/
theorem CreateSimplex_3D_case0_numPoints_swapped :
    (∃ a, CreateSimplex_3D_arrays 0 = some a ∧ a.numPoints = [5, 7, 9, 2] ∧
      a.graph.getDepthStratum 0 = List.range' 2 5 ∧
      a.graph.getDepthStratum 1 = List.range' 14 9 ∧
      a.graph.getDepthStratum 2 = List.range' 7 7 ∧
      a.graph.getDepthStratum 3 = List.range' 0 2 ∧
      (∀ e ∈ a.graph.getDepthStratum 1, (a.graph.getCone e).length = 2) ∧
      (∀ f ∈ a.graph.getDepthStratum 2, (a.graph.getCone f).length = 3)) ∧
    (∃ a, CreateSimplex_3D_arrays 1 = some a ∧ a.numPoints = [6, 13, 12, 4] ∧
      a.graph.getDepthStratum 0 = List.range' 4 6 ∧
      a.graph.getDepthStratum 1 = List.range' 22 13 ∧
      a.graph.getDepthStratum 2 = List.range' 10 12 ∧
      a.graph.getDepthStratum 3 = List.range' 0 4 ∧
      (∀ e ∈ a.graph.getDepthStratum 1, (a.graph.getCone e).length = 2) ∧
      (∀ f ∈ a.graph.getDepthStratum 2, (a.graph.getCone f).length = 3)) ∧
    (∀ d ∈ [2, 3], ∀ s ∈ [true, false], ∀ t ∈ [0, 1, 2], ∀ a ∈ CreateMesh_arrays d s t,
      a.depth = 1 →
        a.graph.getDepthStratum 0 = List.range' (a.numPoints.getD 1 0) (a.numPoints.getD 0 0) ∧
        a.graph.getDepthStratum 1 = List.range' 0 (a.numPoints.getD 1 0)) :=
  ⟨exists_some_of _ _ (by decide!) (by decide!), exists_some_of _ _ (by decide!) (by decide!),
    by decide!⟩

/-- What the check `isTriangleCycle` establishes. -/
theorem isTriangleCycle_spec (es : List (Option (Nat × Nat))) (h : isTriangleCycle es = true) :
    ∃ u v w, u ≠ v ∧ v ≠ w ∧ w ≠ u ∧ es = [some (u, v), some (v, w), some (w, u)] := by
  unfold isTriangleCycle at h
  split at h
  · rename_i u v v1 w w1 u1
    simp only [Bool.and_eq_true, beq_iff_eq, bne_iff_ne, ne_eq] at h
    obtain ⟨⟨⟨⟨⟨h1, h2⟩, h3⟩, h4⟩, h5⟩, h6⟩ := h
    subst h1 h2 h3
    exact ⟨_, _, _, h4, h5, h6, rfl⟩
  · exact absurd h (by simp)

/-- C20. The recorded cone orientations of the tetrahedral fixtures are consistent: for
every face (point of depth 2) of `CreateSimplex_3D` tests 0 and 1, its three cone edges taken
in cone order, each as stored when its orientation is 0 and reversed when it is -1, run
`u -> v`, `v -> w`, `w -> u` through three distinct vertices `u`, `v`, `w`. -/
theorem tetrahedra_face_cycles (testNum : Nat) (a : DAGArrays)
    (h : CreateSimplex_3D_arrays testNum = some a) (f : Nat)
    (hf : f ∈ a.graph.getDepthStratum 2) :
    ∃ u v w, u ≠ v ∧ v ≠ w ∧ w ≠ u ∧ faceEdges a f = [some (u, v), some (v, w), some (w, u)] := by
  have key : ∀ t ∈ [0, 1], ∀ a ∈ CreateSimplex_3D_arrays t, ∀ f ∈ a.graph.getDepthStratum 2,
      isTriangleCycle (faceEdges a f) = true := by decide!
  have ht : testNum ∈ [0, 1] := by
    rcases testNum with _ | _ | t
    · simp
    · simp
    · simp [CreateSimplex_3D_arrays] at h
  exact isTriangleCycle_spec _ (key testNum ht a h f hf)

/-- Witness of C20 at face 13 of test 1, whose three edges are all reversed. -/
theorem tetrahedra_face_cycles_witness :
    ∃ a, CreateSimplex_3D_arrays 1 = some a ∧ 13 ∈ a.graph.getDepthStratum 2 ∧
      ∃ u v w, u ≠ v ∧ v ≠ w ∧ w ≠ u ∧
        faceEdges a 13 = [some (u, v), some (v, w), some (w, u)] :=
  ⟨_, rfl, by decide!, tetrahedra_face_cycles 1 _ rfl 13 (by decide!)⟩

/-- A returned value is the one result. -/
theorem mem_toOption_of_eq_ok {ε α : Type} (x : Except ε α) (a : α) (h : x = Except.ok a) :
    a ∈ x.toOption := by
  subst h; rfl

/-- A fixed partition exists only for `dim` 2 and 3 and test numbers up to 2. -/
theorem CreateMesh_partition_supported (dim : Nat) (cellSimplex : Bool) (testNum : Nat)
    (r : List Nat × List Nat)
    (h : CreateMesh_partition true dim cellSimplex 2 testNum = Except.ok (some r)) :
    dim ∈ [2, 3] ∧ testNum ∈ [0, 1, 2] := by
  have hd : dim ∈ [2, 3] := by
    by_contra hd
    simp only [List.mem_cons, List.mem_singleton, List.not_mem_nil, or_false, not_or] at hd
    simp [CreateMesh_partition, hd.1, hd.2] at h
  refine ⟨hd, ?_⟩
  rcases testNum with _ | _ | _ | t
  · simp
  · simp
  · simp
  · exfalso
    simp only [List.mem_cons, List.mem_singleton, List.not_mem_nil, or_false] at hd
    rcases hd with rfl | rfl <;> cases cellSimplex <;>
      simp [CreateMesh_partition, triPartition_p2, quadPartition_p2, tetPartition_p2,
        hexPartition_p2, Except.map] at h

/-- Counterexample to C18 as written: for the triangles of test 0 on 2 processes the
partition lists the three points 0, 1, 2 with sizes 1 and 2, while the original mesh of the
fixture has `numPoints[depth] = 2` cells, the points 0 and 1. -/
theorem partition_counterexample :
    CreateMesh_partition true 2 true 2 0 = Except.ok (some ([1, 2], [0, 1, 2])) ∧
    ∃ a, CreateMesh_arrays 2 true 0 = some a ∧ a.numPoints.getD a.depth 0 = 2 ∧
      a.graph.getHeightStratum 0 = [0, 1] :=
  ⟨rfl, exists_some_of _ _ (by decide!) (by decide!)⟩

/-- C18, amended. For every (`dim`, cell shape, test number) for which `CreateMesh` has a
fixed partition on 2 processes, the listed points are distinct, there are two sizes and they
sum to the number of listed points; the original mesh of the fixture has 2 cells, the points
0 and 1; the fixture carries the label "fault" exactly for test 0 (and "pfault" exactly for
test 2, "fault2" never); and the listed points are 0, 1 when the fixture has no "fault" label
(quadrilateral test 2) and 0, 1, 2 when it has one (every test 0), where `CreateMesh` has
replaced the mesh by its hybrid mesh before it sets the partition. -/
theorem partition_lists_current_cells (dim : Nat) (cellSimplex : Bool) (testNum : Nat)
    (sizes points : List Nat)
    (h : CreateMesh_partition true dim cellSimplex 2 testNum = Except.ok (some (sizes, points))) :
    points.Nodup ∧ sizes.length = 2 ∧ sizes.sum = points.length ∧
    ∃ a dm, CreateMesh_arrays dim cellSimplex testNum = some a ∧
      CreateMesh_fixture dim cellSimplex testNum = Except.ok dm ∧
      a.numPoints.getD a.depth 0 = 2 ∧
      a.graph.getHeightStratum 0 = [0, 1] ∧
      dm.graph.getHeightStratum 0 = [0, 1] ∧
      (DMHasLabel dm "fault" = true ↔ testNum = 0) ∧
      (DMHasLabel dm "pfault" = true ↔ testNum = 2) ∧
      DMHasLabel dm "fault2" = false ∧
      points = List.range (2 + if DMHasLabel dm "fault" = true then 1 else 0) := by
  have key : ∀ d ∈ [2, 3], ∀ s ∈ [true, false], ∀ t ∈ [0, 1, 2],
      ∀ r ∈ (CreateMesh_partition true d s 2 t).toOption, ∀ sp ∈ r,
        sp.2.Nodup ∧ sp.1.length = 2 ∧ sp.1.sum = sp.2.length ∧
        (CreateMesh_arrays d s t).isSome = true ∧
        (CreateMesh_fixture d s t).toOption.isSome = true ∧
        ∀ a ∈ CreateMesh_arrays d s t, ∀ dm ∈ (CreateMesh_fixture d s t).toOption,
          a.numPoints.getD a.depth 0 = 2 ∧
          a.graph.getHeightStratum 0 = [0, 1] ∧
          dm.graph.getHeightStratum 0 = [0, 1] ∧
          (DMHasLabel dm "fault" = true ↔ t = 0) ∧
          (DMHasLabel dm "pfault" = true ↔ t = 2) ∧
          DMHasLabel dm "fault2" = false ∧
          sp.2 = List.range (2 + if DMHasLabel dm "fault" = true then 1 else 0) := by
    decide!
  obtain ⟨hd, ht⟩ := CreateMesh_partition_supported _ _ _ _ h
  obtain ⟨h1, h2, h3, h4, h5, h6⟩ := key dim hd cellSimplex (by cases cellSimplex <;> simp)
    testNum ht _ (mem_toOption_of_eq_ok _ _ h) (sizes, points) rfl
  obtain ⟨a, ha, -⟩ := exists_some_of (CreateMesh_arrays dim cellSimplex testNum)
    (fun _ => True) h4 (fun _ _ => trivial)
  obtain ⟨dm, hdm, -⟩ := exists_ok_of (CreateMesh_fixture dim cellSimplex testNum)
    (fun _ => True) h5 (fun _ _ => trivial)
  exact ⟨h1, h2, h3, a, dm, ha, hdm, h6 a ha dm (mem_toOption_of_eq_ok _ _ hdm)⟩

/-- Witness of C18 (amended) at the quadrilaterals of test 2. -/
theorem partition_lists_current_cells_witness :
    [0, 1].Nodup ∧ [1, 1].length = 2 ∧ [1, 1].sum = [0, 1].length ∧
    ∃ a dm, CreateMesh_arrays 2 false 2 = some a ∧
      CreateMesh_fixture 2 false 2 = Except.ok dm ∧
      a.numPoints.getD a.depth 0 = 2 ∧
      a.graph.getHeightStratum 0 = [0, 1] ∧
      dm.graph.getHeightStratum 0 = [0, 1] ∧
      (DMHasLabel dm "fault" = true ↔ 2 = 0) ∧
      (DMHasLabel dm "pfault" = true ↔ 2 = 2) ∧
      DMHasLabel dm "fault2" = false ∧
      [0, 1] = List.range (2 + if DMHasLabel dm "fault" = true then 1 else 0) :=
  partition_lists_current_cells 2 false 2 [1, 1] [0, 1] rfl

/-- When the partition of a test-0 fixture is set, `CreateMesh` holds the hybrid mesh, whose
cells in the modelled engine are the two original cells and the cohesive cell 2. -/
theorem hybrid_cells_at_partition :
    ∀ d ∈ [2, 3], ∀ s ∈ [true, false],
      ((createHybrid (CreateMesh_fixture d s 0)).toOption.map fun x =>
        x.2.hybridGraph.getHeightStratum 0) = some [0, 1, 2] := by
  decide!

end Ex5

namespace PetscBT

/-- Only the low byte is looked at. -/
theorem lookupBit_mod (sc : Bool) (c q : Nat) : lookupBit sc (c % 256) q = lookupBit sc c q := by
  simp only [lookupBit, charToInt_mod]

/-- All bytes, bit positions and both signednesses: the looked-up value is the bit. -/
theorem byte_lookup_testBit (sc : Bool) (b : Fin 256) (q : Fin 8) :
    lookupBit sc b q = if Nat.testBit b q then 1 else 0 := by
  revert sc b q; decide!

/-- All bytes, bit positions and both signednesses: the byte `PetscBTSet` stores. -/
theorem byte_set_eq (sc : Bool) (b : Fin 256) (p : Fin 8) :
    intToChar (intOr (charToInt sc b) (charToInt sc (intToChar (1 * 2 ^ p.val)))) =
      b.val ||| 2 ^ p.val := by
  revert sc b p; decide!

/-- All bytes, bit positions and both signednesses: the byte `PetscBTClear` stores. -/
theorem byte_clear_eq (sc : Bool) (b : Fin 256) (p : Fin 8) :
    intToChar (intAnd (charToInt sc b) (intNot (charToInt sc (intToChar (1 * 2 ^ p.val))))) =
      b.val &&& (255 - 2 ^ p.val) := by
  revert sc b p; decide!

/-- The mask `PetscBTClear` keeps has every bit but the cleared one. -/
theorem testBit_clear_mask (p q : Fin 8) (h : p ≠ q) : Nat.testBit (255 - 2 ^ p.val) q = true := by
  revert p q; decide

/-- The looked-up value is the bit, for any stored byte. -/
theorem lookupBit_eq (sc : Bool) (c q : Nat) (hq : q < 8) :
    lookupBit sc c q = if Nat.testBit c q then 1 else 0 := by
  have h := byte_lookup_testBit sc ⟨c % 256, Nat.mod_lt _ (by norm_num)⟩ ⟨q, hq⟩
  simp only [lookupBit_mod] at h
  rw [h]
  have : Nat.testBit (c % 2 ^ 8) q = Nat.testBit c q := by
    rw [Nat.testBit_mod_two_pow]; simp [hq]
  simpa using congrArg (fun b : Bool => if b = true then (1 : Int) else 0) this

/-- Setting bit `p` of a byte leaves the value looked up at another bit `q`. -/
theorem lookupBit_set_other (sc : Bool) (c p q : Nat) (hp : p < 8) (hq : q < 8) (h : p ≠ q) :
    lookupBit sc (intToChar (intOr (charToInt sc c) (charToInt sc (intToChar (1 * 2 ^ p))))) q
      = lookupBit sc c q := by
  have hb := byte_set_eq sc ⟨c % 256, Nat.mod_lt _ (by norm_num)⟩ ⟨p, hp⟩
  simp only [charToInt_mod] at hb
  rw [hb, lookupBit_eq sc _ q hq, ← lookupBit_mod sc c q, lookupBit_eq sc _ q hq,
    Nat.testBit_or, Nat.testBit_two_pow]
  simp [h]

/-- Clearing bit `p` of a byte leaves the value looked up at another bit `q`. -/
theorem lookupBit_clear_other (sc : Bool) (c p q : Nat) (hp : p < 8) (hq : q < 8) (h : p ≠ q) :
    lookupBit sc (intToChar (intAnd (charToInt sc c)
        (intNot (charToInt sc (intToChar (1 * 2 ^ p)))))) q
      = lookupBit sc c q := by
  have hb := byte_clear_eq sc ⟨c % 256, Nat.mod_lt _ (by norm_num)⟩ ⟨p, hp⟩
  simp only [charToInt_mod] at hb
  rw [hb, lookupBit_eq sc _ q hq, ← lookupBit_mod sc c q, lookupBit_eq sc _ q hq,
    Nat.testBit_and]
  have := testBit_clear_mask ⟨p, hp⟩ ⟨q, hq⟩ (by simpa [Fin.ext_iff] using h)
  simp only at this
  simp [this]

/-- The macro `PetscBTLookup` on an index inside the array. -/
theorem PetscBTLookup_lookupBit (sc : Bool) (arr : List Nat) (g1 g2 : Nat) (g3 : Int) (n : Nat)
    (hn : n / 8 < arr.length) :
    PetscBTLookup sc ⟨arr, g1, g2, g3⟩ (n : Int) =
      some (lookupBit sc arr[n / 8] (n % 8),
        { array := arr, _BT_mask := intToChar (1 * 2 ^ (n % 8)), _BT_c := arr[n / 8],
          _BT_idx := ((n / 8 : Nat) : Int) }) :=
  PetscBTLookup_natCast sc arr g1 g2 g3 n _ (List.getElem?_eq_getElem hn)

/-- Looking up bit `k` after the byte of bit `n` was overwritten by a byte that reads the
same at bit `k`. -/
theorem lookup_after_store (sc : Bool) (arr : List Nat) (g1 g2 : Nat) (g3 : Int) (n k b : Nat)
    (hn : n / 8 < arr.length) (hk : k / 8 < arr.length)
    (hsame : n / 8 = k / 8 → lookupBit sc b (k % 8) = lookupBit sc arr[n / 8] (k % 8)) :
    ∃ s2, PetscBTLookup sc ⟨arr.set (n / 8) b, g1, g2, g3⟩ (k : Int) =
      some (lookupBit sc arr[k / 8] (k % 8), s2) := by
  have hk2 : k / 8 < (arr.set (n / 8) b).length := by simpa using hk
  have key : lookupBit sc (arr.set (n / 8) b)[k / 8] (k % 8) = lookupBit sc arr[k / 8] (k % 8) := by
    by_cases h : n / 8 = k / 8
    · have e : (arr.set (n / 8) b)[k / 8] = b := by simp [h]
      have e2 : arr[n / 8] = arr[k / 8] := by simp [h]
      rw [e, hsame h, e2]
    · have e : (arr.set (n / 8) b)[k / 8] = arr[k / 8] := by simp [List.getElem_set, h]
      rw [e]
  exact ⟨_, by rw [PetscBTLookup_lookupBit sc _ g1 g2 g3 k hk2, key]⟩

/-- Two indices of the same byte differ in their bit position. -/
theorem mod_ne_of_div_eq (n k : Nat) (h : n ≠ k) (hd : n / 8 = k / 8) : n % 8 ≠ k % 8 := by
  omega

/-- C29. Bit-array operations touch only the addressed entry: for every bit array created
for `m` values, both signednesses of `char` and all indices `0 <= i, j < m` with `i != j`
(in the same byte or not), `PetscBTLookup(array, j)` returns the same value `v` before and
after each of `PetscBTSet(array, i)`, `PetscBTClear(array, i)` and `PetscBTLookupSet(array,
i)`, all of them defined; and `PetscBTLookup(array, i)` leaves the array as it was. -/
theorem PetscBT_frame (signedChar : Bool) (st : BT) (m i j : Int)
    (hlen : (st.array.length : Int) = PetscBTLength m)
    (hi0 : 0 ≤ i) (him : i < m) (hj0 : 0 ≤ j) (hjm : j < m) (hij : i ≠ j) :
    ∃ v s0, PetscBTLookup signedChar st j = some (v, s0) ∧
      (∃ r s1 s2, PetscBTSet signedChar st i = some (r, s1) ∧
        PetscBTLookup signedChar s1 j = some (v, s2)) ∧
      (∃ r s1 s2, PetscBTClear signedChar st i = some (r, s1) ∧
        PetscBTLookup signedChar s1 j = some (v, s2)) ∧
      (∃ r s1 s2, PetscBTLookupSet signedChar st i = some (r, s1) ∧
        PetscBTLookup signedChar s1 j = some (v, s2)) ∧
      (∃ w s1, PetscBTLookup signedChar st i = some (w, s1) ∧ s1.array = st.array) := by
  obtain ⟨n, rfl⟩ := Int.eq_ofNat_of_zero_le hi0
  obtain ⟨k, rfl⟩ := Int.eq_ofNat_of_zero_le hj0
  have hn := index_in_range st m n hlen him
  have hk := index_in_range st m k hlen hjm
  obtain ⟨arr, g1, g2, g3⟩ := st
  have hnk : n ≠ k := fun h => hij (by rw [h])
  have hgetn : arr[n / 8]? = some (arr[n / 8]) := List.getElem?_eq_getElem hn
  have hp : n % 8 < 8 := Nat.mod_lt _ (by norm_num)
  have hq : k % 8 < 8 := Nat.mod_lt _ (by norm_num)
  obtain ⟨t1, h1⟩ := lookup_after_store signedChar arr (intToChar (1 * 2 ^ (n % 8)))
    arr[n / 8] ((n / 8 : Nat) : Int) n k
    (intToChar (intOr (charToInt signedChar arr[n / 8])
      (charToInt signedChar (intToChar (1 * 2 ^ (n % 8)))))) hn hk
    (fun hd => lookupBit_set_other signedChar arr[n / 8] (n % 8) (k % 8) hp hq
      (mod_ne_of_div_eq n k hnk hd))
  obtain ⟨t2, h2⟩ := lookup_after_store signedChar arr (intToChar (1 * 2 ^ (n % 8)))
    arr[n / 8] ((n / 8 : Nat) : Int) n k
    (intToChar (intAnd (charToInt signedChar arr[n / 8])
      (intNot (charToInt signedChar (intToChar (1 * 2 ^ (n % 8))))))) hn hk
    (fun hd => lookupBit_clear_other signedChar arr[n / 8] (n % 8) (k % 8) hp hq
      (mod_ne_of_div_eq n k hnk hd))
  have e0 := PetscBTLookup_lookupBit signedChar arr g1 g2 g3 k hk
  have e1 := PetscBTSet_natCast signedChar ⟨arr, g1, g2, g3⟩ n _ hgetn
  have e2 := PetscBTClear_natCast signedChar ⟨arr, g1, g2, g3⟩ n _ hgetn
  have e3 := PetscBTLookupSet_natCast signedChar ⟨arr, g1, g2, g3⟩ n _ hgetn
  have e4 := PetscBTLookup_lookupBit signedChar arr g1 g2 g3 n hn
  exact ⟨_, _, e0, ⟨_, _, _, e1, h1⟩, ⟨_, _, _, e2, h2⟩, ⟨_, _, _, e3, h1⟩, ⟨_, _, e4, rfl⟩⟩

/-- Witness of C29 at bits 7 and 0 of the same byte, with signed `char`. -/
theorem PetscBT_frame_witness :
    ∃ v s0, PetscBTLookup true ⟨[129, 255], 0, 0, 0⟩ 0 = some (v, s0) ∧
      (∃ r s1 s2, PetscBTSet true ⟨[129, 255], 0, 0, 0⟩ 7 = some (r, s1) ∧
        PetscBTLookup true s1 0 = some (v, s2)) ∧
      (∃ r s1 s2, PetscBTClear true ⟨[129, 255], 0, 0, 0⟩ 7 = some (r, s1) ∧
        PetscBTLookup true s1 0 = some (v, s2)) ∧
      (∃ r s1 s2, PetscBTLookupSet true ⟨[129, 255], 0, 0, 0⟩ 7 = some (r, s1) ∧
        PetscBTLookup true s1 0 = some (v, s2)) ∧
      (∃ w s1, PetscBTLookup true ⟨[129, 255], 0, 0, 0⟩ 7 = some (w, s1) ∧
        s1.array = [129, 255]) :=
  PetscBT_frame true ⟨[129, 255], 0, 0, 0⟩ 12 7 0 (by decide) (by decide) (by decide)
    (by decide) (by decide) (by decide)

/-- The prologue overwrites the three globals before any of them is read. -/
theorem prologue_globals (arr : List Nat) (g1 g2 : Nat) (g3 : Int) (h1 h2 : Nat) (h3 : Int)
    (index : Int) : prologue ⟨arr, g1, g2, g3⟩ index = prologue ⟨arr, h1, h2, h3⟩ index := by
  rfl

/-- C30. The globals carry no information between bit-array calls: for every array, every
index (in range or not) and both signednesses of `char`, two runs of `PetscBTSet`,
`PetscBTClear`, `PetscBTLookup` or `PetscBTLookupSet` that differ only in what `_BT_mask`,
`_BT_c` and `_BT_idx` held before give the same result: the same returned value, the same
array and the same globals afterwards, or undefined behaviour in both. -/
theorem PetscBT_globals_carry_nothing (signedChar : Bool) (array : List Nat)
    (mask1 c1 : Nat) (idx1 : Int) (mask2 c2 : Nat) (idx2 : Int) (index : Int) :
    PetscBTSet signedChar ⟨array, mask1, c1, idx1⟩ index =
      PetscBTSet signedChar ⟨array, mask2, c2, idx2⟩ index ∧
    PetscBTClear signedChar ⟨array, mask1, c1, idx1⟩ index =
      PetscBTClear signedChar ⟨array, mask2, c2, idx2⟩ index ∧
    PetscBTLookup signedChar ⟨array, mask1, c1, idx1⟩ index =
      PetscBTLookup signedChar ⟨array, mask2, c2, idx2⟩ index ∧
    PetscBTLookupSet signedChar ⟨array, mask1, c1, idx1⟩ index =
      PetscBTLookupSet signedChar ⟨array, mask2, c2, idx2⟩ index := by
  simp only [PetscBTSet, PetscBTClear, PetscBTLookup, PetscBTLookupSet,
    prologue_globals array mask1 c1 idx1 mask2 c2 idx2 index, and_self]

end PetscBT

namespace Ex5

open Plex

/-- C21. The comment "Cell Adjacency Graph" of the seven-hexahedron fixture (`CreateHex_3D`
test 1) is exact: the fixture has the cells 0..6, each with eight distinct vertices; every
listed pair `c < d` shares exactly four vertices, the four listed; a pair of cells shares
four vertices exactly when it is listed, and every other pair shares at most two; a line is
marked `F` exactly when its four vertices all carry the fault label, whose points are
20, ..., 25; and the marked pairs are 0-5 and 2-4. -/
theorem hex_adjacency_as_documented :
    ∃ dm a, CreateHex_3D 1 = Except.ok dm ∧ CreateHex_3D_arrays 1 = some a ∧
      (DMGetLabel dm "fault").points = [20, 21, 22, 23, 24, 25] ∧
      a.graph.getHeightStratum 0 = [0, 1, 2, 3, 4, 5, 6] ∧
      (∀ c ∈ a.graph.getHeightStratum 0, (a.graph.getCone c).Nodup) ∧
      (∀ e ∈ documentedCellAdjacency, e.1 < e.2.2.1 ∧ e.2.2.1 < 7 ∧ e.2.1.Nodup ∧
        e.2.1.length = 4 ∧ (commonVertices a e.1 e.2.2.1).length = 4 ∧
        (∀ v ∈ e.2.1, v ∈ commonVertices a e.1 e.2.2.1) ∧
        (e.2.2.2 = true ↔ ∀ v ∈ e.2.1, v ∈ (DMGetLabel dm "fault").points)) ∧
      (∀ c ∈ a.graph.getHeightStratum 0, ∀ d ∈ a.graph.getHeightStratum 0, c < d →
        ((commonVertices a c d).length = 4 ↔
          ∃ e ∈ documentedCellAdjacency, e.1 = c ∧ e.2.2.1 = d) ∧
        ((commonVertices a c d).length = 4 ∨ (commonVertices a c d).length ≤ 2)) ∧
      (documentedCellAdjacency.filter fun e => e.2.2.2).map (fun e => (e.1, e.2.2.1)) =
        [(0, 5), (2, 4)] := by
  obtain ⟨dm, hdm, hl⟩ := exists_ok_of (CreateHex_3D 1)
    (fun dm => (DMGetLabel dm "fault").points = [20, 21, 22, 23, 24, 25]) (by decide!) (by decide!)
  obtain ⟨a, ha, h1, h2, h3, h4, h5⟩ := exists_some_of (CreateHex_3D_arrays 1)
    (fun a => a.graph.getHeightStratum 0 = [0, 1, 2, 3, 4, 5, 6] ∧
      (∀ c ∈ a.graph.getHeightStratum 0, (a.graph.getCone c).Nodup) ∧
      (∀ e ∈ documentedCellAdjacency, e.1 < e.2.2.1 ∧ e.2.2.1 < 7 ∧ e.2.1.Nodup ∧
        e.2.1.length = 4 ∧ (commonVertices a e.1 e.2.2.1).length = 4 ∧
        (∀ v ∈ e.2.1, v ∈ commonVertices a e.1 e.2.2.1) ∧
        (e.2.2.2 = true ↔ ∀ v ∈ e.2.1, v ∈ [20, 21, 22, 23, 24, 25])) ∧
      (∀ c ∈ a.graph.getHeightStratum 0, ∀ d ∈ a.graph.getHeightStratum 0, c < d →
        ((commonVertices a c d).length = 4 ↔
          ∃ e ∈ documentedCellAdjacency, e.1 = c ∧ e.2.2.1 = d) ∧
        ((commonVertices a c d).length = 4 ∨ (commonVertices a c d).length ≤ 2)) ∧
      (documentedCellAdjacency.filter fun e => e.2.2.2).map (fun e => (e.1, e.2.2.1)) =
        [(0, 5), (2, 4)])
    (by decide!) (by decide!)
  exact ⟨dm, a, hdm, ha, hl, h1, h2, by rw [hl]; exact h3, h4, h5⟩

/-- C28. On rank 0 the `switch (dim)` of `CreateMesh` and the `switch (testNum)` of the
fixture function fail with `PETSC_ERR_ARG_OUTOFRANGE`, no mesh being built, exactly when
`dim` is neither 2 nor 3 (`dim = 1` included), or the test number is at least 2 for triangles
and tetrahedra or at least 3 for quadrilaterals and hexahedra; in every other case a mesh is
returned. -/
theorem CreateMesh_fixture_outOfRange (dim : Nat) (cellSimplex : Bool) (testNum : Nat) :
    (CreateMesh_fixture dim cellSimplex testNum =
        Except.error PetscError.PETSC_ERR_ARG_OUTOFRANGE ↔
      (dim ≠ 2 ∧ dim ≠ 3) ∨ (cellSimplex = true ∧ 2 ≤ testNum) ∨
        (cellSimplex = false ∧ 3 ≤ testNum)) ∧
    (¬ ((dim ≠ 2 ∧ dim ≠ 3) ∨ (cellSimplex = true ∧ 2 ≤ testNum) ∨
        (cellSimplex = false ∧ 3 ≤ testNum)) →
      ∃ dm, CreateMesh_fixture dim cellSimplex testNum = Except.ok dm) := by
  have hok : ∀ d ∈ [2, 3], ∀ s ∈ [true, false], ∀ t ∈ [0, 1, 2], (s = true → t < 2) →
      (CreateMesh_fixture d s t).toOption.isSome = true := by decide!
  by_cases hd : dim = 2 ∨ dim = 3
  · by_cases ht : (cellSimplex = true ∧ 2 ≤ testNum) ∨ (cellSimplex = false ∧ 3 ≤ testNum)
    · have herr : CreateMesh_fixture dim cellSimplex testNum =
          Except.error PetscError.PETSC_ERR_ARG_OUTOFRANGE := by
        rcases hd with rfl | rfl <;> rcases ht with ⟨rfl, h2⟩ | ⟨rfl, h3⟩
        · rcases testNum with _ | _ | t
          · omega
          · omega
          · simp [CreateMesh_fixture, CreateSimplex_2D]
        · rcases testNum with _ | _ | _ | t
          · omega
          · omega
          · omega
          · simp [CreateMesh_fixture, CreateQuad_2D]
        · rcases testNum with _ | _ | t
          · omega
          · omega
          · simp [CreateMesh_fixture, CreateSimplex_3D]
        · rcases testNum with _ | _ | _ | t
          · omega
          · omega
          · omega
          · simp [CreateMesh_fixture, CreateHex_3D]
      exact ⟨⟨fun _ => Or.inr ht, fun _ => herr⟩, fun h => absurd (Or.inr ht) h⟩
    · have hsome : (CreateMesh_fixture dim cellSimplex testNum).toOption.isSome = true := by
        refine hok dim (by rcases hd with rfl | rfl <;> simp) cellSimplex
          (by cases cellSimplex <;> simp) testNum ?_ ?_
        · cases cellSimplex <;> simp at ht ⊢ <;> omega
        · intro hs; subst hs; simp at ht; omega
      obtain ⟨dm, hdm, -⟩ := exists_ok_of (CreateMesh_fixture dim cellSimplex testNum)
        (fun _ => True) hsome (fun _ _ => trivial)
      refine ⟨⟨fun h => ?_, fun h => ?_⟩, fun _ => ⟨dm, hdm⟩⟩
      · rw [hdm] at h; cases h
      · rcases h with h | h
        · exact absurd hd (by omega)
        · exact absurd h ht
  · have hd2 : dim ≠ 2 ∧ dim ≠ 3 := by omega
    have herr : CreateMesh_fixture dim cellSimplex testNum =
        Except.error PetscError.PETSC_ERR_ARG_OUTOFRANGE := by
      rcases dim with _ | _ | _ | _ | d
      · rfl
      · rfl
      · exact absurd rfl hd2.1
      · exact absurd rfl hd2.2
      · rfl
    exact ⟨⟨fun _ => Or.inl hd2, fun _ => herr⟩, fun h => absurd (Or.inl hd2) h⟩

/-- The label stored under a name in a list of labels, empty when there is none. -/
theorem DMGetLabel_eq (dm : DM) (name : String) :
    DMGetLabel dm name = ((dm.labels.find? fun e => e.1 == name).map Prod.snd).getD [] := by
  unfold DMGetLabel
  cases dm.labels.find? fun e => e.1 == name <;> rfl

/-- Updating labels by name commutes with finding a label by name. -/
theorem find?_map_update (l : List (String × Label)) (n n1 : String) (g : Label → Label) :
    ((l.map fun e => if e.1 == n then (e.1, g e.2) else e).find? fun e => e.1 == n1) =
      (l.find? fun e => e.1 == n1).map fun e => if e.1 == n then (e.1, g e.2) else e := by
  induction l with
  | nil => rfl
  | cons a l ih =>
    simp only [List.map_cons, List.find?_cons]
    have hfst : (if a.1 == n then (a.1, g a.2) else a).1 = a.1 := by split <;> rfl
    rw [hfst]
    cases a.1 == n1 with
    | true => rfl
    | false => exact ih

/-- A label found by name has that name. -/
theorem fst_of_find? (l : List (String × Label)) (n1 : String) (e : String × Label)
    (hf : (l.find? fun e => e.1 == n1) = some e) : e.1 = n1 := by
  induction l with
  | nil => simp at hf
  | cons a l ih =>
    rw [List.find?_cons] at hf
    cases ha : a.1 == n1 with
    | true =>
      rw [ha] at hf
      simp only [Option.some.injEq] at hf
      subst hf
      simpa using ha
    | false =>
      rw [ha] at hf
      exact ih hf

/-- No label of a name that the mesh does not have is found. -/
theorem find?_eq_none_of_any (l : List (String × Label)) (n : String)
    (h : (l.any fun e => e.1 == n) = false) : (l.find? fun e => e.1 == n) = none := by
  rw [List.find?_eq_none]
  intro e he
  have := List.any_eq_false.mp h e he
  simpa using this

/-- An absent label has no points. -/
theorem DMGetLabel_of_not_has (dm : DM) (name : String) (h : DMHasLabel dm name = false) :
    DMGetLabel dm name = [] := by
  rw [DMGetLabel_eq, find?_eq_none_of_any dm.labels name h]; rfl

/-- What `DMSetLabelValue` does to each label. -/
theorem DMGetLabel_DMSetLabelValue (dm : DM) (n : String) (p : Nat) (v : Int) (n1 : String) :
    DMGetLabel (DMSetLabelValue dm n p v) n1 =
      if n1 = n then (DMGetLabel dm n).setValue p v else DMGetLabel dm n1 := by
  unfold DMSetLabelValue
  by_cases hany : (dm.labels.any fun e => e.1 == n) = true
  · rw [if_pos hany]
    simp only [DMGetLabel_eq]
    rw [find?_map_update dm.labels n n1 (fun l => l.setValue p v)]
    by_cases hn : n1 = n
    · subst hn
      rw [if_pos rfl]
      cases hf : dm.labels.find? fun e => e.1 == n1 with
      | none =>
        exfalso
        rw [List.find?_eq_none] at hf
        obtain ⟨e, he, hen⟩ := List.any_eq_true.mp hany
        exact hf e he hen
      | some e =>
        have he1 : e.1 = n1 := fst_of_find? _ _ _ hf
        simp [he1]
    · rw [if_neg hn]
      cases hf : dm.labels.find? fun e => e.1 == n1 with
      | none => rfl
      | some e =>
        have he1 : e.1 = n1 := fst_of_find? _ _ _ hf
        have hne : ¬ e.1 = n := by rw [he1]; exact hn
        simp [hne]
  · rw [if_neg hany]
    have hany2 : (dm.labels.any fun e => e.1 == n) = false := Bool.eq_false_iff.mpr hany
    simp only [DMGetLabel_eq, List.find?_append]
    by_cases hn : n1 = n
    · subst hn
      rw [if_pos rfl, find?_eq_none_of_any dm.labels n1 hany2]
      simp [Label.setValue]
    · rw [if_neg hn]
      have hne : (n == n1) = false := by simpa using fun h => hn h.symm
      simp [List.find?_cons, hne]

/-- Setting a label value leaves the mesh. -/
theorem graph_DMSetLabelValue (dm : DM) (n : String) (p : Nat) (v : Int) :
    (DMSetLabelValue dm n p v).graph = dm.graph := by
  unfold DMSetLabelValue; split <;> rfl

/-- What `DMCreateLabel` does to each label: nothing that shows in its points. -/
theorem DMGetLabel_DMCreateLabel (dm : DM) (n n1 : String) :
    DMGetLabel (DMCreateLabel dm n) n1 = DMGetLabel dm n1 := by
  unfold DMCreateLabel
  by_cases hany : DMHasLabel dm n = true
  · rw [if_pos hany]
  · rw [if_neg hany]
    have hany2 : (dm.labels.any fun e => e.1 == n) = false := Bool.eq_false_iff.mpr hany
    simp only [DMGetLabel_eq, List.find?_append]
    by_cases hn : n1 = n
    · subst hn
      rw [find?_eq_none_of_any dm.labels n1 hany2]
      simp
    · have hne : (n == n1) = false := by simpa using fun h => hn h.symm
      simp [List.find?_cons, hne]

/-- Creating a label leaves the mesh. -/
theorem graph_DMCreateLabel (dm : DM) (n : String) : (DMCreateLabel dm n).graph = dm.graph := by
  unfold DMCreateLabel; split <;> rfl

/-- The inner loop of `CreateFaultLabel`. -/
theorem DMGetLabel_foldl_points (ps : List Nat) (dm : DM) (n1 : String) :
    DMGetLabel (ps.foldl (fun dm p => DMSetLabelValue dm "cohesive" p 1) dm) n1 =
      (if n1 = "cohesive" then DMGetLabel dm "cohesive" ++ ps.map (fun p => (p, (1 : Int)))
       else DMGetLabel dm n1) ∧
    (ps.foldl (fun dm p => DMSetLabelValue dm "cohesive" p 1) dm).graph = dm.graph := by
  induction ps generalizing dm with
  | nil =>
    refine ⟨?_, rfl⟩
    by_cases hn : n1 = "cohesive"
    · simp [hn]
    · simp [hn]
  | cons p ps ih =>
    simp only [List.foldl_cons]
    obtain ⟨h1, h2⟩ := ih (DMSetLabelValue dm "cohesive" p 1)
    refine ⟨?_, by rw [h2, graph_DMSetLabelValue]⟩
    rw [h1]
    by_cases hn : n1 = "cohesive"
    · simp [hn, DMGetLabel_DMSetLabelValue, Label.setValue]
    · simp [hn, DMGetLabel_DMSetLabelValue]

/-- The outer loop of `CreateFaultLabel`. -/
theorem DMGetLabel_foldl_heights (pMax pEnd : Nat → Nat) (hs : List Nat) (dm : DM)
    (n1 : String) :
    DMGetLabel (hs.foldl (fun dm h => (List.range' (pMax h) (pEnd h - pMax h)).foldl
        (fun dm p => DMSetLabelValue dm "cohesive" p 1) dm) dm) n1 =
      (if n1 = "cohesive" then DMGetLabel dm "cohesive" ++
          hs.flatMap (fun h => (List.range' (pMax h) (pEnd h - pMax h)).map
            (fun p => (p, (1 : Int))))
       else DMGetLabel dm n1) ∧
    (hs.foldl (fun dm h => (List.range' (pMax h) (pEnd h - pMax h)).foldl
        (fun dm p => DMSetLabelValue dm "cohesive" p 1) dm) dm).graph = dm.graph := by
  induction hs generalizing dm with
  | nil =>
    refine ⟨?_, rfl⟩
    by_cases hn : n1 = "cohesive"
    · simp [hn]
    · simp [hn]
  | cons h hs ih =>
    simp only [List.foldl_cons, List.flatMap_cons]
    obtain ⟨h1, h2⟩ := ih ((List.range' (pMax h) (pEnd h - pMax h)).foldl
        (fun dm p => DMSetLabelValue dm "cohesive" p 1) dm)
    obtain ⟨h3, h4⟩ := DMGetLabel_foldl_points (List.range' (pMax h) (pEnd h - pMax h)) dm
      "cohesive"
    obtain ⟨h5, -⟩ := DMGetLabel_foldl_points (List.range' (pMax h) (pEnd h - pMax h)) dm n1
    refine ⟨?_, by rw [h2, h4]⟩
    rw [h1]
    by_cases hn : n1 = "cohesive"
    · rw [if_pos hn, if_pos hn, h3, if_pos rfl, List.append_assoc]
    · rw [if_neg hn, if_neg hn, h5, if_neg hn]

/-- The label "cohesive" after `CreateFaultLabel` on a mesh that had none. -/
theorem CreateFaultLabel_label (dim : Nat) (pMax pEnd : Nat → Nat) (dm : DM)
    (hno : DMHasLabel dm "cohesive" = false) :
    DMGetLabel (CreateFaultLabel dim pMax pEnd dm) "cohesive" =
      (List.range (dim + 1)).flatMap (fun h => (List.range' (pMax h) (pEnd h - pMax h)).map
        (fun p => (p, (1 : Int)))) := by
  unfold CreateFaultLabel
  simp only
  rw [(DMGetLabel_foldl_heights pMax pEnd _ _ "cohesive").1, if_pos rfl,
    DMGetLabel_DMCreateLabel, DMGetLabel_of_not_has dm _ hno, List.nil_append]

/-- The pairs the two loops of `CreateFaultLabel` add. -/
theorem mem_cohesive_iff (dim : Nat) (pMax pEnd : Nat → Nat) (e : Nat × Int) :
    e ∈ (List.range (dim + 1)).flatMap (fun h => (List.range' (pMax h) (pEnd h - pMax h)).map
        (fun p => (p, (1 : Int)))) ↔
      e.2 = 1 ∧ ∃ h, h ≤ dim ∧ pMax h ≤ e.1 ∧ e.1 < pEnd h := by
  simp only [List.mem_flatMap, List.mem_range, List.mem_map, List.mem_range'_1]
  constructor
  · rintro ⟨h, hh, p, ⟨hp1, hp2⟩, rfl⟩
    exact ⟨rfl, h, by omega, hp1, by omega⟩
  · rintro ⟨he, h, hh, hp1, hp2⟩
    exact ⟨h, by omega, e.1, ⟨hp1, by omega⟩, by rw [← he]⟩

/-- C22. `CreateFaultLabel` marks exactly the appended hybrid points: on a mesh without a
label "cohesive", with `pMax h` the end of the simplex-or-box range and `pEnd h` the end of
the stratum of height `h`, afterwards a point `p` has value 1 under "cohesive" if and only if
`pMax h <= p < pEnd h` for some height `0 <= h <= dim`; the label holds no other value; when
the strata `[pStart h, pEnd h)` are disjoint with `pStart h <= pMax h <= pEnd h`, no point of
a regular range `[pStart h, pMax h)` is labelled; every other label and the mesh are as
before. -/
theorem CreateFaultLabel_marks_appended (dim : Nat) (pStart pMax pEnd : Nat → Nat) (dm : DM)
    (hno : DMHasLabel dm "cohesive" = false)
    (hord : ∀ h, h ≤ dim → pStart h ≤ pMax h ∧ pMax h ≤ pEnd h)
    (hdisj : ∀ h, h ≤ dim → ∀ k, k ≤ dim → h ≠ k → pEnd h ≤ pStart k ∨ pEnd k ≤ pStart h) :
    (∀ p, p ∈ (DMGetLabel (CreateFaultLabel dim pMax pEnd dm) "cohesive").getStratumPoints 1 ↔
      ∃ h, h ≤ dim ∧ pMax h ≤ p ∧ p < pEnd h) ∧
    (∀ e ∈ DMGetLabel (CreateFaultLabel dim pMax pEnd dm) "cohesive", e.2 = 1) ∧
    (∀ h p, h ≤ dim → pStart h ≤ p → p < pMax h →
      p ∉ (DMGetLabel (CreateFaultLabel dim pMax pEnd dm) "cohesive").points) ∧
    (∀ name, name ≠ "cohesive" →
      DMGetLabel (CreateFaultLabel dim pMax pEnd dm) name = DMGetLabel dm name) ∧
    (CreateFaultLabel dim pMax pEnd dm).graph = dm.graph := by
  rw [CreateFaultLabel_label dim pMax pEnd dm hno]
  refine ⟨?_, ?_, ?_, ?_, ?_⟩
  · intro p
    simp only [Label.getStratumPoints, List.mem_map, List.mem_filter, mem_cohesive_iff]
    constructor
    · rintro ⟨e, ⟨⟨-, h⟩, -⟩, rfl⟩
      exact h
    · intro h
      exact ⟨(p, 1), ⟨⟨rfl, h⟩, by simp⟩, rfl⟩
  · intro e he
    exact ((mem_cohesive_iff dim pMax pEnd e).mp he).1
  · intro h p hh hp1 hp2 hmem
    simp only [Label.points, List.mem_map] at hmem
    obtain ⟨e, he, rfl⟩ := hmem
    obtain ⟨-, k, hk, hk1, hk2⟩ := (mem_cohesive_iff dim pMax pEnd e).mp he
    by_cases hkh : h = k
    · subst hkh; omega
    · have := hdisj h hh k hk hkh
      have := hord h hh
      have := hord k hk
      omega
  · intro name hname
    unfold CreateFaultLabel
    simp only
    rw [(DMGetLabel_foldl_heights pMax pEnd _ _ name).1, if_neg hname, DMGetLabel_DMCreateLabel]
  · unfold CreateFaultLabel
    simp only
    rw [(DMGetLabel_foldl_heights pMax pEnd _ _ "cohesive").2, graph_DMCreateLabel]

/-- Witness of C22 on a mesh with the strata 0..2 (regular 0..1) and 3..6 (regular 3..4). -/
theorem CreateFaultLabel_marks_appended_witness :
    (∀ p, p ∈ (DMGetLabel (CreateFaultLabel 1 (fun h => if h = 0 then 2 else 5)
          (fun h => if h = 0 then 3 else 7) ⟨⟨[], [], none⟩, [("fault", [(3, 1)])]⟩)
          "cohesive").getStratumPoints 1 ↔
      ∃ h, h ≤ 1 ∧ (fun h => if h = 0 then 2 else 5) h ≤ p ∧
        p < (fun h => if h = 0 then 3 else 7) h) ∧
    (∀ e ∈ DMGetLabel (CreateFaultLabel 1 (fun h => if h = 0 then 2 else 5)
        (fun h => if h = 0 then 3 else 7) ⟨⟨[], [], none⟩, [("fault", [(3, 1)])]⟩) "cohesive",
      e.2 = 1) ∧
    (∀ h p, h ≤ 1 → (fun h => if h = 0 then 0 else 3) h ≤ p →
      p < (fun h => if h = 0 then 2 else 5) h →
      p ∉ (DMGetLabel (CreateFaultLabel 1 (fun h => if h = 0 then 2 else 5)
        (fun h => if h = 0 then 3 else 7) ⟨⟨[], [], none⟩, [("fault", [(3, 1)])]⟩)
        "cohesive").points) ∧
    (∀ name, name ≠ "cohesive" →
      DMGetLabel (CreateFaultLabel 1 (fun h => if h = 0 then 2 else 5)
        (fun h => if h = 0 then 3 else 7) ⟨⟨[], [], none⟩, [("fault", [(3, 1)])]⟩) name =
      DMGetLabel ⟨⟨[], [], none⟩, [("fault", [(3, 1)])]⟩ name) ∧
    (CreateFaultLabel 1 (fun h => if h = 0 then 2 else 5)
      (fun h => if h = 0 then 3 else 7) ⟨⟨[], [], none⟩, [("fault", [(3, 1)])]⟩).graph =
      (⟨⟨[], [], none⟩, [("fault", [(3, 1)])]⟩ : DM).graph :=
  CreateFaultLabel_marks_appended 1 (fun h => if h = 0 then 0 else 3)
    (fun h => if h = 0 then 2 else 5) (fun h => if h = 0 then 3 else 7)
    ⟨⟨[], [], none⟩, [("fault", [(3, 1)])]⟩ (by decide!) (by decide) (by decide)

end Ex5

namespace CMem

/-- Reading at a non-negative index. -/
theorem readAt_natCast {α : Type} (a : List α) (i : Nat) : readAt a (i : Int) = a[i]? := by
  simp [readAt]

/-- Writing at an index inside the array. -/
theorem writeAt_natCast {α : Type} (a : List α) (i : Nat) (v : α) (h : i < a.length) :
    writeAt a (i : Int) v = some (a.set i v) := by
  simp [writeAt, h]

/-- Two writes leave every other entry as it was. -/
theorem getElem?_set_set_of_ne {α : Type} (t : List α) (i1 i2 j : Nat) (v1 v2 : α)
    (h1 : i1 ≠ j) (h2 : i2 ≠ j) : ((t.set i1 v1).set i2 v2)[j]? = t[j]? := by
  rw [List.getElem?_set_ne h2, List.getElem?_set_ne h1]

/-- A loop whose body preserves an invariant runs to its end and establishes it. -/
theorem forLoop_inv {σ : Type} (n : Nat) (body : Int → σ → Option σ) (Inv : Nat → σ → Prop)
    (s : σ) (h0 : Inv 0 s)
    (hstep : ∀ k, k < n → ∀ t, Inv k t → ∃ t1, body (k : Int) t = some t1 ∧ Inv (k + 1) t1) :
    ∃ t, forLoop (n : Int) body s = some t ∧ Inv n t := by
  have key : ∀ m, m ≤ n →
      ∃ t, (List.range m).foldlM (fun (s : σ) (c : Nat) => body (c : Int) s) s = some t ∧
        Inv m t := by
    intro m
    induction m with
    | zero => intro _; exact ⟨s, rfl, h0⟩
    | succ m ih =>
      intro hm
      obtain ⟨t, ht, hinv⟩ := ih (by omega)
      obtain ⟨t1, hb, hinv1⟩ := hstep m (by omega) t hinv
      refine ⟨t1, ?_, hinv1⟩
      rw [List.range_succ, List.foldlM_append, ht]
      simp [hb]
  simpa [forLoop] using key n le_rfl

end CMem

namespace Ex5

open CMem

/-- C23. The traction residual `f0_bd_u` acts with opposite sign on the two sides: for
every `Nc = uOff[1]-uOff[0] >= 0`, every `u` of at least `3*Nc` entries, `x` of at least `Nc`
and `f0` of at least `2*Nc`, over any scalars with addition and negation, the call is defined,
and for every `c < Nc` the output has `f0[c] = u[2*Nc + c] + x[Nc - c - 1]` and
`f0[Nc + c] = -(u[2*Nc + c] + x[Nc - c - 1])`, which is `-f0[c]`; the length of `f0` and every
entry from `2*Nc` on are as before. -/
theorem f0_bd_u_opposite {α : Type} [Add α] [Neg α] (uOff : List Int) (u x f0 : List α)
    (Nc : Nat) (o0 o1 : Int) (h0 : uOff[0]? = some o0) (h1 : uOff[1]? = some o1)
    (hNc : o1 - o0 = (Nc : Int)) (hu : 3 * Nc ≤ u.length) (hx : Nc ≤ x.length)
    (hf : 2 * Nc ≤ f0.length) :
    ∃ out, f0_bd_u uOff u x f0 = some out ∧ out.length = f0.length ∧
      (∀ c, c < Nc → ∃ a b, u[2 * Nc + c]? = some a ∧ x[Nc - c - 1]? = some b ∧
        out[c]? = some (a + b) ∧ out[Nc + c]? = some (-(a + b)) ∧
        out[Nc + c]? = (out[c]?).map fun v => -v) ∧
      (∀ j, 2 * Nc ≤ j → out[j]? = f0[j]?) := by
  have hr0 : readAt uOff 0 = some o0 := by rw [← h0]; exact readAt_natCast uOff 0
  have hr1 : readAt uOff 1 = some o1 := by rw [← h1]; exact readAt_natCast uOff 1
  obtain ⟨out, hout, hlen, hset, hrest⟩ := forLoop_inv Nc
    (fun c f0 =>
      (readAt u ((Nc : Int) * 2 + c)).bind fun a => (readAt x ((Nc : Int) - c - 1)).bind fun b =>
      (writeAt f0 c (a + b)).bind fun f0 =>
      (readAt u ((Nc : Int) * 2 + c)).bind fun a => (readAt x ((Nc : Int) - c - 1)).bind fun b =>
      writeAt f0 ((Nc : Int) + c) (-(a + b)))
    (fun k t => t.length = f0.length ∧
      (∀ c, c < k → ∃ a b, u[2 * Nc + c]? = some a ∧ x[Nc - c - 1]? = some b ∧
        t[c]? = some (a + b) ∧ t[Nc + c]? = some (-(a + b))) ∧
      (∀ j, (k ≤ j ∧ j < Nc) ∨ Nc + k ≤ j → t[j]? = f0[j]?))
    f0 ⟨rfl, fun c hc => absurd hc (Nat.not_lt_zero c), fun _ _ => rfl⟩
    (by
      intro k hk t ⟨hlen, hset, hrest⟩
      have e1 : (Nc : Int) * 2 + (k : Int) = ((2 * Nc + k : Nat) : Int) := by push_cast; ring
      have e2 : (Nc : Int) - (k : Int) - 1 = ((Nc - k - 1 : Nat) : Int) := by omega
      have e3 : (Nc : Int) + (k : Int) = ((Nc + k : Nat) : Int) := by push_cast; ring
      obtain ⟨a, ha⟩ : ∃ a, u[2 * Nc + k]? = some a :=
        ⟨_, List.getElem?_eq_getElem (by omega)⟩
      obtain ⟨b, hb⟩ : ∃ b, x[Nc - k - 1]? = some b :=
        ⟨_, List.getElem?_eq_getElem (by omega)⟩
      have hw1 : k < t.length := by omega
      have hw2 : Nc + k < (t.set k (a + b)).length := by
        rw [List.length_set]; omega
      have hkk : Nc + k ≠ k := by omega
      refine ⟨(t.set k (a + b)).set (Nc + k) (-(a + b)), ?_, ?_, ?_, ?_⟩
      · simp only [e1, e2, e3, readAt_natCast, ha, hb, Option.some_bind,
          writeAt_natCast _ _ _ hw1, writeAt_natCast _ _ _ hw2]
      · simp only [List.length_set, hlen]
      · intro c hc
        by_cases hck : c = k
        · rw [hck]
          refine ⟨a, b, ha, hb, ?_, ?_⟩
          · rw [List.getElem?_set_ne hkk, List.getElem?_set_self hw1]
          · rw [List.getElem?_set_self hw2]
        · have hck2 : c < k := by omega
          have n1 : k ≠ c := by omega
          have n2 : Nc + k ≠ c := by omega
          have n3 : k ≠ Nc + c := by omega
          have n4 : Nc + k ≠ Nc + c := by omega
          obtain ⟨a1, b1, h1, h2, h3, h4⟩ := hset c hck2
          refine ⟨a1, b1, h1, h2, ?_, ?_⟩
          · rw [getElem?_set_set_of_ne t k (Nc + k) c _ _ n1 n2, h3]
          · rw [getElem?_set_set_of_ne t k (Nc + k) (Nc + c) _ _ n3 n4, h4]
      · intro j hj
        have n1 : k ≠ j := by omega
        have n2 : Nc + k ≠ j := by omega
        have hj2 : (k ≤ j ∧ j < Nc) ∨ Nc + k ≤ j := by omega
        rw [getElem?_set_set_of_ne t k (Nc + k) j _ _ n1 n2]
        exact hrest j hj2)
  refine ⟨out, ?_, hlen, ?_, fun j hj => hrest j (Or.inr (by omega))⟩
  · simp only [f0_bd_u, hr0, hr1, Option.some_bind, hNc]
    exact hout
  · intro c hc
    obtain ⟨a, b, h1, h2, h3, h4⟩ := hset c hc
    exact ⟨a, b, h1, h2, h3, h4, by rw [h3, h4]; rfl⟩

/-- Witness of C23 for `Nc = 2` over the integers. -/
theorem f0_bd_u_opposite_witness :
    ∃ out, f0_bd_u [0, 2, 4] [1, 2, 3, 4, 5, (6 : Int)] [10, 20] [0, 0, 0, 0, 7] = some out ∧
      out.length = [0, 0, 0, 0, (7 : Int)].length ∧
      (∀ c, c < 2 → ∃ a b, [1, 2, 3, 4, 5, (6 : Int)][2 * 2 + c]? = some a ∧
        [10, (20 : Int)][2 - c - 1]? = some b ∧
        out[c]? = some (a + b) ∧ out[2 + c]? = some (-(a + b)) ∧
        out[2 + c]? = (out[c]?).map fun v => -v) ∧
      (∀ j, 2 * 2 ≤ j → out[j]? = [0, 0, 0, 0, (7 : Int)][j]?) :=
  f0_bd_u_opposite [0, 2, 4] [1, 2, 3, 4, 5, 6] [10, 20] [0, 0, 0, 0, 7] 2 0 2 rfl rfl
    (by decide) (by decide) (by decide) (by decide)

/-- Function `r` copies the first `n` coordinates. -/
theorem r_spec {α : Type} (x buf : List α) (n : Nat) (hx : n ≤ x.length)
    (hb : n ≤ buf.length) :
    ∃ U, r (n : Int) x buf = some U ∧ ∀ c, c < n → U[c]? = x[c]? := by
  obtain ⟨U, hU, -, hinv⟩ := forLoop_inv n
    (fun d u => (readAt x d).bind fun v => writeAt u d v)
    (fun k t => t.length = buf.length ∧ ∀ c, c < k → t[c]? = x[c]?)
    buf ⟨rfl, fun c hc => absurd hc (Nat.not_lt_zero c)⟩
    (by
      intro k hk t ⟨hlen, hset⟩
      obtain ⟨a, ha⟩ : ∃ a, x[k]? = some a := ⟨_, List.getElem?_eq_getElem (by omega)⟩
      have hw : k < t.length := by omega
      refine ⟨t.set k a, ?_, ?_, ?_⟩
      · simp only [readAt_natCast, ha, Option.some_bind, writeAt_natCast _ _ _ hw]
      · simp only [List.length_set, hlen]
      · intro c hc
        by_cases hck : c = k
        · rw [hck, List.getElem?_set_self hw, ha]
        · have n1 : k ≠ c := by omega
          rw [List.getElem?_set_ne n1]
          exact hset c (by omega))
  exact ⟨U, hU, hinv⟩

/-- Function `rp1` copies the first `n` coordinates and adds 1 to all but the first. -/
theorem rp1_spec {α : Type} [Add α] [Zero α] [One α] (x buf : List α) (n : Nat)
    (hx : n ≤ x.length) (hb : n ≤ buf.length) :
    ∃ U, rp1 (n : Int) x buf = some U ∧
      ∀ c, c < n → U[c]? = (x[c]?).map fun v => v + (if ((c : Nat) : Int) > 0 then 1 else 0) := by
  obtain ⟨U, hU, -, hinv⟩ := forLoop_inv n
    (fun d u => (readAt x d).bind fun v => writeAt u d (v + (if d > 0 then 1 else 0)))
    (fun k t => t.length = buf.length ∧
      ∀ c, c < k → t[c]? = (x[c]?).map fun v => v + (if ((c : Nat) : Int) > 0 then 1 else 0))
    buf ⟨rfl, fun c hc => absurd hc (Nat.not_lt_zero c)⟩
    (by
      intro k hk t ⟨hlen, hset⟩
      obtain ⟨a, ha⟩ : ∃ a, x[k]? = some a := ⟨_, List.getElem?_eq_getElem (by omega)⟩
      have hw : k < t.length := by omega
      refine ⟨t.set k (a + (if ((k : Nat) : Int) > 0 then 1 else 0)), ?_, ?_, ?_⟩
      · simp only [readAt_natCast, ha, Option.some_bind, writeAt_natCast _ _ _ hw]
      · simp only [List.length_set, hlen]
      · intro c hc
        by_cases hck : c = k
        · rw [hck, List.getElem?_set_self hw, ha]; rfl
        · have n1 : k ≠ c := by omega
          rw [List.getElem?_set_ne n1]
          exact hset c (by omega))
  exact ⟨U, hU, hinv⟩

/-- C24. The constraint residual `f0_bd_l` vanishes on the initial guess of the test, in
exact arithmetic (any commutative group of scalars with a 1): for every `Nc` and point `x`
of at least `Nc` coordinates, `r(x)` and `rp1(x)` are defined, and whenever the first `Nc`
entries of `u` are those of `r(x)` and the next `Nc` those of `rp1(x)`, `f0_bd_l` with
`uOff[2]-uOff[1] = Nc` is defined and yields `f0[c] = 0` for every `c < Nc`. -/
theorem f0_bd_l_vanishes {α : Type} [AddCommGroup α] [One α] (uOff : List Int)
    (x buf1 buf2 f0 : List α) (Nc : Nat) (o1 o2 : Int)
    (h1 : uOff[1]? = some o1) (h2 : uOff[2]? = some o2) (hNc : o2 - o1 = (Nc : Int))
    (hx : Nc ≤ x.length) (hb1 : Nc ≤ buf1.length) (hb2 : Nc ≤ buf2.length)
    (hf : Nc ≤ f0.length) :
    ∃ U1 U2, r (Nc : Int) x buf1 = some U1 ∧ rp1 (Nc : Int) x buf2 = some U2 ∧
      ∀ u : List α, (∀ c, c < Nc → u[c]? = U1[c]? ∧ u[Nc + c]? = U2[c]?) →
        ∃ out, f0_bd_l uOff u f0 = some out ∧ ∀ c, c < Nc → out[c]? = some 0 := by
  obtain ⟨U1, hU1, hr⟩ := r_spec x buf1 Nc hx hb1
  obtain ⟨U2, hU2, hrp⟩ := rp1_spec x buf2 Nc hx hb2
  refine ⟨U1, U2, hU1, hU2, ?_⟩
  intro u hu
  have hr1 : readAt uOff 1 = some o1 := by rw [← h1]; exact readAt_natCast uOff 1
  have hr2 : readAt uOff 2 = some o2 := by rw [← h2]; exact readAt_natCast uOff 2
  obtain ⟨out, hout, -, hinv⟩ := forLoop_inv Nc
    (fun c f0 =>
      (readAt u c).bind fun a => (readAt u ((Nc : Int) + c)).bind fun b =>
      writeAt f0 c ((if c > 0 then 1 else 0) + a - b))
    (fun k t => t.length = f0.length ∧ ∀ c, c < k → t[c]? = some 0)
    f0 ⟨rfl, fun c hc => absurd hc (Nat.not_lt_zero c)⟩
    (by
      intro k hk t ⟨hlen, hset⟩
      obtain ⟨a, ha⟩ : ∃ a, x[k]? = some a := ⟨_, List.getElem?_eq_getElem (by omega)⟩
      have e3 : (Nc : Int) + (k : Int) = ((Nc + k : Nat) : Int) := by push_cast; ring
      have hua : u[k]? = some a := by rw [(hu k hk).1, hr k hk, ha]
      have hub : u[Nc + k]? = some (a + (if ((k : Nat) : Int) > 0 then 1 else 0)) := by
        rw [(hu k hk).2, hrp k hk, ha]; rfl
      have hw : k < t.length := by omega
      have hz : (if ((k : Nat) : Int) > 0 then (1 : α) else 0) + a -
          (a + (if ((k : Nat) : Int) > 0 then 1 else 0)) = 0 := by abel
      refine ⟨t.set k 0, ?_, ?_, ?_⟩
      · simp only [e3, readAt_natCast, hua, hub, Option.some_bind, hz,
          writeAt_natCast _ _ _ hw]
      · simp only [List.length_set, hlen]
      · intro c hc
        by_cases hck : c = k
        · rw [hck, List.getElem?_set_self hw]
        · have n1 : k ≠ c := by omega
          rw [List.getElem?_set_ne n1]
          exact hset c (by omega))
  refine ⟨out, ?_, hinv⟩
  simp only [f0_bd_l, hr1, hr2, Option.some_bind, hNc]
  exact hout

/-- Witness of C24 for `Nc = 3` at the point (5, -2, 7) over the integers. -/
theorem f0_bd_l_vanishes_witness :
    ∃ U1 U2, r ((3 : Nat) : Int) [5, -2, (7 : Int)] [0, 0, 0] = some U1 ∧
      rp1 ((3 : Nat) : Int) [5, -2, (7 : Int)] [0, 0, 0] = some U2 ∧
      ∀ u : List Int, (∀ c, c < 3 → u[c]? = U1[c]? ∧ u[3 + c]? = U2[c]?) →
        ∃ out, f0_bd_l [0, 3, 6] u [9, 9, 9] = some out ∧ ∀ c, c < 3 → out[c]? = some 0 :=
  f0_bd_l_vanishes [0, 3, 6] [5, -2, 7] [0, 0, 0] [0, 0, 0] [9, 9, 9] 3 3 6 rfl rfl
    (by decide) (by decide) (by decide) (by decide) (by decide)

/-- Row and column of a row-major index are determined by it. -/
theorem rowMajor_unique (w i c j d : Nat) (hc : c < w) (hd : d < w)
    (h : i * w + c = j * w + d) : i = j ∧ c = d := by
  have h1 : (i * w + c) / w = i := by
    rw [Nat.add_comm, Nat.add_mul_div_right _ _ (by omega), Nat.div_eq_of_lt hc, Nat.zero_add]
  have h2 : (j * w + d) / w = j := by
    rw [Nat.add_comm, Nat.add_mul_div_right _ _ (by omega), Nat.div_eq_of_lt hd, Nat.zero_add]
  have hij : i = j := by rw [← h1, ← h2, h]
  subst hij
  exact ⟨rfl, by omega⟩

/-- A row-major index lies inside the matrix. -/
theorem rowMajor_lt (h w i c : Nat) (hi : i < h) (hc : c < w) : i * w + c < h * w := by
  have : (i + 1) * w ≤ h * w := Nat.mul_le_mul_right w hi
  have e : (i + 1) * w = i * w + w := by ring
  omega

/-- The matrix `g0_bd_ul` fills: `2*Nc` rows of `Nc` entries. -/
theorem g0_bd_ul_spec {α : Type} [Zero α] [One α] [Neg α] (uOff : List Int) (Nc : Nat)
    (o0 o1 : Int) (h0 : uOff[0]? = some o0) (h1 : uOff[1]? = some o1)
    (hNc : o1 - o0 = (Nc : Int)) :
    ∃ A, g0_bd_ul uOff (List.replicate (2 * Nc * Nc) (0 : α)) = some A ∧
      ∀ j c, j < 2 * Nc → c < Nc →
        A[j * Nc + c]? = some (if j = c then 1 else if j = Nc + c then -1 else 0) := by
  have hr0 : readAt uOff 0 = some o0 := by rw [← h0]; exact readAt_natCast uOff 0
  have hr1 : readAt uOff 1 = some o1 := by rw [← h1]; exact readAt_natCast uOff 1
  obtain ⟨A, hA, -, hinv⟩ := forLoop_inv Nc
    (fun c g0 =>
      (writeAt g0 ((0 + c) * (Nc : Int) + c) (1 : α)).bind fun g0 =>
        writeAt g0 (((Nc : Int) + c) * (Nc : Int) + c) (-1))
    (fun k t => t.length = 2 * Nc * Nc ∧ ∀ j c, j < 2 * Nc → c < Nc →
      t[j * Nc + c]? = some (if c < k ∧ j = c then 1 else if c < k ∧ j = Nc + c then -1 else 0))
    (List.replicate (2 * Nc * Nc) (0 : α))
    ⟨List.length_replicate _ _, by
      intro j c hj hc
      rw [List.getElem?_replicate, if_pos (rowMajor_lt _ _ _ _ hj hc)]
      simp⟩
    (by
      intro k hk t ⟨hlen, hset⟩
      have e1 : (0 + (k : Int)) * (Nc : Int) + (k : Int) = ((k * Nc + k : Nat) : Int) := by
        push_cast; ring
      have e2 : ((Nc : Int) + (k : Int)) * (Nc : Int) + (k : Int) =
          (((Nc + k) * Nc + k : Nat) : Int) := by push_cast; ring
      have hw1 : k * Nc + k < t.length := by
        rw [hlen]; exact rowMajor_lt _ _ _ _ (by omega) hk
      have hw2 : (Nc + k) * Nc + k < (t.set (k * Nc + k) (1 : α)).length := by
        rw [List.length_set, hlen]; exact rowMajor_lt _ _ _ _ (by omega) hk
      refine ⟨(t.set (k * Nc + k) 1).set ((Nc + k) * Nc + k) (-1), ?_, ?_, ?_⟩
      · simp only [e1, e2, writeAt_natCast _ _ _ hw1, Option.some_bind,
          writeAt_natCast _ _ _ hw2]
      · simp only [List.length_set, hlen]
      · intro j c hj hc
        by_cases hck : c = k
        · subst hck
          by_cases hjc : j = c
          · subst hjc
            have n1 : (Nc + j) * Nc + j ≠ j * Nc + j := fun h =>
              absurd (rowMajor_unique Nc _ _ _ _ hk hk h).1 (by omega)
            rw [List.getElem?_set_ne n1, List.getElem?_set_self hw1]
            simp
          · by_cases hjn : j = Nc + c
            · subst hjn
              rw [List.getElem?_set_self hw2]
              simp [hjc]
            · have n1 : c * Nc + c ≠ j * Nc + c := fun h =>
                hjc (rowMajor_unique Nc _ _ _ _ hk hk h).1.symm
              have n2 : (Nc + c) * Nc + c ≠ j * Nc + c := fun h =>
                hjn (rowMajor_unique Nc _ _ _ _ hk hk h).1.symm
              rw [getElem?_set_set_of_ne t _ _ _ _ _ n1 n2, hset j c hj hc]
              simp [hjc, hjn]
        · have n1 : k * Nc + k ≠ j * Nc + c := fun h =>
            hck (rowMajor_unique Nc _ _ _ _ hk hc h).2.symm
          have n2 : (Nc + k) * Nc + k ≠ j * Nc + c := fun h =>
            hck (rowMajor_unique Nc _ _ _ _ hk hc h).2.symm
          rw [getElem?_set_set_of_ne t _ _ _ _ _ n1 n2, hset j c hj hc]
          have hlt : c < k + 1 ↔ c < k := by omega
          simp only [hlt])
  refine ⟨A, ?_, ?_⟩
  · simp only [g0_bd_ul, hr0, hr1, Option.some_bind, hNc]
    exact hA
  · intro j c hj hc
    rw [hinv j c hj hc]
    simp [hc]

/-- The matrix `g0_bd_lu` fills: `Nc` rows of `2*Nc` entries. -/
theorem g0_bd_lu_spec {α : Type} [Zero α] [One α] [Neg α] (uOff : List Int) (Nc : Nat)
    (o1 o2 : Int) (h1 : uOff[1]? = some o1) (h2 : uOff[2]? = some o2)
    (hNc : o2 - o1 = (Nc : Int)) :
    ∃ B, g0_bd_lu uOff (List.replicate (Nc * (2 * Nc)) (0 : α)) = some B ∧
      ∀ c j, c < Nc → j < 2 * Nc →
        B[c * (2 * Nc) + j]? = some (if j = c then 1 else if j = Nc + c then -1 else 0) := by
  have hr1 : readAt uOff 1 = some o1 := by rw [← h1]; exact readAt_natCast uOff 1
  have hr2 : readAt uOff 2 = some o2 := by rw [← h2]; exact readAt_natCast uOff 2
  obtain ⟨B, hB, -, hinv⟩ := forLoop_inv Nc
    (fun c g0 =>
      (writeAt g0 (c * (Nc : Int) * 2 + c) (1 : α)).bind fun g0 =>
        writeAt g0 (c * (Nc : Int) * 2 + (Nc : Int) + c) (-1))
    (fun k t => t.length = Nc * (2 * Nc) ∧ ∀ c j, c < Nc → j < 2 * Nc →
      t[c * (2 * Nc) + j]? =
        some (if c < k ∧ j = c then 1 else if c < k ∧ j = Nc + c then -1 else 0))
    (List.replicate (Nc * (2 * Nc)) (0 : α))
    ⟨List.length_replicate _ _, by
      intro c j hc hj
      rw [List.getElem?_replicate, if_pos (rowMajor_lt _ _ _ _ hc hj)]
      simp⟩
    (by
      intro k hk t ⟨hlen, hset⟩
      have e1 : (k : Int) * (Nc : Int) * 2 + (k : Int) = ((k * (2 * Nc) + k : Nat) : Int) := by
        push_cast; ring
      have e2 : (k : Int) * (Nc : Int) * 2 + (Nc : Int) + (k : Int) =
          ((k * (2 * Nc) + (Nc + k) : Nat) : Int) := by push_cast; ring
      have hk1 : k < 2 * Nc := by omega
      have hk2 : Nc + k < 2 * Nc := by omega
      have hw1 : k * (2 * Nc) + k < t.length := by
        rw [hlen]; exact rowMajor_lt _ _ _ _ hk hk1
      have hw2 : k * (2 * Nc) + (Nc + k) < (t.set (k * (2 * Nc) + k) (1 : α)).length := by
        rw [List.length_set, hlen]; exact rowMajor_lt _ _ _ _ hk hk2
      refine ⟨(t.set (k * (2 * Nc) + k) 1).set (k * (2 * Nc) + (Nc + k)) (-1), ?_, ?_, ?_⟩
      · simp only [e1, e2, writeAt_natCast _ _ _ hw1, Option.some_bind,
          writeAt_natCast _ _ _ hw2]
      · simp only [List.length_set, hlen]
      · intro c j hc hj
        by_cases hck : c = k
        · subst hck
          by_cases hjc : j = c
          · subst hjc
            have n1 : j * (2 * Nc) + (Nc + j) ≠ j * (2 * Nc) + j := by omega
            rw [List.getElem?_set_ne n1, List.getElem?_set_self hw1]
            simp
          · by_cases hjn : j = Nc + c
            · subst hjn
              rw [List.getElem?_set_self hw2]
              simp [hjc]
            · have n1 : c * (2 * Nc) + c ≠ c * (2 * Nc) + j := by omega
              have n2 : c * (2 * Nc) + (Nc + c) ≠ c * (2 * Nc) + j := by omega
              rw [getElem?_set_set_of_ne t _ _ _ _ _ n1 n2, hset c j hc hj]
              simp [hjc, hjn]
        · have n1 : k * (2 * Nc) + k ≠ c * (2 * Nc) + j := fun h =>
            hck (rowMajor_unique (2 * Nc) _ _ _ _ hk1 hj h).1.symm
          have n2 : k * (2 * Nc) + (Nc + k) ≠ c * (2 * Nc) + j := fun h =>
            hck (rowMajor_unique (2 * Nc) _ _ _ _ hk2 hj h).1.symm
          rw [getElem?_set_set_of_ne t _ _ _ _ _ n1 n2, hset c j hc hj]
          have hlt : c < k + 1 ↔ c < k := by omega
          simp only [hlt])
  refine ⟨B, ?_, ?_⟩
  · simp only [g0_bd_lu, hr1, hr2, Option.some_bind, hNc]
    exact hB
  · intro c j hc hj
    rw [hinv c j hc hj]
    simp [hc]

/-- C25. The two interface Jacobian blocks are transposes of each other: when
`uOff[1]-uOff[0] = uOff[2]-uOff[1] = Nc` and the outputs are zero on entry, `g0_bd_ul` is
defined and fills a row-major `(2*Nc) x Nc` matrix `A`, `g0_bd_lu` is defined and fills a
row-major `Nc x (2*Nc)` matrix `B`, and for all `c < Nc`, `j < 2*Nc`: `B[c][j] = A[j][c]`,
which is 1 for `j = c`, -1 for `j = Nc + c` and 0 otherwise. -/
theorem g0_bd_transposes {α : Type} [Zero α] [One α] [Neg α] (uOff : List Int) (Nc : Nat)
    (o0 o1 o2 : Int) (h0 : uOff[0]? = some o0) (h1 : uOff[1]? = some o1)
    (h2 : uOff[2]? = some o2) (hul : o1 - o0 = (Nc : Int)) (hlu : o2 - o1 = (Nc : Int)) :
    ∃ A B, g0_bd_ul uOff (List.replicate (2 * Nc * Nc) (0 : α)) = some A ∧
      g0_bd_lu uOff (List.replicate (Nc * (2 * Nc)) (0 : α)) = some B ∧
      ∀ c j, c < Nc → j < 2 * Nc →
        B[c * (2 * Nc) + j]? = A[j * Nc + c]? ∧
        B[c * (2 * Nc) + j]? = some (if j = c then 1 else if j = Nc + c then -1 else 0) := by
  obtain ⟨A, hA, hAs⟩ := @g0_bd_ul_spec α _ _ _ uOff Nc o0 o1 h0 h1 hul
  obtain ⟨B, hB, hBs⟩ := @g0_bd_lu_spec α _ _ _ uOff Nc o1 o2 h1 h2 hlu
  exact ⟨A, B, hA, hB, fun c j hc hj =>
    ⟨by rw [hBs c j hc hj, hAs j c hj hc], hBs c j hc hj⟩⟩

/-- Witness of C25 for `Nc = 2` over the integers. -/
theorem g0_bd_transposes_witness :
    ∃ A B, g0_bd_ul [0, 2, 4] (List.replicate (2 * 2 * 2) (0 : Int)) = some A ∧
      g0_bd_lu [0, 2, 4] (List.replicate (2 * (2 * 2)) (0 : Int)) = some B ∧
      ∀ c j, c < 2 → j < 2 * 2 →
        B[c * (2 * 2) + j]? = A[j * 2 + c]? ∧
        B[c * (2 * 2) + j]? = some (if j = c then 1 else if j = 2 + c then -1 else 0) :=
  g0_bd_transposes [0, 2, 4] 2 0 2 4 rfl rfl rfl (by decide) (by decide)

end Ex5

namespace Ex4

open CMem

/-- C26. The manufactured solution MMS 0 cancels the forcing in the pointwise residuals,
in every commutative ring and so for all real `x`, `y`, `Gr`, `Pr`: `mms_0_u` at the point
`(x, y)` gives `u = (x^2 + y^2, 2x^2 - 2xy)`, and with these two values in `u`, the gradient
of Omega `(4, -4)` at `uOff_x[1]` and the gradient of T `(1, 0)` at `uOff_x[2]` in `u_x`,
`constants = {Pr, Gr, ...}`, both `f0_mms_0_O` and `f0_mms_0_T` are defined and give
`f0[0] = 0`. -/
theorem mms_0_cancels_forcing {α : Type} [CommRing α] (x y Pr Gr : α)
    (xs ubuf u_x constants f0 : List α) (uOff_x : List Int) (p1 p2 : Nat)
    (hx0 : xs[0]? = some x) (hx1 : xs[1]? = some y) (hub : 2 ≤ ubuf.length)
    (ho1 : uOff_x[1]? = some (p1 : Int)) (ho2 : uOff_x[2]? = some (p2 : Int))
    (hOx : u_x[p1]? = some 4) (hOy : u_x[p1 + 1]? = some (-4))
    (hTx : u_x[p2]? = some 1) (hTy : u_x[p2 + 1]? = some 0)
    (hPr : constants[0]? = some Pr) (hGr : constants[1]? = some Gr) (hf : 1 ≤ f0.length) :
    ∃ U, mms_0_u xs ubuf = some U ∧
      U[0]? = some (x * x + y * y) ∧ U[1]? = some (2 * x * x - 2 * x * y) ∧
      ∀ u : List α, u[0]? = U[0]? → u[1]? = U[1]? →
        ∃ out1 out2, f0_mms_0_O uOff_x u u_x xs constants f0 = some out1 ∧
          out1[0]? = some 0 ∧
          f0_mms_0_T uOff_x u u_x xs constants f0 = some out2 ∧ out2[0]? = some 0 := by
  have hw0 : 0 < ubuf.length := by omega
  have hw1 : 1 < (ubuf.set 0 (x * x + y * y)).length := by rw [List.length_set]; omega
  have hf0 : 0 < f0.length := by omega
  have e1 : ((p1 : Int) + 0) = ((p1 : Nat) : Int) := by simp
  have e2 : ((p1 : Int) + 1) = ((p1 + 1 : Nat) : Int) := by push_cast; ring
  have e3 : ((p2 : Int) + 0) = ((p2 : Nat) : Int) := by simp
  have e4 : ((p2 : Int) + 1) = ((p2 + 1 : Nat) : Int) := by push_cast; ring
  have c0 : (0 : Int) = ((0 : Nat) : Int) := rfl
  have c1 : (1 : Int) = ((1 : Nat) : Int) := rfl
  have c2 : (2 : Int) = ((2 : Nat) : Int) := rfl
  have rx0 : readAt xs 0 = some x := by rw [c0, readAt_natCast]; exact hx0
  have rx1 : readAt xs 1 = some y := by rw [c1, readAt_natCast]; exact hx1
  have ro1 : readAt uOff_x 1 = some (p1 : Int) := by rw [c1, readAt_natCast]; exact ho1
  have ro2 : readAt uOff_x 2 = some (p2 : Int) := by rw [c2, readAt_natCast]; exact ho2
  have rPr : readAt constants 0 = some Pr := by rw [c0, readAt_natCast]; exact hPr
  have rGr : readAt constants 1 = some Gr := by rw [c1, readAt_natCast]; exact hGr
  have w0 : writeAt ubuf 0 (x * x + y * y) = some (ubuf.set 0 (x * x + y * y)) := by
    rw [c0]; exact writeAt_natCast _ _ _ hw0
  have w1 : writeAt (ubuf.set 0 (x * x + y * y)) 1 (2 * x * x - 2 * x * y) =
      some ((ubuf.set 0 (x * x + y * y)).set 1 (2 * x * x - 2 * x * y)) := by
    rw [c1]; exact writeAt_natCast _ _ _ hw1
  have wf : ∀ v : α, writeAt f0 0 v = some (f0.set 0 v) := by
    intro v; rw [c0]; exact writeAt_natCast _ _ _ hf0
  refine ⟨(ubuf.set 0 (x * x + y * y)).set 1 (2 * x * x - 2 * x * y), ?_, ?_, ?_, ?_⟩
  · simp only [mms_0_u, rx0, rx1, Option.some_bind, w0, w1]
  · rw [List.getElem?_set_ne (show 1 ≠ 0 by decide), List.getElem?_set_self hw0]
  · rw [List.getElem?_set_self hw1]
  · intro u hu0 hu1
    rw [List.getElem?_set_ne (show 1 ≠ 0 by decide), List.getElem?_set_self hw0] at hu0
    rw [List.getElem?_set_self hw1] at hu1
    have ru0 : readAt u 0 = some (x * x + y * y) := by rw [c0, readAt_natCast]; exact hu0
    have ru1 : readAt u 1 = some (2 * x * x - 2 * x * y) := by
      rw [c1, readAt_natCast]; exact hu1
    have zO : -Gr * 1 + (x * x + y * y) * 4 + (2 * x * x - 2 * x * y) * (-4) +
        4 * (x * x - 2 * x * y - y * y) + Gr = 0 := by ring
    have zT : Pr * ((x * x + y * y) * 1 + (2 * x * x - 2 * x * y) * 0) -
        Pr * (x * x + y * y) = 0 := by ring
    refine ⟨f0.set 0 0, f0.set 0 0, ?_, List.getElem?_set_self hf0, ?_,
      List.getElem?_set_self hf0⟩
    · simp only [f0_mms_0_O, rGr, ro2, ro1, e1, e2, e3, readAt_natCast, hTx, hOx, hOy, ru0, ru1,
        rx0, rx1, Option.some_bind, f0_mms_0_O_value, zO, wf]
    · simp only [f0_mms_0_T, rPr, ro2, e3, e4, readAt_natCast, hTx, hTy, ru0, ru1,
        rx0, rx1, Option.some_bind, f0_mms_0_T_value, zT, wf]

/-- Witness of C26 at the point (3, 5) with `Pr = 7`, `Gr = 11` over the integers. -/
theorem mms_0_cancels_forcing_witness :
    ∃ U, mms_0_u [3, (5 : Int)] [0, 0] = some U ∧
      U[0]? = some (3 * 3 + 5 * 5) ∧ U[1]? = some (2 * 3 * 3 - 2 * 3 * 5) ∧
      ∀ u : List Int, u[0]? = U[0]? → u[1]? = U[1]? →
        ∃ out1 out2,
          f0_mms_0_O [0, 4, 6] u [6, 10, 2, -6, 4, -4, 1, 0] [3, 5] [7, 11, 0] [99] = some out1 ∧
          out1[0]? = some 0 ∧
          f0_mms_0_T [0, 4, 6] u [6, 10, 2, -6, 4, -4, 1, 0] [3, 5] [7, 11, 0] [99] = some out2 ∧
          out2[0]? = some 0 :=
  mms_0_cancels_forcing 3 5 7 11 [3, 5] [0, 0] [6, 10, 2, -6, 4, -4, 1, 0] [7, 11, 0] [99]
    [0, 4, 6] 4 6 rfl rfl (by decide) rfl rfl rfl rfl rfl rfl rfl rfl (by decide)

end Ex4

namespace Ex56

/-- A counted loop written as a fold establishes an invariant its body preserves. -/
theorem foldl_range_inv {σ : Type} (n : Nat) (f : σ → Nat → σ) (Inv : Nat → σ → Prop) (s : σ)
    (h0 : Inv 0 s) (hstep : ∀ k, k < n → ∀ t, Inv k t → Inv (k + 1) (f t k)) :
    Inv n ((List.range n).foldl f s) := by
  have key : ∀ m, m ≤ n → Inv m ((List.range m).foldl f s) := by
    intro m
    induction m with
    | zero => intro _; exact h0
    | succ m ih =>
      intro hm
      rw [List.range_succ, List.foldl_append]
      exact hstep m (by omega) _ (ih (by omega))
  exact key n le_rfl

/-- After the loops `x` holds 10, 11, ..., 63 in memory order and `val` is 64. -/
theorem fillX_spec (junk : List Int) (hx : junk.length = 54) :
    (fillX junk).2 = 64 ∧ (fillX junk).1.length = 54 ∧
      ∀ k : Nat, k < 54 → (fillX junk).1[k]? = some (10 + (k : Int)) := by
  have h := foldl_range_inv 6
    (fun (st : List Int × Int) (i : Nat) => (List.range 9).foldl
      (fun (st : List Int × Int) (j : Nat) => (st.1.set (9 * i + j) st.2, st.2 + 1)) st)
    (fun (i : Nat) (st : List Int × Int) => st.2 = 10 + 9 * (i : Int) ∧ st.1.length = 54 ∧
      ∀ k : Nat, k < 9 * i → st.1[k]? = some (10 + (k : Int)))
    (junk, 10) ⟨by simp, hx, fun k hk => absurd hk (by omega)⟩
    (by
      intro i hi st hst
      have h2 := foldl_range_inv 9
        (fun (st : List Int × Int) (j : Nat) => (st.1.set (9 * i + j) st.2, st.2 + 1))
        (fun (j : Nat) (st : List Int × Int) => st.2 = 10 + 9 * (i : Int) + (j : Int) ∧
          st.1.length = 54 ∧ ∀ k : Nat, k < 9 * i + j → st.1[k]? = some (10 + (k : Int)))
        st ⟨by simpa using hst.1, hst.2.1, fun k hk => hst.2.2 k (by omega)⟩
        (by
          intro j hj t ⟨ht1, ht2, ht3⟩
          refine ⟨by simp only [ht1]; push_cast; ring, by simp only [List.length_set, ht2], ?_⟩
          intro k hk
          by_cases hkj : k = 9 * i + j
          · have hw : 9 * i + j < t.1.length := by omega
            rw [hkj, List.getElem?_set_self hw, ht1]
            push_cast; ring_nf
          · have n1 : 9 * i + j ≠ k := fun h => hkj h.symm
            simp only
            rw [List.getElem?_set_ne n1]
            exact ht3 k (by omega))
      refine ⟨?_, h2.2.1, fun k hk => h2.2.2 k (by omega)⟩
      rw [h2.1]; push_cast; ring)
  exact ⟨by simpa [fillX] using h.1, h.2.1, fun k hk => h.2.2 k (by omega)⟩

/-- After the loops `y` holds `10 + i*eval + j` at offset `3*i + j`. -/
theorem fillY_spec (eval : Int) (junk : List Int) (hy : junk.length = 9) :
    ∀ i j : Nat, i < 3 → j < 3 →
      (fillY eval junk)[3 * i + j]? = some (10 + (i : Int) * eval + (j : Int)) := by
  have h := foldl_range_inv 3
    (fun (y : List Int) (i : Nat) => (List.range 3).foldl
      (fun (y : List Int) (j : Nat) => y.set (3 * i + j) (10 + (i : Int) * eval + (j : Int))) y)
    (fun (i : Nat) (y : List Int) => y.length = 9 ∧
      ∀ a b : Nat, a < i → b < 3 → y[3 * a + b]? = some (10 + (a : Int) * eval + (b : Int)))
    junk ⟨hy, fun a b ha => absurd ha (by omega)⟩
    (by
      intro i hi y hyv
      exact foldl_range_inv 3
        (fun (y : List Int) (j : Nat) => y.set (3 * i + j) (10 + (i : Int) * eval + (j : Int)))
        (fun (j : Nat) (y : List Int) => y.length = 9 ∧
          (∀ a b : Nat, a < i → b < 3 → y[3 * a + b]? = some (10 + (a : Int) * eval + (b : Int))) ∧
          ∀ b : Nat, b < j → y[3 * i + b]? = some (10 + (i : Int) * eval + (b : Int)))
        y ⟨hyv.1, hyv.2, fun b hb => absurd hb (by omega)⟩
        (by
          intro j hj t ⟨ht1, ht2, ht3⟩
          have hw : 3 * i + j < t.length := by omega
          refine ⟨by simp only [List.length_set, ht1], ?_, ?_⟩
          · intro a b ha hb
            have n1 : 3 * i + j ≠ 3 * a + b := by omega
            rw [List.getElem?_set_ne n1]
            exact ht2 a b ha hb
          · intro b hb
            by_cases hbj : b = j
            · rw [hbj, List.getElem?_set_self hw]
            · have n1 : 3 * i + j ≠ 3 * i + b := by omega
              rw [List.getElem?_set_ne n1]
              exact ht3 b (by omega))
        |> fun h3 => ⟨h3.1, fun a b ha hb => by
            by_cases hai : a = i
            · rw [hai]; exact h3.2.2 b hb
            · exact h3.2.1 a b (by omega) hb⟩)
  exact fun i j hi hj => h.2 i j hi hj

/-- C27. In `ex56.c` the single-block insertion repeats values already inserted: whatever
the arrays held before, `x[i][j] = 10 + 9*i + j` and `y[i][j] = 10 + i*eval + j`, and the 3x3
block `y` equals, entry for entry, the block in rows 0..2 and columns 0..2 of the 6x9 value
array `x`: when values are row-oriented (`eval = 9`), entry `(r, c)` at offset `3*r + c` of
`y` and `9*r + c` of `x`; with `-column_oriented` (`eval = 6`), entry `(r, c)` at offset
`3*c + r` of `y` and `6*c + r` of `x`. -/
theorem single_block_repeats_values (junkX junkY : List Int) (hx : junkX.length = 54)
    (hy : junkY.length = 9) :
    (∀ i j : Nat, i < 6 → j < 9 →
      (fillX junkX).1[9 * i + j]? = some (10 + 9 * (i : Int) + (j : Int))) ∧
    (∀ (col : Bool) (i j : Nat), i < 3 → j < 3 →
      (fillY (evalOf col) junkY)[3 * i + j]? = some (10 + (i : Int) * evalOf col + (j : Int))) ∧
    (∀ r c : Nat, r < 3 → c < 3 →
      (fillY (evalOf false) junkY)[3 * r + c]? = (fillX junkX).1[9 * r + c]?) ∧
    (∀ r c : Nat, r < 3 → c < 3 →
      (fillY (evalOf true) junkY)[3 * c + r]? = (fillX junkX).1[6 * c + r]?) := by
  obtain ⟨-, -, hX⟩ := fillX_spec junkX hx
  refine ⟨?_, fun col i j hi hj => fillY_spec _ junkY hy i j hi hj, ?_, ?_⟩
  · intro i j hi hj
    rw [hX (9 * i + j) (by omega)]; push_cast; ring_nf
  · intro r c hr hc
    rw [fillY_spec _ junkY hy r c hr hc, hX (9 * r + c) (by omega)]
    simp only [evalOf]; push_cast; ring_nf
  · intro r c hr hc
    rw [fillY_spec _ junkY hy c r hc hr, hX (6 * c + r) (by omega)]
    simp only [evalOf]; push_cast; ring_nf

/-- Witness of C27 with both arrays holding sevens before. -/
theorem single_block_repeats_values_witness :
    (∀ i j : Nat, i < 6 → j < 9 →
      (fillX (List.replicate 54 7)).1[9 * i + j]? = some (10 + 9 * (i : Int) + (j : Int))) ∧
    (∀ (col : Bool) (i j : Nat), i < 3 → j < 3 →
      (fillY (evalOf col) (List.replicate 9 7))[3 * i + j]? =
        some (10 + (i : Int) * evalOf col + (j : Int))) ∧
    (∀ r c : Nat, r < 3 → c < 3 →
      (fillY (evalOf false) (List.replicate 9 7))[3 * r + c]? =
        (fillX (List.replicate 54 7)).1[9 * r + c]?) ∧
    (∀ r c : Nat, r < 3 → c < 3 →
      (fillY (evalOf true) (List.replicate 9 7))[3 * c + r]? =
        (fillX (List.replicate 54 7)).1[6 * c + r]?) :=
  single_block_repeats_values (List.replicate 54 7) (List.replicate 9 7) rfl rfl

end Ex56
